import Mathlib

/-!
# Verification of the go-mssqldb connection-string front end

A shallow embedding of `conn_str.go`: the three DSN tokenizers
(semicolon, URL, ODBC), the parameter resolver, and the canonical URL
serializer, together with proofs of the specification claims.

Modelling conventions:
* A Go string is a byte slice; a `Str` models it as a `List Char`, one
  entry per element.  Statements about percent-escaping are made in the
  byte-level view (`isBytes`): one entry per byte of the Go string, each
  entry's code point at most 255, a non-ASCII string being given by its
  UTF-8 bytes.  In that view the URL escaping layer is exact — `escape`
  and `unescape` transform one entry, that is one byte, precisely as Go
  transforms one byte — and every Go string is representable without
  loss.  (Read at rune granularity instead, the two-digit escape
  coincides with Go only below U+0100; no theorem relies on that
  reading.)
* Go maps from string to string are modelled as association lists with
  overwrite-on-insert (`mapSet`), first-match lookup (`mapGet`).
* The two operating-system effects of the resolver (`os.Stat` on the
  key-store location and `os.Hostname`) are passed in as explicit
  parameters `fileExists : Str → Bool` and `osHostname : Option Str`.
* Fallible functions return `Except Str _`; error messages mirror the
  Go `fmt.Errorf` formats.
-/

set_option autoImplicit false
set_option maxRecDepth 100000

namespace ConnStr

/-- A Go string, modelled as its list of runes. -/
abbrev Str := List Char

/-- Shorthand to write a modelled Go string as a Lean string literal. -/
def str (s : String) : Str := s.toList

/-! ## Pieces of the Go standard library used by `conn_str.go` -/

/-- `unicode.IsSpace`: Unicode white space (the full table from the Go
`unicode` package: Latin-1 white space plus the `White_Space` property). -/
def goIsSpace (c : Char) : Bool :=
  c.toNat = 0x09 ∨ c.toNat = 0x0A ∨ c.toNat = 0x0B ∨ c.toNat = 0x0C ∨
  c.toNat = 0x0D ∨ c.toNat = 0x20 ∨ c.toNat = 0x85 ∨ c.toNat = 0xA0 ∨
  c.toNat = 0x1680 ∨ (0x2000 ≤ c.toNat ∧ c.toNat ≤ 0x200A) ∨
  c.toNat = 0x2028 ∨ c.toNat = 0x2029 ∨ c.toNat = 0x202F ∨
  c.toNat = 0x205F ∨ c.toNat = 0x3000

/-- Per-rune lower-casing (`unicode.ToLower`, ASCII range; the full Unicode
case tables are elided — every string the resolver compares case-insensitively
is ASCII). -/
def goToLowerChar (c : Char) : Char :=
  if 'A' ≤ c ∧ c ≤ 'Z' then Char.ofNat (c.toNat + 32) else c

/-- Per-rune upper-casing (`unicode.ToUpper`, ASCII range). -/
def goToUpperChar (c : Char) : Char :=
  if 'a' ≤ c ∧ c ≤ 'z' then Char.ofNat (c.toNat - 32) else c

/-- `strings.ToLower` (ASCII range). -/
def goToLower (s : Str) : Str := s.map goToLowerChar

/-- `strings.ToUpper` (ASCII range). -/
def goToUpper (s : Str) : Str := s.map goToUpperChar

/-- `strings.EqualFold` (ASCII simple folding). -/
def goEqualFold (s t : Str) : Bool := goToLower s = goToLower t

/-- `strings.TrimRightFunc f` with a predicate. -/
def goTrimRight (f : Char → Bool) (s : Str) : Str :=
  (s.reverse.dropWhile f).reverse

/-- `strings.TrimSpace`. -/
def goTrimSpace (s : Str) : Str :=
  (s.dropWhile goIsSpace).reverse.dropWhile goIsSpace |>.reverse

/-- `strings.HasPrefix`. -/
def goHasPrefix (pre s : Str) : Bool := List.isPrefixOf pre s

/-- `strings.HasSuffix`. -/
def goHasSuffix (suf s : Str) : Bool := List.isSuffixOf suf s

/-- `strings.Contains` for a single character. -/
def containsChar (c : Char) (s : Str) : Bool := s.contains c

/-- Split at the first occurrence of `c`: `some (before, after)` when `c`
occurs (the separator removed), `none` otherwise.  This models both
`strings.Cut` and `net/url`'s `split(s, c, true)`. -/
def splitAtFirst (c : Char) : Str → Option (Str × Str)
  | [] => none
  | a :: t =>
    if a = c then some ([], t)
    else (splitAtFirst c t).map (fun p => (a :: p.1, p.2))

/-- `strings.SplitN s sep 2` for a one-character separator: the part before
the first occurrence plus, when the separator occurs, the remainder. -/
def goSplitN2 (c : Char) (s : Str) : Str × Option Str :=
  match splitAtFirst c s with
  | some (x, y) => (x, some y)
  | none => (s, none)

/-- Helper for `goSplit`: accumulates the current segment in reverse. -/
def goSplitAux (c : Char) : Str → Str → List Str
  | [], acc => [acc.reverse]
  | a :: t, acc => if a = c then acc.reverse :: goSplitAux c t [] else goSplitAux c t (a :: acc)

/-- `strings.Split` on a one-character separator. -/
def goSplit (c : Char) (s : Str) : List Str := goSplitAux c s []

/-- Split at the last occurrence of `c` (`strings.LastIndex`-based splitting):
`some (before, after)` when `c` occurs. -/
def splitAtLast (c : Char) (s : Str) : Option (Str × Str) :=
  match splitAtFirst c s.reverse with
  | some (x, y) => some (y.reverse, x.reverse)
  | none => none

/-! ### `strconv` -/

/-- The value of an ASCII digit or letter, as in `strconv`'s per-byte switch:
`none` when the character is neither a digit nor a letter. -/
def digitVal (c : Char) : Option Nat :=
  if '0' ≤ c ∧ c ≤ '9' then some (c.toNat - '0'.toNat)
  else
    let l := goToLowerChar c
    if 'a' ≤ l ∧ l ≤ 'z' then some (l.toNat - 'a'.toNat + 10)
    else none

/-- 2⁶⁴ − 1, `strconv`'s `maxUint64`. -/
def maxUint64 : Nat := 2 ^ 64 - 1

/-- The digit loop of `strconv.ParseUint` (overflow checks included;
in `Nat` the two Go overflow tests collapse to a bound check against
`maxVal`).  `base0` enables the underscore skipping of base-0 mode. -/
def parseUintLoop (base maxVal : Nat) (base0 : Bool) : Str → Nat → Except Str Nat
  | [], n => .ok n
  | c :: t, n =>
    if c = '_' ∧ base0 then parseUintLoop base maxVal base0 t n
    else match digitVal c with
      | none => .error (str "invalid syntax")
      | some d =>
        if d ≥ base then .error (str "invalid syntax")
        else if n ≥ maxUint64 / base + 1 then .error (str "value out of range")
        else if n * base + d > maxVal then .error (str "value out of range")
        else parseUintLoop base maxVal base0 t (n * base + d)

/-- The underscore well-formedness check of `strconv` (`underscoreOK`):
underscores may appear only between a base prefix and digits or between
successive digits. -/
def underscoreOKGo (saw : Char) : Str → Bool
  | [] => saw ≠ '_'
  | c :: t =>
    if c = '_' then
      if saw ≠ '0' then false else underscoreOKGo '_' t
    else if (digitVal c).isSome then underscoreOKGo '0' t
    else if saw = '_' then false else underscoreOKGo '!' t

/-- The underscore well-formedness body: `saw` tracks the last character
class: `'^'` start, `'0'` digit or base prefix, `'_'` underscore,
`'!'` other. -/
def underscoreOK (s : Str) : Bool :=
  match s with
  | '0' :: b :: t =>
    if b = 'b' ∨ b = 'B' ∨ b = 'o' ∨ b = 'O' ∨ b = 'x' ∨ b = 'X' then underscoreOKGo '0' t
    else underscoreOKGo '0' (b :: t)
  | s => underscoreOKGo '^' s

/-- The base-prefix handling of `strconv.ParseUint` in base-0 mode:
derive the effective base from a `0b`/`0o`/`0x`/leading-`0` prefix and
strip it. -/
def parseUintPrefix (base : Nat) (s0 : Str) : Nat × Str :=
  if base ≠ 0 then (base, s0)
  else match s0 with
    | '0' :: c :: t =>
      if (c = 'b' ∨ c = 'B') ∧ t ≠ [] then (2, t)
      else if (c = 'o' ∨ c = 'O') ∧ t ≠ [] then (8, t)
      else if (c = 'x' ∨ c = 'X') ∧ t ≠ [] then (16, t)
      else (8, c :: t)
    | '0' :: t => (8, t)
    | s => (10, s)

/-- The final underscore validation of `strconv.ParseUint` in base-0
mode (`if underscores && !underscoreOK(s0)`). -/
def parseUintFinish (base0 : Bool) (s0 : Str) (r : Except Str Nat) : Except Str Nat :=
  match r with
  | .error e => .error e
  | .ok n => if base0 ∧ ¬ underscoreOK s0 then .error (str "invalid syntax") else .ok n

/-- `strconv.ParseUint s base bitSize` for the call shapes used in
`conn_str.go` (`base` 10 or 0, `bitSize` 16 or 64).  Base 0 derives the
base from a prefix and allows underscores. -/
def parseUint (s0 : Str) (base bitSize : Nat) : Except Str Nat :=
  if s0 = [] then .error (str "invalid syntax")
  else
    parseUintFinish (decide (base = 0)) s0
      (parseUintLoop (parseUintPrefix base s0).1 (2 ^ bitSize - 1) (decide (base = 0))
        (parseUintPrefix base s0).2 0)

/-- `strconv.ParseBool`. -/
def parseBool (s : Str) : Option Bool :=
  if s = str "1" ∨ s = str "t" ∨ s = str "T" ∨ s = str "true" ∨
     s = str "TRUE" ∨ s = str "True" then some true
  else if s = str "0" ∨ s = str "f" ∨ s = str "F" ∨ s = str "false" ∨
     s = str "FALSE" ∨ s = str "False" then some false
  else none

/-- Decimal digits of `n`, most significant first (`strconv.FormatUint`
base 10 / `fmt`'s `%d`), via a fuel-indexed helper so that it reduces
definitionally. -/
def natToStrAux : Nat → Nat → Str
  | 0, _ => []
  | _ + 1, n =>
    if n < 10 then [Char.ofNat ('0'.toNat + n)]
    else natToStrAux n (n / 10) ++ [Char.ofNat ('0'.toNat + n % 10)]

/-- `strconv.FormatUint n 10`. -/
def natToStr (n : Nat) : Str := natToStrAux (n + 1) n

/-! ### Maps

Go's `map[string]string` is modelled as an association list with unique
keys: `mapSet` overwrites in place, `mapGet` finds the first match. -/

/-- The raw parameter map handed from the tokenizers to the resolver. -/
abbrev RawParams := List (Str × Str)

/-- Map update: overwrite the first binding of `k`, else append. -/
def mapSet : RawParams → Str → Str → RawParams
  | [], k, v => [(k, v)]
  | (k', v') :: t, k, v => if k' = k then (k, v) :: t else (k', v') :: mapSet t k v

/-- Map lookup (`value, ok := m[k]`). -/
def mapGet (m : RawParams) (k : Str) : Option Str :=
  match m with
  | [] => none
  | (k', v) :: t => if k' = k then some v else mapGet t k

/-- Map indexing with the zero value (`m[k]` used directly). -/
def mapGetD (m : RawParams) (k : Str) : Str := (mapGet m k).getD []

/-! ## The semicolon-format tokenizer (`splitConnectionString`) -/

/-- One iteration of `splitConnectionString`'s loop body over a `;`-segment. -/
def splitConnectionStringPart (res : RawParams) (part : Str) : RawParams :=
  if part = [] then res
  else
    let lst := goSplitN2 '=' part
    let name := goTrimSpace (goToLower lst.1)
    if name = [] then res
    else
      let value := match lst.2 with
        | some v => goTrimSpace v
        | none => []
      mapSet res name value

/-- `splitConnectionString`: the legacy `key=value;…` tokenizer. -/
def splitConnectionString (dsn : Str) : RawParams :=
  (goSplit ';' dsn).foldl splitConnectionStringPart []

/-! ## The ODBC tokenizer (`splitConnectionStringOdbc`) -/

/-- The states of the ODBC tokenizer (`parserState…` constants). -/
inductive parserState where
  | beforeKey
  | key
  | beginValue
  | bareValue
  | bracedValue
  | bracedValueClosingBrace
  | endValue
deriving DecidableEq, Repr

/-- The mutable locals of the ODBC scanning loop. -/
structure OdbcAcc where
  res : RawParams
  key : Str
  value : Str
  state : parserState
deriving DecidableEq, Repr

/-- `normalizeOdbcKey`. -/
def normalizeOdbcKey (s : Str) : Str := goToLower (goTrimRight goIsSpace s)

/-- One character of the ODBC scanning loop (`for i, c := range dsn`),
`i` being the character's index (used only in error messages). -/
def odbcStep (i : Nat) (c : Char) (a : OdbcAcc) : Except Str OdbcAcc :=
  match a.state with
  | .beforeKey =>
    if c = '=' then
      .error (str "unexpected character = at index " ++ natToStr i ++
        str ". Expected start of key or semi-colon or whitespace")
    else if ¬ goIsSpace c ∧ c ≠ ';' then
      .ok { a with state := .key, key := a.key ++ [c] }
    else .ok a
  | .key =>
    if c = '=' then
      .ok { a with key := normalizeOdbcKey a.key, state := .beginValue }
    else if c = ';' then
      let key := normalizeOdbcKey a.key
      .ok { res := mapSet a.res key a.value, key := [], value := [], state := .beforeKey }
    else .ok { a with key := a.key ++ [c] }
  | .beginValue =>
    if c = '{' then .ok { a with state := .bracedValue }
    else if c = ';' then
      .ok { a with res := mapSet a.res a.key a.value, key := [], state := .beforeKey }
    else if goIsSpace c then .ok a
    else .ok { a with state := .bareValue, value := a.value ++ [c] }
  | .bareValue =>
    if c = ';' then
      .ok { res := mapSet a.res a.key (goTrimRight goIsSpace a.value),
            key := [], value := [], state := .beforeKey }
    else .ok { a with value := a.value ++ [c] }
  | .bracedValue =>
    if c = '}' then .ok { a with state := .bracedValueClosingBrace }
    else .ok { a with value := a.value ++ [c] }
  | .bracedValueClosingBrace =>
    if c = '}' then
      -- Escaped closing brace
      .ok { a with value := a.value ++ [c], state := .bracedValue }
    else
      -- End of braced value; this character is the first one past the end,
      -- so it is parsed like the endValue state.
      let a := { res := mapSet a.res a.key a.value, key := [], value := [],
                 state := parserState.endValue }
      if c = ';' then .ok { a with state := .beforeKey }
      else if goIsSpace c then .ok a
      else
        .error (str "unexpected character " ++ [c] ++ str " at index " ++ natToStr i ++
          str ". Expected semi-colon or whitespace")
  | .endValue =>
    if c = ';' then .ok { a with state := .beforeKey }
    else if goIsSpace c then .ok a
    else
      .error (str "unexpected character " ++ [c] ++ str " at index " ++ natToStr i ++
        str ". Expected semi-colon or whitespace")

/-- The scanning loop of `splitConnectionStringOdbc`. -/
def odbcLoop (i : Nat) (a : OdbcAcc) : Str → Except Str OdbcAcc
  | [] => .ok a
  | c :: t => do odbcLoop (i + 1) (← odbcStep i c a) t

/-- The end-of-input finalization switch of `splitConnectionStringOdbc`. -/
def odbcFinish (dsnLen : Nat) (a : OdbcAcc) : Except Str RawParams :=
  match a.state with
  | .beforeKey => .ok a.res
  | .key => .ok (mapSet a.res (normalizeOdbcKey a.key) a.value)
  | .beginValue => .ok (mapSet a.res a.key a.value)
  | .bareValue => .ok (mapSet a.res a.key (goTrimRight goIsSpace a.value))
  | .bracedValue =>
    .error (str "unexpected end of braced value at index " ++ natToStr dsnLen)
  | .bracedValueClosingBrace => .ok (mapSet a.res a.key a.value)
  | .endValue => .ok a.res

/-- `splitConnectionStringOdbc`: the ODBC-format state-machine tokenizer. -/
def splitConnectionStringOdbc (dsn : Str) : Except Str RawParams := do
  odbcFinish dsn.length (← odbcLoop 0 ⟨[], [], [], .beforeKey⟩ dsn)

/-! ## The resolved configuration (`connectParams`) and the resolver -/

/-- `time.Duration` is modelled as a count of nanoseconds (64-bit wrap of
the Go multiplication is elided; no claim concerns timeout values). -/
def nsPerSecond : Nat := 1000000000

/-- `defaultServerPort`. -/
def defaultServerPort : Nat := 1433

/-- Default packet size for the TDS buffer (`defaultPacketSize`). -/
def defaultPacketSize : Nat := 4096

/-- Modelled from the spec: the fixed federated-auth "reserved" default
(`fedAuthLibraryReserved`, defined outside `conn_str.go`; §9 of the spec
asks for it as an explicit starting-state default, its numeric value is
never examined here). -/
def fedAuthLibraryReserved : Nat := 7

/-- Modelled from the spec: the read-only application-intent bit of
`typeFlags` (`fReadOnlyIntent`, defined outside `conn_str.go`; the spec
says only that a flag bit is set, so one fixed nonzero bit is used). -/
def fReadOnlyIntent : Nat := 32

/-- The typed, validated configuration (`connectParams`). -/
structure connectParams where
  logFlags : Nat
  port : Nat
  host : Str
  instance_ : Str
  database : Str
  user : Str
  password : Str
  dial_timeout : Nat
  conn_timeout : Nat
  keepAlive : Nat
  encrypt : Bool
  disableEncryption : Bool
  trustServerCertificate : Bool
  certificate : Str
  hostInCertificate : Str
  hostInCertificateProvided : Bool
  serverSPN : Str
  workstation : Str
  appname : Str
  typeFlags : Nat
  failOverPartner : Str
  failOverPort : Nat
  packetSize : Nat
  fedAuthLibrary : Nat
  fedAuthADALWorkflow : Nat
  columnEncryption : Bool
  keyStoreAuthentication : Str
  keyStoreLocation : Str
  keyStoreSecret : Str
deriving DecidableEq, Repr

/-- The zero-initialized starting configuration (`p := connectParams{…}`). -/
def initParams : connectParams :=
  { logFlags := 0, port := 0, host := [], instance_ := [], database := [],
    user := [], password := [], dial_timeout := 0, conn_timeout := 0,
    keepAlive := 0, encrypt := false, disableEncryption := false,
    trustServerCertificate := false, certificate := [], hostInCertificate := [],
    hostInCertificateProvided := false, serverSPN := [], workstation := [],
    appname := [], typeFlags := 0, failOverPartner := [], failOverPort := 0,
    packetSize := 0, fedAuthLibrary := fedAuthLibraryReserved,
    fedAuthADALWorkflow := 0, columnEncryption := false,
    keyStoreAuthentication := [], keyStoreLocation := [], keyStoreSecret := [] }

/-- `resolveServerPort`. -/
def resolveServerPort (port : Nat) : Nat :=
  if port = 0 then defaultServerPort else port

/-- `generateSpn` (`fmt.Sprintf "MSSQLSvc/%s:%d"`). -/
def generateSpn (host : Str) (port : Nat) : Str :=
  str "MSSQLSvc/" ++ host ++ str ":" ++ natToStr port

/-- Lines 79–86: the `log` parameter. -/
def stepLog (m : RawParams) (p : connectParams) : Except Str connectParams :=
  match mapGet m (str "log") with
  | none => .ok p
  | some strlog =>
    match parseUint strlog 10 64 with
    | .ok v => .ok { p with logFlags := v }
    | .error e => .error (str "invalid log parameter '" ++ strlog ++ str "': " ++ e)

/-- Lines 87–95: `server` split into host and instance, host normalization. -/
def stepServer (m : RawParams) (p : connectParams) : connectParams :=
  let server := mapGetD m (str "server")
  let parts := goSplitN2 '\\' server
  let host0 := parts.1
  let host :=
    if host0 = str "." ∨ goToUpper host0 = str "(LOCAL)" ∨ host0 = [] then str "localhost"
    else host0
  match parts.2 with
  | some inst => { p with host := host, instance_ := inst }
  | none => { p with host := host }

/-- Lines 96–98: `database`, `user id`, `password`. -/
def stepDatabaseUserPassword (m : RawParams) (p : connectParams) : connectParams :=
  { p with database := mapGetD m (str "database"),
           user := mapGetD m (str "user id"),
           password := mapGetD m (str "password") }

/-- Lines 100–109: the `port` parameter. -/
def stepPort (m : RawParams) (p : connectParams) : Except Str connectParams :=
  let p := { p with port := 0 }
  match mapGet m (str "port") with
  | none => .ok p
  | some strport =>
    match parseUint strport 10 16 with
    | .ok v => .ok { p with port := v }
    | .error e => .error (str "invalid tcp port '" ++ strport ++ str "': " ++ e)

/-- Lines 112–132: the `packet size` parameter with its clamp to
[512, 32767] (the `uint16` conversion appears as `% 2^16`). -/
def stepPacketSize (m : RawParams) (p : connectParams) : Except Str connectParams :=
  let p := { p with packetSize := defaultPacketSize }
  match mapGet m (str "packet size") with
  | none => .ok p
  | some strpsize =>
    match parseUint strpsize 0 16 with
    | .error e => .error (str "invalid packet size '" ++ strpsize ++ str "': " ++ e)
    | .ok psize =>
      let sz := psize % 2 ^ 16
      .ok { p with packetSize := if sz < 512 then 512 else if sz > 32767 then 32767 else sz }

/-- Lines 138–145: the `connection timeout` parameter. -/
def stepConnTimeout (m : RawParams) (p : connectParams) : Except Str connectParams :=
  match mapGet m (str "connection timeout") with
  | none => .ok p
  | some s =>
    match parseUint s 10 64 with
    | .ok t => .ok { p with conn_timeout := t * nsPerSecond }
    | .error e => .error (str "invalid connection timeout '" ++ s ++ str "': " ++ e)

/-- Lines 146–154: the `dial timeout` parameter (default 15s). -/
def stepDialTimeout (m : RawParams) (p : connectParams) : Except Str connectParams :=
  let p := { p with dial_timeout := 15 * nsPerSecond }
  match mapGet m (str "dial timeout") with
  | none => .ok p
  | some s =>
    match parseUint s 10 64 with
    | .ok t => .ok { p with dial_timeout := t * nsPerSecond }
    | .error e => .error (str "invalid dial timeout '" ++ s ++ str "': " ++ e)

/-- Lines 158–166: the `keepalive` parameter (default 30s). -/
def stepKeepAlive (m : RawParams) (p : connectParams) : Except Str connectParams :=
  let p := { p with keepAlive := 30 * nsPerSecond }
  match mapGet m (str "keepalive") with
  | none => .ok p
  | some s =>
    match parseUint s 10 64 with
    | .ok t => .ok { p with keepAlive := t * nsPerSecond }
    | .error e => .error (str "invalid keepAlive value '" ++ s ++ str "': " ++ e)

/-- Lines 167–181: the `encrypt` parameter. -/
def stepEncrypt (m : RawParams) (p : connectParams) : Except Str connectParams :=
  match mapGet m (str "encrypt") with
  | some encrypt =>
    if goEqualFold encrypt (str "DISABLE") then
      .ok { p with disableEncryption := true }
    else
      match parseBool encrypt with
      | some b => .ok { p with encrypt := b }
      | none => .error (str "invalid encrypt '" ++ encrypt ++ str "': invalid syntax")
  | none => .ok { p with trustServerCertificate := true }

/-- Lines 183–197: the `columnencryption` parameter. -/
def stepColumnEncryption (m : RawParams) (p : connectParams) : Except Str connectParams :=
  match mapGet m (str "columnencryption") with
  | some v =>
    if goEqualFold v (str "true") then
      .ok { p with columnEncryption := true }
    else
      match parseBool v with
      | some b => .ok { p with columnEncryption := b }
      | none => .error (str "invalid columnEncryption '" ++ v ++ str "': invalid syntax")
  | none => .ok { p with columnEncryption := false }

/-- Lines 199–209: the `keystoreauthentication` parameter (only `pfx`). -/
def stepKeyStoreAuth (m : RawParams) (p : connectParams) : Except Str connectParams :=
  match mapGet m (str "keystoreauthentication") with
  | none => .ok p
  | some ksAuth =>
    if goToLower ksAuth = str "pfx" then
      .ok { p with keyStoreAuthentication := str "pfx" }
    else .error (str "invalid keystotreAuthentication '" ++ ksAuth ++ str "'")

/-- Lines 211–223: the `keystorelocation` parameter; `fileExists` models
the success of the `os.Stat` existence check. -/
def stepKeyStoreLocation (fileExists : Str → Bool) (m : RawParams) (p : connectParams) :
    Except Str connectParams :=
  match mapGet m (str "keystorelocation") with
  | none => .ok p
  | some ksLocation =>
    if ksLocation = [] then
      .error (str "invalid keystore location provided: '" ++ ksLocation ++ str "'")
    else if ¬ fileExists ksLocation then
      .error (str "unable to find keystore " ++ ksLocation)
    else .ok { p with keyStoreLocation := ksLocation }

/-- Lines 225–228: the `keystoresecret` parameter. -/
def stepKeyStoreSecret (m : RawParams) (p : connectParams) : connectParams :=
  match mapGet m (str "keystoresecret") with
  | none => p
  | some ksSecret => { p with keyStoreSecret := ksSecret }

/-- Lines 230–238: the `trustservercertificate` parameter. -/
def stepTrust (m : RawParams) (p : connectParams) : Except Str connectParams :=
  match mapGet m (str "trustservercertificate") with
  | none => .ok p
  | some trust =>
    match parseBool trust with
    | some b => .ok { p with trustServerCertificate := b }
    | none =>
      .error (str "invalid trust server certificate '" ++ trust ++ str "': invalid syntax")

/-- Line 239: the `certificate` parameter. -/
def stepCertificate (m : RawParams) (p : connectParams) : connectParams :=
  { p with certificate := mapGetD m (str "certificate") }

/-- Lines 240–246: the `hostnameincertificate` parameter. -/
def stepHostInCertificate (m : RawParams) (p : connectParams) : connectParams :=
  match mapGet m (str "hostnameincertificate") with
  | some v => { p with hostInCertificate := v, hostInCertificateProvided := true }
  | none => { p with hostInCertificate := p.host, hostInCertificateProvided := false }

/-- Lines 248–253: the `serverspn` parameter. -/
def stepServerSPN (m : RawParams) (p : connectParams) : connectParams :=
  match mapGet m (str "serverspn") with
  | some v => { p with serverSPN := v }
  | none => { p with serverSPN := generateSpn p.host (resolveServerPort p.port) }

/-- Lines 255–263: the `workstation id` parameter; `osHostname` models
the result of `os.Hostname` (`none` when it fails). -/
def stepWorkstation (osHostname : Option Str) (m : RawParams) (p : connectParams) :
    connectParams :=
  match mapGet m (str "workstation id") with
  | some v => { p with workstation := v }
  | none =>
    match osHostname with
    | some h => { p with workstation := h }
    | none => p

/-- Lines 265–269: the `app name` parameter (default `go-mssqldb`). -/
def stepAppName (m : RawParams) (p : connectParams) : connectParams :=
  match mapGet m (str "app name") with
  | some v => { p with appname := v }
  | none => { p with appname := str "go-mssqldb" }

/-- Lines 271–279: the `applicationintent` parameter. -/
def stepAppIntent (m : RawParams) (p : connectParams) : Except Str connectParams :=
  match mapGet m (str "applicationintent") with
  | none => .ok p
  | some appintent =>
    if appintent = str "ReadOnly" then
      if p.database = [] then
        .error (str "database must be specified when ApplicationIntent is ReadOnly")
      else .ok { p with typeFlags := p.typeFlags ||| fReadOnlyIntent }
    else .ok p

/-- Lines 281–284: the `failoverpartner` parameter. -/
def stepFailoverPartner (m : RawParams) (p : connectParams) : connectParams :=
  match mapGet m (str "failoverpartner") with
  | some v => { p with failOverPartner := v }
  | none => p

/-- Lines 286–294: the `failoverport` parameter. -/
def stepFailoverPort (m : RawParams) (p : connectParams) : Except Str connectParams :=
  match mapGet m (str "failoverport") with
  | none => .ok p
  | some s =>
    match parseUint s 0 16 with
    | .ok v => .ok { p with failOverPort := v }
    | .error e => .error (str "invalid tcp port '" ++ s ++ str "': " ++ e)

/-- Lines 79–296 of `parseConnectParams`: resolving the raw parameter map
into a `connectParams`.  `fileExists` and `osHostname` are the two
operating-system effects, passed explicitly. -/
def resolveParams (fileExists : Str → Bool) (osHostname : Option Str)
    (params : RawParams) : Except Str connectParams := do
  let p := initParams
  let p ← stepLog params p
  let p := stepServer params p
  let p := stepDatabaseUserPassword params p
  let p ← stepPort params p
  let p ← stepPacketSize params p
  let p ← stepConnTimeout params p
  let p ← stepDialTimeout params p
  let p ← stepKeepAlive params p
  let p ← stepEncrypt params p
  let p ← stepColumnEncryption params p
  let p ← stepKeyStoreAuth params p
  let p ← stepKeyStoreLocation fileExists params p
  let p := stepKeyStoreSecret params p
  let p ← stepTrust params p
  let p := stepCertificate params p
  let p := stepHostInCertificate params p
  let p := stepServerSPN params p
  let p := stepWorkstation osHostname params p
  let p := stepAppName params p
  let p ← stepAppIntent params p
  let p := stepFailoverPartner params p
  let p ← stepFailoverPort params p
  return p

/-! ## `net/url`

Modelled from the spec: §4.3 consumes Go's `net/url` URI parser and §4.6
its canonical query encoder as external collaborators; the model below
follows their documented behaviour (percent-escaping per encoding
context, authority/path/query splitting, canonical alphabetical query
encoding) at rune level. -/

/-- The escaping contexts of `net/url` (`encoding`). -/
inductive encoding where
  | encodePath
  | encodeHost
  | encodeZone
  | encodeUserPassword
  | encodeQueryComponent
  | encodeFragment
deriving DecidableEq

/-- `net/url`'s `shouldEscape`. -/
def shouldEscape (c : Char) (mode : encoding) : Bool :=
  if ('a' ≤ c ∧ c ≤ 'z') ∨ ('A' ≤ c ∧ c ≤ 'Z') ∨ ('0' ≤ c ∧ c ≤ '9') then false
  else if (mode = .encodeHost ∨ mode = .encodeZone) ∧ c ∈ str "!$&'()*+,;=:[]<>\"" then
    false
  else if c = '-' ∨ c = '_' ∨ c = '.' ∨ c = '~' then false
  else if c = '$' ∨ c = '&' ∨ c = '+' ∨ c = ',' ∨ c = '/' ∨ c = ':' ∨ c = ';' ∨
      c = '=' ∨ c = '?' ∨ c = '@' then
    match mode with
    | .encodePath => c = '?'
    | .encodeUserPassword => c = '@' ∨ c = '/' ∨ c = '?' ∨ c = ':'
    | .encodeQueryComponent => true
    | .encodeFragment => false
    | _ => true
  else if mode = .encodeFragment ∧ (c = '!' ∨ c = '(' ∨ c = ')' ∨ c = '*') then false
  else true

/-- Is `c` a hexadecimal digit (`ishex`)? -/
def ishex (c : Char) : Bool :=
  ('0' ≤ c ∧ c ≤ '9') ∨ ('a' ≤ c ∧ c ≤ 'f') ∨ ('A' ≤ c ∧ c ≤ 'F')

/-- Hexadecimal digit value (`unhex`). -/
def unhex (c : Char) : Nat :=
  if '0' ≤ c ∧ c ≤ '9' then c.toNat - '0'.toNat
  else if 'a' ≤ c ∧ c ≤ 'f' then c.toNat - 'a'.toNat + 10
  else if 'A' ≤ c ∧ c ≤ 'F' then c.toNat - 'A'.toNat + 10
  else 0

/-- Upper-case hexadecimal digit (`upperhex`). -/
def upperHex (d : Nat) : Char :=
  if d < 10 then Char.ofNat ('0'.toNat + d) else Char.ofNat ('A'.toNat + d - 10)

/-- `escape`'s per-byte switch, for one element of the string: one byte
in the byte-level view, where the single two-digit `%XX` escape is
exactly Go's per-byte escape.  (On an element above U+00FF — which no
byte-level string contains — the two digits would truncate.) -/
def escapeChar (mode : encoding) (c : Char) : Str :=
  if shouldEscape c mode then
    if c = ' ' ∧ mode = .encodeQueryComponent then ['+']
    else ['%', upperHex (c.toNat / 16 % 16), upperHex (c.toNat % 16)]
  else [c]

/-- `net/url`'s `escape`. -/
def escape (s : Str) (mode : encoding) : Str := (s.map (escapeChar mode)).flatten

/-- `net/url`'s `unescape`: checks well-formedness of `%`-escapes, the
host-specific restrictions, and converts `+` in query components.  Each
`%XX` yields one element with code point `XX`, exactly Go's per-byte
`t.WriteByte` in the byte-level view of strings. -/
def unescape (mode : encoding) : Str → Except Str Str
  | [] => .ok []
  | '%' :: rest =>
    match rest with
    | h1 :: h2 :: t =>
      if ¬ (ishex h1 ∧ ishex h2) then .error (str "invalid URL escape")
      else
        let v := unhex h1 * 16 + unhex h2
        if mode = .encodeHost ∧ unhex h1 < 8 ∧ ¬ (h1 = '2' ∧ h2 = '5') then
          .error (str "invalid URL escape")
        else if mode = .encodeZone ∧ ¬ (h1 = '2' ∧ h2 = '5') ∧ v ≠ 32 ∧
            shouldEscape (Char.ofNat v) .encodeHost then
          .error (str "invalid URL escape")
        else do
          let r ← unescape mode t
          .ok (Char.ofNat v :: r)
    | _ => .error (str "invalid URL escape")
  | '+' :: t => do
    let r ← unescape mode t
    .ok ((if mode = .encodeQueryComponent then ' ' else '+') :: r)
  | c :: t =>
    if (mode = .encodeHost ∨ mode = .encodeZone) ∧ c.toNat < 0x80 ∧ shouldEscape c mode then
      .error (str "invalid character in host name")
    else do
      let r ← unescape mode t
      .ok (c :: r)

/-- `url.QueryEscape`. -/
def queryEscape (s : Str) : Str := escape s .encodeQueryComponent

/-- `url.QueryUnescape`. -/
def queryUnescape (s : Str) : Except Str Str := unescape .encodeQueryComponent s

/-- A parsed URL (`url.URL`; only the fields `conn_str.go` consumes). -/
structure GoURL where
  scheme : Str
  opaque_ : Str
  user : Option (Str × Option Str)
  host : Str
  path : Str
  rawQuery : Str
  forceQuery : Bool
  fragment : Str
deriving DecidableEq, Repr

/-- The all-empty URL value. -/
def emptyURL : GoURL :=
  { scheme := [], opaque_ := [], user := none, host := [], path := [],
    rawQuery := [], forceQuery := false, fragment := [] }

/-- `getScheme`'s scanning loop (`orig` is the whole input, returned
when no scheme is present). -/
def getSchemeAux (orig : Str) : Str → Str → Except Str (Str × Str)
  | _, [] => .ok ([], orig)
  | acc, c :: t =>
    if ('a' ≤ c ∧ c ≤ 'z') ∨ ('A' ≤ c ∧ c ≤ 'Z') then getSchemeAux orig (acc ++ [c]) t
    else if ('0' ≤ c ∧ c ≤ '9') ∨ c = '+' ∨ c = '-' ∨ c = '.' then
      if acc = [] then .ok ([], orig) else getSchemeAux orig (acc ++ [c]) t
    else if c = ':' then
      if acc = [] then .error (str "missing protocol scheme") else .ok (acc, t)
    else .ok ([], orig)

/-- `net/url`'s `getScheme`. -/
def getScheme (s : Str) : Except Str (Str × Str) := getSchemeAux s [] s

/-- `validOptionalPort`. -/
def validOptionalPort (port : Str) : Bool :=
  match port with
  | [] => true
  | c :: t => c = ':' ∧ t.all (fun b => '0' ≤ b ∧ b ≤ '9')

/-- `validUserinfo`. -/
def validUserinfo (s : Str) : Bool :=
  s.all fun r =>
    ('A' ≤ r ∧ r ≤ 'Z') ∨ ('a' ≤ r ∧ r ≤ 'z') ∨ ('0' ≤ r ∧ r ≤ '9') ∨
    r ∈ str "-._:~!$&'()*+,;=%@"

/-- Index of the first occurrence of `pat` in `s` (`strings.Index`). -/
def indexOfSub (pat : Str) : Str → Option Nat
  | [] => if pat = [] then some 0 else none
  | c :: t =>
    if goHasPrefix pat (c :: t) then some 0
    else (indexOfSub pat t).map (· + 1)

/-- `net/url`'s `parseHost` (IP-literal brackets, RFC 6874 zones,
optional-port validation, host unescaping). -/
def parseHost (host : Str) : Except Str Str :=
  if goHasPrefix (str "[") host then
    match splitAtLast ']' host with
    | none => .error (str "missing ']' in host")
    | some (beforeClose, colonPort) =>
      if ¬ validOptionalPort colonPort then
        .error (str "invalid port after host")
      else
        let hostUpToClose := beforeClose ++ str "]"
        match indexOfSub (str "%25") beforeClose with
        | some zone => do
          let host1 ← unescape .encodeHost (beforeClose.take zone)
          let host2 ← unescape .encodeZone (beforeClose.drop zone)
          let host3 ← unescape .encodeHost (str "]" ++ colonPort)
          .ok (host1 ++ host2 ++ host3)
        | none => unescape .encodeHost (hostUpToClose ++ colonPort)
  else
    match splitAtLast ':' host with
    | some (_, after) =>
      if ¬ validOptionalPort (':' :: after) then
        .error (str "invalid port after host")
      else unescape .encodeHost host
    | none => unescape .encodeHost host

/-- `net/url`'s `parseAuthority`: split the user info at the last `@`. -/
def parseAuthority (authority : Str) : Except Str (Option (Str × Option Str) × Str) :=
  match splitAtLast '@' authority with
  | none => do
    let host ← parseHost authority
    .ok (none, host)
  | some (userinfo, hostPart) => do
    let host ← parseHost hostPart
    if ¬ validUserinfo userinfo then .error (str "net/url: invalid userinfo")
    else
      match splitAtFirst ':' userinfo with
      | none => do
        let username ← unescape .encodeUserPassword userinfo
        .ok (some (username, none), host)
      | some (u, pw) => do
        let username ← unescape .encodeUserPassword u
        let password ← unescape .encodeUserPassword pw
        .ok (some (username, some password), host)

/-- Does the string contain an ASCII control byte (`stringContainsCTLByte`)? -/
def containsCTL (s : Str) : Bool :=
  s.any fun c => c.toNat < 0x20 ∨ c.toNat = 0x7f

/-- The body of `url.parse` (with `viaRequest = false`): scheme, query
split, opaque/authority/path handling. -/
def urlParseInner (rawURL : Str) : Except Str GoURL := do
  if containsCTL rawURL then .error (str "net/url: invalid control character in URL")
  else if rawURL = str "*" then .ok { emptyURL with path := str "*" }
  else do
    let (scheme0, rest0) ← getScheme rawURL
    let scheme := goToLower scheme0
    let (rest, rawQuery, forceQuery) :=
      if goHasSuffix (str "?") rest0 ∧ ¬ containsChar '?' rest0.dropLast then
        (rest0.dropLast, [], true)
      else
        match splitAtFirst '?' rest0 with
        | some (a, b) => (a, b, false)
        | none => (rest0, [], false)
    if ¬ goHasPrefix (str "/") rest then
      if scheme ≠ [] then
        -- rootless paths after a scheme are opaque
        .ok { emptyURL with scheme := scheme, opaque_ := rest,
                            rawQuery := rawQuery, forceQuery := forceQuery }
      else if containsChar ':' (goSplitN2 '/' rest).1 then
        .error (str "first path segment in URL cannot contain colon")
      else do
        let path ← unescape .encodePath rest
        .ok { emptyURL with scheme := scheme, path := path,
                            rawQuery := rawQuery, forceQuery := forceQuery }
    else if (scheme ≠ [] ∨ ¬ goHasPrefix (str "///") rest) ∧ goHasPrefix (str "//") rest then do
      let (authority, rest') :=
        match splitAtFirst '/' (rest.drop 2) with
        | some (a, b) => (a, '/' :: b)
        | none => (rest.drop 2, [])
      let (user, host) ← parseAuthority authority
      let path ← unescape .encodePath rest'
      .ok { emptyURL with scheme := scheme, user := user, host := host, path := path,
                          rawQuery := rawQuery, forceQuery := forceQuery }
    else do
      let path ← unescape .encodePath rest
      .ok { emptyURL with scheme := scheme, path := path,
                          rawQuery := rawQuery, forceQuery := forceQuery }

/-- `url.Parse`: cut the fragment, parse the rest. -/
def urlParse (rawURL : Str) : Except Str GoURL := do
  let (u0, frag) :=
    match splitAtFirst '#' rawURL with
    | some (a, b) => (a, some b)
    | none => (rawURL, none)
  let u ← urlParseInner u0
  match frag with
  | none => .ok u
  | some f => do
    let fragment ← unescape .encodeFragment f
    .ok { u with fragment := fragment }

/-- `url.Values`, modelled as an association list in first-appearance
order (Go's map iteration order is not observable through the claims). -/
abbrev Values := List (Str × List Str)

/-- `m[key] = append(m[key], value)`. -/
def valuesAppend : Values → Str → Str → Values
  | [], k, v => [(k, [v])]
  | (k', vs) :: t, k, v =>
    if k' = k then (k', vs ++ [v]) :: t else (k', vs) :: valuesAppend t k v

/-- One `&`-segment of `url.parseQuery`: skip segments with `;`, empty
segments, and segments whose key or value fails query unescaping
(`url.URL.Query` drops the error). -/
def parseQuerySegment (m : Values) (segment : Str) : Values :=
  if containsChar ';' segment then m
  else if segment = [] then m
  else
    let (k, v) := match splitAtFirst '=' segment with
      | some (a, b) => (a, b)
      | none => (segment, [])
    match queryUnescape k, queryUnescape v with
    | .ok key, .ok value => valuesAppend m key value
    | _, _ => m

/-- `url.parseQuery` as consumed through `url.URL.Query` (errors dropped):
split on `&`, process each segment. -/
def parseQueryValues (query : Str) : Values :=
  if query = [] then []
  else (goSplit '&' query).foldl parseQuerySegment []

/-- Go string ordering (`sort.Strings`' less, byte-wise lexicographic). -/
def strLt : Str → Str → Bool
  | [], [] => false
  | [], _ :: _ => true
  | _ :: _, [] => false
  | a :: s, b :: t =>
    if a.toNat < b.toNat then true
    else if b.toNat < a.toNat then false
    else strLt s t

/-- Insert into an ascending list (`sort.Strings` via insertion sort). -/
def insertSorted (x : Str) : List Str → List Str
  | [] => [x]
  | y :: t => if strLt y x then y :: insertSorted x t else x :: y :: t

/-- Sort keys ascending (`sort.Strings`). -/
def sortStrs (l : List Str) : List Str := l.foldr insertSorted []

/-- First binding of a key in `url.Values`. -/
def valuesGet (v : Values) (k : Str) : List Str :=
  match v with
  | [] => []
  | (k', vs) :: t => if k' = k then vs else valuesGet t k

/-- Join with a separator character (`strings.Builder` with `&`). -/
def joinAmp : List Str → Str
  | [] => []
  | [x] => x
  | x :: y :: t => x ++ '&' :: joinAmp (y :: t)

/-- `url.Values.Encode`: keys sorted, each pair query-escaped, joined by
`&` and `=`. -/
def valuesEncode (v : Values) : Str :=
  if v = [] then []
  else
    let keys := sortStrs (v.map Prod.fst)
    joinAmp (keys.map fun k =>
      ((valuesGet v k).map fun val => queryEscape k ++ '=' :: queryEscape val) |> joinAmp)

/-- `url.Userinfo.String` for `url.UserPassword` values. -/
def userinfoString (user : Str) (pw : Option Str) : Str :=
  escape user .encodeUserPassword ++
    (match pw with
     | some p => ':' :: escape p .encodeUserPassword
     | none => [])

/-- `url.URL.EscapedPath` (no `RawPath` is ever set here). -/
def escapedPath (u : GoURL) : Str :=
  if u.path = str "*" then str "*" else escape u.path .encodePath

/-- `url.URL.String` (the `OmitHost` branch is dead for URLs built by
`toUrl` and by `urlParse`, which never set it). -/
def urlString (u : GoURL) : Str :=
  (if u.scheme ≠ [] then u.scheme ++ [':'] else []) ++
  (if u.opaque_ ≠ [] then u.opaque_
   else
     (if u.scheme ≠ [] ∨ u.host ≠ [] ∨ u.user.isSome then
       (if u.host ≠ [] ∨ u.path ≠ [] ∨ u.user.isSome then str "//" else []) ++
       (match u.user with
        | some (n, pw) => userinfoString n pw ++ ['@']
        | none => []) ++
       escape u.host .encodeHost
      else []) ++
     (let pth := escapedPath u
      (if pth ≠ [] ∧ pth.headD ' ' ≠ '/' ∧ u.host ≠ [] then ['/'] else []) ++ pth)) ++
  (if u.forceQuery ∨ u.rawQuery ≠ [] then '?' :: u.rawQuery else []) ++
  (if u.fragment ≠ [] then '#' :: escape u.fragment .encodeFragment else [])

/-! ## `net.SplitHostPort` -/

/-- `net.SplitHostPort`, modelled from the spec ("standard host:port
splitting", an external collaborator from the `net` package). -/
def splitHostPort (hostPort : Str) : Except Str (Str × Str) :=
  match splitAtLast ':' hostPort with
  | none => .error (str "missing port in address")
  | some (before, after) =>
    if goHasPrefix (str "[") hostPort then
      match splitAtFirst ']' hostPort with
      | none => .error (str "missing ']' in address")
      | some (beforeClose, afterClose) =>
        -- end+1 = beforeClose.length + 1 is the index just past ']'
        if afterClose = [] then .error (str "missing port in address")
        else if beforeClose.length + 1 = before.length then
          -- the last ':' directly follows ']'; j = 1, k = end+1
          let host := beforeClose.drop 1
          if containsChar '[' (hostPort.drop 1) then
            .error (str "unexpected '[' in address")
          else if containsChar ']' afterClose then
            .error (str "unexpected ']' in address")
          else .ok (host, after)
        else if afterClose.headD ' ' = ':' then
          .error (str "too many colons in address")
        else .error (str "missing port in address")
    else
      if containsChar ':' before then .error (str "too many colons in address")
      else if containsChar '[' hostPort ∨ containsChar ']' hostPort then
        .error (str "unexpected bracket in address")
      else .ok (before, after)

/-! ## `splitConnectionStringURL`, `toUrl`, and the dispatcher -/

/-- The duplicate-query-key loop of `splitConnectionStringURL`
(lines 398–404). -/
def urlQueryLoop : Values → RawParams → Except Str RawParams
  | [], res => .ok res
  | (k, v) :: t, res =>
    if v.length > 1 then .error (str "key " ++ k ++ str " provided more than once")
    else urlQueryLoop t (mapSet res (goToLower k) (v.headD []))

/-- `splitConnectionStringURL` (lines 363–407). -/
def splitConnectionStringURL (dsn : Str) : Except Str RawParams := do
  let u ← urlParse dsn
  if u.scheme ≠ str "sqlserver" then
    .error (str "scheme " ++ u.scheme ++ str " is not recognized")
  else
    let res : RawParams := []
    let res :=
      match u.user with
      | none => res
      | some (name, pw) =>
        let res := mapSet res (str "user id") name
        match pw with
        | some pass => mapSet res (str "password") pass
        | none => res
    let (host, port) :=
      match splitHostPort u.host with
      | .ok (h, pt) => (h, pt)
      | .error _ => (u.host, [])
    let res :=
      if u.path.length > 0 then mapSet res (str "server") (host ++ '\\' :: u.path.drop 1)
      else mapSet res (str "server") host
    let res := if port.length > 0 then mapSet res (str "port") port else res
    urlQueryLoop (parseQueryValues u.rawQuery) res

/-- `connectParams.toUrl` (lines 301–339): the canonical URL serializer. -/
def toUrl (p : connectParams) : GoURL :=
  let q : Values := []
  let q := if p.database ≠ [] then valuesAppend q (str "database") p.database else q
  let q := if p.logFlags ≠ 0 then valuesAppend q (str "log") (natToStr p.logFlags) else q
  let q := if p.columnEncryption then valuesAppend q (str "columnEncryption") (str "true") else q
  let q :=
    if p.keyStoreAuthentication ≠ [] then
      valuesAppend q (str "keyStoreAuthentication") p.keyStoreAuthentication
    else q
  let q :=
    if p.keyStoreLocation ≠ [] then valuesAppend q (str "keyStoreLocation") p.keyStoreLocation
    else q
  let q :=
    if p.keyStoreSecret ≠ [] then valuesAppend q (str "keyStoreSecret") p.keyStoreSecret
    else q
  { scheme := str "sqlserver", opaque_ := [],
    user := some (p.user, some p.password),
    host := p.host,
    path := if p.instance_ ≠ [] then p.instance_ else [],
    rawQuery := if q.length > 0 then valuesEncode q else [],
    forceQuery := false, fragment := [] }

/-- `parseConnectParams` (lines 57–297): prefix dispatch to a tokenizer,
then parameter resolution. -/
def parseConnectParams (fileExists : Str → Bool) (osHostname : Option Str)
    (dsn : Str) : Except Str connectParams := do
  let params ←
    if goHasPrefix (str "odbc:") dsn then splitConnectionStringOdbc (dsn.drop 5)
    else if goHasPrefix (str "sqlserver://") dsn then splitConnectionStringURL dsn
    else .ok (splitConnectionString dsn)
  resolveParams fileExists osHostname params

/-! ## Helpers for stating and proving the claims -/

/-- Did the computation fail? -/
def isErr {α : Type} : Except Str α → Bool
  | .error _ => true
  | .ok _ => false

instance {ε α : Type} [DecidableEq ε] [DecidableEq α] : DecidableEq (Except ε α) := fun x y =>
  match x, y with
  | .error a, .error b =>
    if h : a = b then .isTrue (by rw [h]) else .isFalse (by intro hc; cases hc; exact h rfl)
  | .ok a, .ok b =>
    if h : a = b then .isTrue (by rw [h]) else .isFalse (by intro hc; cases hc; exact h rfl)
  | .error _, .ok _ => .isFalse (by intro hc; cases hc)
  | .ok _, .error _ => .isFalse (by intro hc; cases hc)

/-- Extract a successful configuration (`initParams` on error; used only
to state concrete instances whose success is proved alongside). -/
def getOk (e : Except Str connectParams) : connectParams :=
  match e with
  | .ok p => p
  | .error _ => initParams

/-- Extract a successful raw-parameter map (empty on error). -/
def getOk' (e : Except Str RawParams) : RawParams :=
  match e with
  | .ok m => m
  | .error _ => []

/-- A concrete "no file exists" stat oracle. -/
def feNone : Str → Bool := fun _ => false

lemma except_bind_ok {ε α β : Type} (x : Except ε α) (f : α → Except ε β) (b : β) :
    (x >>= f) = .ok b ↔ ∃ a, x = .ok a ∧ f a = .ok b := by
  cases x <;> simp [Bind.bind, Except.bind]

lemma except_pure_ok {ε α : Type} (a b : α) :
    (pure a : Except ε α) = .ok b ↔ b = a := by
  constructor
  · intro h
    cases h
    rfl
  · intro h
    cases h
    rfl

/-! ### Per-step characterizations of the resolver -/

lemma stepLog_ok {m : RawParams} {p q : connectParams} :
    stepLog m p = .ok q ↔
      (mapGet m (str "log") = none ∧ p = q) ∨
      (∃ s v, mapGet m (str "log") = some s ∧ parseUint s 10 64 = .ok v ∧
        { p with logFlags := v } = q) := by
  unfold stepLog
  cases h : mapGet m (str "log") with
  | none => simp
  | some s => cases hp : parseUint s 10 64 <;> simp [hp]

lemma stepPort_ok {m : RawParams} {p q : connectParams} :
    stepPort m p = .ok q ↔
      (mapGet m (str "port") = none ∧ { p with port := 0 } = q) ∨
      (∃ s v, mapGet m (str "port") = some s ∧ parseUint s 10 16 = .ok v ∧
        { p with port := v } = q) := by
  unfold stepPort
  cases h : mapGet m (str "port") with
  | none => simp
  | some s => cases hp : parseUint s 10 16 <;> simp [hp]

lemma stepPacketSize_ok {m : RawParams} {p q : connectParams} :
    stepPacketSize m p = .ok q ↔
      (mapGet m (str "packet size") = none ∧ { p with packetSize := defaultPacketSize } = q) ∨
      (∃ s v, mapGet m (str "packet size") = some s ∧ parseUint s 0 16 = .ok v ∧
        { p with packetSize :=
          if v % 2 ^ 16 < 512 then 512
          else if v % 2 ^ 16 > 32767 then 32767 else v % 2 ^ 16 } = q) := by
  unfold stepPacketSize
  cases h : mapGet m (str "packet size") with
  | none => simp
  | some s => cases hp : parseUint s 0 16 <;> simp [hp]

lemma stepConnTimeout_ok {m : RawParams} {p q : connectParams} :
    stepConnTimeout m p = .ok q ↔
      (mapGet m (str "connection timeout") = none ∧ p = q) ∨
      (∃ s v, mapGet m (str "connection timeout") = some s ∧ parseUint s 10 64 = .ok v ∧
        { p with conn_timeout := v * nsPerSecond } = q) := by
  unfold stepConnTimeout
  cases h : mapGet m (str "connection timeout") with
  | none => simp
  | some s => cases hp : parseUint s 10 64 <;> simp [hp]

lemma stepDialTimeout_ok {m : RawParams} {p q : connectParams} :
    stepDialTimeout m p = .ok q ↔
      (mapGet m (str "dial timeout") = none ∧ { p with dial_timeout := 15 * nsPerSecond } = q) ∨
      (∃ s v, mapGet m (str "dial timeout") = some s ∧ parseUint s 10 64 = .ok v ∧
        { p with dial_timeout := v * nsPerSecond } = q) := by
  unfold stepDialTimeout
  cases h : mapGet m (str "dial timeout") with
  | none => simp
  | some s => cases hp : parseUint s 10 64 <;> simp [hp]

lemma stepKeepAlive_ok {m : RawParams} {p q : connectParams} :
    stepKeepAlive m p = .ok q ↔
      (mapGet m (str "keepalive") = none ∧ { p with keepAlive := 30 * nsPerSecond } = q) ∨
      (∃ s v, mapGet m (str "keepalive") = some s ∧ parseUint s 10 64 = .ok v ∧
        { p with keepAlive := v * nsPerSecond } = q) := by
  unfold stepKeepAlive
  cases h : mapGet m (str "keepalive") with
  | none => simp
  | some s => cases hp : parseUint s 10 64 <;> simp [hp]

lemma stepEncrypt_ok {m : RawParams} {p q : connectParams} :
    stepEncrypt m p = .ok q ↔
      (mapGet m (str "encrypt") = none ∧ { p with trustServerCertificate := true } = q) ∨
      (∃ s, mapGet m (str "encrypt") = some s ∧ goEqualFold s (str "DISABLE") = true ∧
        { p with disableEncryption := true } = q) ∨
      (∃ s b, mapGet m (str "encrypt") = some s ∧ goEqualFold s (str "DISABLE") = false ∧
        parseBool s = some b ∧ { p with encrypt := b } = q) := by
  unfold stepEncrypt
  cases h : mapGet m (str "encrypt") with
  | none => simp
  | some s =>
    cases hf : goEqualFold s (str "DISABLE") with
    | true => simp [hf]
    | false =>
      cases hb : parseBool s with
      | none => simp [hf, hb]
      | some b => cases b <;> simp [hf, hb]

lemma stepColumnEncryption_ok {m : RawParams} {p q : connectParams} :
    stepColumnEncryption m p = .ok q ↔
      (mapGet m (str "columnencryption") = none ∧ { p with columnEncryption := false } = q) ∨
      (∃ s, mapGet m (str "columnencryption") = some s ∧ goEqualFold s (str "true") = true ∧
        { p with columnEncryption := true } = q) ∨
      (∃ s b, mapGet m (str "columnencryption") = some s ∧ goEqualFold s (str "true") = false ∧
        parseBool s = some b ∧ { p with columnEncryption := b } = q) := by
  unfold stepColumnEncryption
  cases h : mapGet m (str "columnencryption") with
  | none => simp
  | some s =>
    cases hf : goEqualFold s (str "true") with
    | true => simp [hf]
    | false =>
      cases hb : parseBool s with
      | none => simp [hf, hb]
      | some b => cases b <;> simp [hf, hb]

lemma stepKeyStoreAuth_ok {m : RawParams} {p q : connectParams} :
    stepKeyStoreAuth m p = .ok q ↔
      (mapGet m (str "keystoreauthentication") = none ∧ p = q) ∨
      (∃ s, mapGet m (str "keystoreauthentication") = some s ∧ goToLower s = str "pfx" ∧
        { p with keyStoreAuthentication := str "pfx" } = q) := by
  unfold stepKeyStoreAuth
  cases h : mapGet m (str "keystoreauthentication") with
  | none => simp
  | some s => by_cases hl : goToLower s = str "pfx" <;> simp [hl]

lemma stepKeyStoreLocation_ok {fe : Str → Bool} {m : RawParams} {p q : connectParams} :
    stepKeyStoreLocation fe m p = .ok q ↔
      (mapGet m (str "keystorelocation") = none ∧ p = q) ∨
      (∃ s, mapGet m (str "keystorelocation") = some s ∧ s ≠ [] ∧ fe s = true ∧
        { p with keyStoreLocation := s } = q) := by
  unfold stepKeyStoreLocation
  cases h : mapGet m (str "keystorelocation") with
  | none => simp
  | some s =>
    by_cases hs : s = ([] : Str)
    · simp [hs]
    · cases hf : fe s <;> simp [hs, hf]

lemma stepTrust_ok {m : RawParams} {p q : connectParams} :
    stepTrust m p = .ok q ↔
      (mapGet m (str "trustservercertificate") = none ∧ p = q) ∨
      (∃ s b, mapGet m (str "trustservercertificate") = some s ∧ parseBool s = some b ∧
        { p with trustServerCertificate := b } = q) := by
  unfold stepTrust
  cases h : mapGet m (str "trustservercertificate") with
  | none => simp
  | some s =>
    cases hb : parseBool s with
    | none => simp [hb]
    | some b => cases b <;> simp [hb]

lemma stepAppIntent_ok {m : RawParams} {p q : connectParams} :
    stepAppIntent m p = .ok q ↔
      (mapGet m (str "applicationintent") = none ∧ p = q) ∨
      (∃ s, mapGet m (str "applicationintent") = some s ∧ s ≠ str "ReadOnly" ∧ p = q) ∨
      (mapGet m (str "applicationintent") = some (str "ReadOnly") ∧ p.database ≠ [] ∧
        { p with typeFlags := p.typeFlags ||| fReadOnlyIntent } = q) := by
  unfold stepAppIntent
  cases h : mapGet m (str "applicationintent") with
  | none => simp
  | some s =>
    by_cases hs : s = str "ReadOnly"
    · subst hs
      by_cases hd : p.database = ([] : Str) <;> simp [hd]
    · simp [hs]

lemma stepFailoverPort_ok {m : RawParams} {p q : connectParams} :
    stepFailoverPort m p = .ok q ↔
      (mapGet m (str "failoverport") = none ∧ p = q) ∨
      (∃ s v, mapGet m (str "failoverport") = some s ∧ parseUint s 0 16 = .ok v ∧
        { p with failOverPort := v } = q) := by
  unfold stepFailoverPort
  cases h : mapGet m (str "failoverport") with
  | none => simp
  | some s => cases hp : parseUint s 0 16 <;> simp [hp]

lemma resolveParams_ok {fe : Str → Bool} {hn : Option Str} {m : RawParams} {p : connectParams} :
    resolveParams fe hn m = .ok p ↔
      ∃ p1 p2 p3 p4 p5 p6 p7 p8 p9 p10 p11 p12,
        stepLog m initParams = .ok p1 ∧
        stepPort m (stepDatabaseUserPassword m (stepServer m p1)) = .ok p2 ∧
        stepPacketSize m p2 = .ok p3 ∧
        stepConnTimeout m p3 = .ok p4 ∧
        stepDialTimeout m p4 = .ok p5 ∧
        stepKeepAlive m p5 = .ok p6 ∧
        stepEncrypt m p6 = .ok p7 ∧
        stepColumnEncryption m p7 = .ok p8 ∧
        stepKeyStoreAuth m p8 = .ok p9 ∧
        stepKeyStoreLocation fe m p9 = .ok p10 ∧
        stepTrust m (stepKeyStoreSecret m p10) = .ok p11 ∧
        stepAppIntent m (stepAppName m (stepWorkstation hn m (stepServerSPN m
          (stepHostInCertificate m (stepCertificate m p11))))) = .ok p12 ∧
        stepFailoverPort m (stepFailoverPartner m p12) = .ok p := by
  unfold resolveParams
  simp only [except_bind_ok, except_pure_ok]
  constructor
  · rintro ⟨w1, h1, w2, h2, w3, h3, w4, h4, w5, h5, w6, h6, w7, h7, w8, h8, w9, h9, w10, h10,
      w11, h11, w12, h12, w13, h13, rfl⟩
    exact ⟨w1, w2, w3, w4, w5, w6, w7, w8, w9, w10, w11, w12, h1, h2, h3, h4, h5, h6, h7, h8,
      h9, h10, h11, h12, h13⟩
  · rintro ⟨p1, p2, p3, p4, p5, p6, p7, p8, p9, p10, p11, p12, h1, h2, h3, h4, h5, h6, h7, h8,
      h9, h10, h11, h12, h13⟩
    exact ⟨p1, h1, p2, h2, p3, h3, p4, h4, p5, h5, p6, h6, p7, h7, p8, h8, p9, h9, p10, h10,
      p11, h11, p12, h12, p, h13, rfl⟩

/-! ### Frame lemmas: which fields each step leaves unchanged -/

lemma stepLog_frame {m : RawParams} {p q : connectParams}
    (h : stepLog m p = .ok q) :
    q.host = p.host ∧
      q.instance_ = p.instance_ ∧
      q.database = p.database ∧
      q.user = p.user ∧
      q.password = p.password ∧
      q.encrypt = p.encrypt ∧
      q.disableEncryption = p.disableEncryption ∧
      q.trustServerCertificate = p.trustServerCertificate ∧
      q.hostInCertificate = p.hostInCertificate ∧
      q.hostInCertificateProvided = p.hostInCertificateProvided ∧
      q.typeFlags = p.typeFlags ∧
      q.packetSize = p.packetSize ∧
      q.columnEncryption = p.columnEncryption ∧
      q.keyStoreAuthentication = p.keyStoreAuthentication ∧
      q.keyStoreLocation = p.keyStoreLocation ∧
      q.keyStoreSecret = p.keyStoreSecret := by
  rcases stepLog_ok.mp h with ⟨_, rfl⟩ | ⟨s, v, _, _, rfl⟩ <;> simp

lemma stepPort_frame {m : RawParams} {p q : connectParams}
    (h : stepPort m p = .ok q) :
    q.host = p.host ∧
      q.instance_ = p.instance_ ∧
      q.database = p.database ∧
      q.user = p.user ∧
      q.password = p.password ∧
      q.encrypt = p.encrypt ∧
      q.disableEncryption = p.disableEncryption ∧
      q.trustServerCertificate = p.trustServerCertificate ∧
      q.hostInCertificate = p.hostInCertificate ∧
      q.hostInCertificateProvided = p.hostInCertificateProvided ∧
      q.typeFlags = p.typeFlags ∧
      q.logFlags = p.logFlags ∧
      q.packetSize = p.packetSize ∧
      q.columnEncryption = p.columnEncryption ∧
      q.keyStoreAuthentication = p.keyStoreAuthentication ∧
      q.keyStoreLocation = p.keyStoreLocation ∧
      q.keyStoreSecret = p.keyStoreSecret := by
  rcases stepPort_ok.mp h with ⟨_, rfl⟩ | ⟨s, v, _, _, rfl⟩ <;> simp

lemma stepPacketSize_frame {m : RawParams} {p q : connectParams}
    (h : stepPacketSize m p = .ok q) :
    q.host = p.host ∧
      q.instance_ = p.instance_ ∧
      q.database = p.database ∧
      q.user = p.user ∧
      q.password = p.password ∧
      q.encrypt = p.encrypt ∧
      q.disableEncryption = p.disableEncryption ∧
      q.trustServerCertificate = p.trustServerCertificate ∧
      q.hostInCertificate = p.hostInCertificate ∧
      q.hostInCertificateProvided = p.hostInCertificateProvided ∧
      q.typeFlags = p.typeFlags ∧
      q.logFlags = p.logFlags ∧
      q.columnEncryption = p.columnEncryption ∧
      q.keyStoreAuthentication = p.keyStoreAuthentication ∧
      q.keyStoreLocation = p.keyStoreLocation ∧
      q.keyStoreSecret = p.keyStoreSecret := by
  rcases stepPacketSize_ok.mp h with ⟨_, rfl⟩ | ⟨s, v, _, _, rfl⟩ <;> simp

lemma stepConnTimeout_frame {m : RawParams} {p q : connectParams}
    (h : stepConnTimeout m p = .ok q) :
    q.host = p.host ∧
      q.instance_ = p.instance_ ∧
      q.database = p.database ∧
      q.user = p.user ∧
      q.password = p.password ∧
      q.encrypt = p.encrypt ∧
      q.disableEncryption = p.disableEncryption ∧
      q.trustServerCertificate = p.trustServerCertificate ∧
      q.hostInCertificate = p.hostInCertificate ∧
      q.hostInCertificateProvided = p.hostInCertificateProvided ∧
      q.typeFlags = p.typeFlags ∧
      q.logFlags = p.logFlags ∧
      q.packetSize = p.packetSize ∧
      q.columnEncryption = p.columnEncryption ∧
      q.keyStoreAuthentication = p.keyStoreAuthentication ∧
      q.keyStoreLocation = p.keyStoreLocation ∧
      q.keyStoreSecret = p.keyStoreSecret := by
  rcases stepConnTimeout_ok.mp h with ⟨_, rfl⟩ | ⟨s, v, _, _, rfl⟩ <;> simp

lemma stepDialTimeout_frame {m : RawParams} {p q : connectParams}
    (h : stepDialTimeout m p = .ok q) :
    q.host = p.host ∧
      q.instance_ = p.instance_ ∧
      q.database = p.database ∧
      q.user = p.user ∧
      q.password = p.password ∧
      q.encrypt = p.encrypt ∧
      q.disableEncryption = p.disableEncryption ∧
      q.trustServerCertificate = p.trustServerCertificate ∧
      q.hostInCertificate = p.hostInCertificate ∧
      q.hostInCertificateProvided = p.hostInCertificateProvided ∧
      q.typeFlags = p.typeFlags ∧
      q.logFlags = p.logFlags ∧
      q.packetSize = p.packetSize ∧
      q.columnEncryption = p.columnEncryption ∧
      q.keyStoreAuthentication = p.keyStoreAuthentication ∧
      q.keyStoreLocation = p.keyStoreLocation ∧
      q.keyStoreSecret = p.keyStoreSecret := by
  rcases stepDialTimeout_ok.mp h with ⟨_, rfl⟩ | ⟨s, v, _, _, rfl⟩ <;> simp

lemma stepKeepAlive_frame {m : RawParams} {p q : connectParams}
    (h : stepKeepAlive m p = .ok q) :
    q.host = p.host ∧
      q.instance_ = p.instance_ ∧
      q.database = p.database ∧
      q.user = p.user ∧
      q.password = p.password ∧
      q.encrypt = p.encrypt ∧
      q.disableEncryption = p.disableEncryption ∧
      q.trustServerCertificate = p.trustServerCertificate ∧
      q.hostInCertificate = p.hostInCertificate ∧
      q.hostInCertificateProvided = p.hostInCertificateProvided ∧
      q.typeFlags = p.typeFlags ∧
      q.logFlags = p.logFlags ∧
      q.packetSize = p.packetSize ∧
      q.columnEncryption = p.columnEncryption ∧
      q.keyStoreAuthentication = p.keyStoreAuthentication ∧
      q.keyStoreLocation = p.keyStoreLocation ∧
      q.keyStoreSecret = p.keyStoreSecret := by
  rcases stepKeepAlive_ok.mp h with ⟨_, rfl⟩ | ⟨s, v, _, _, rfl⟩ <;> simp

lemma stepEncrypt_frame {m : RawParams} {p q : connectParams}
    (h : stepEncrypt m p = .ok q) :
    q.host = p.host ∧
      q.instance_ = p.instance_ ∧
      q.database = p.database ∧
      q.user = p.user ∧
      q.password = p.password ∧
      q.hostInCertificate = p.hostInCertificate ∧
      q.hostInCertificateProvided = p.hostInCertificateProvided ∧
      q.typeFlags = p.typeFlags ∧
      q.logFlags = p.logFlags ∧
      q.packetSize = p.packetSize ∧
      q.columnEncryption = p.columnEncryption ∧
      q.keyStoreAuthentication = p.keyStoreAuthentication ∧
      q.keyStoreLocation = p.keyStoreLocation ∧
      q.keyStoreSecret = p.keyStoreSecret := by
  rcases stepEncrypt_ok.mp h with ⟨_, rfl⟩ | ⟨s, _, _, rfl⟩ | ⟨s, b, _, _, _, rfl⟩ <;> simp

lemma stepColumnEncryption_frame {m : RawParams} {p q : connectParams}
    (h : stepColumnEncryption m p = .ok q) :
    q.host = p.host ∧
      q.instance_ = p.instance_ ∧
      q.database = p.database ∧
      q.user = p.user ∧
      q.password = p.password ∧
      q.encrypt = p.encrypt ∧
      q.disableEncryption = p.disableEncryption ∧
      q.trustServerCertificate = p.trustServerCertificate ∧
      q.hostInCertificate = p.hostInCertificate ∧
      q.hostInCertificateProvided = p.hostInCertificateProvided ∧
      q.typeFlags = p.typeFlags ∧
      q.logFlags = p.logFlags ∧
      q.packetSize = p.packetSize ∧
      q.keyStoreAuthentication = p.keyStoreAuthentication ∧
      q.keyStoreLocation = p.keyStoreLocation ∧
      q.keyStoreSecret = p.keyStoreSecret := by
  rcases stepColumnEncryption_ok.mp h with ⟨_, rfl⟩ | ⟨s, _, _, rfl⟩ | ⟨s, b, _, _, _, rfl⟩ <;> simp

lemma stepKeyStoreAuth_frame {m : RawParams} {p q : connectParams}
    (h : stepKeyStoreAuth m p = .ok q) :
    q.host = p.host ∧
      q.instance_ = p.instance_ ∧
      q.database = p.database ∧
      q.user = p.user ∧
      q.password = p.password ∧
      q.encrypt = p.encrypt ∧
      q.disableEncryption = p.disableEncryption ∧
      q.trustServerCertificate = p.trustServerCertificate ∧
      q.hostInCertificate = p.hostInCertificate ∧
      q.hostInCertificateProvided = p.hostInCertificateProvided ∧
      q.typeFlags = p.typeFlags ∧
      q.logFlags = p.logFlags ∧
      q.packetSize = p.packetSize ∧
      q.columnEncryption = p.columnEncryption ∧
      q.keyStoreLocation = p.keyStoreLocation ∧
      q.keyStoreSecret = p.keyStoreSecret := by
  rcases stepKeyStoreAuth_ok.mp h with ⟨_, rfl⟩ | ⟨s, _, _, rfl⟩ <;> simp

lemma stepTrust_frame {m : RawParams} {p q : connectParams}
    (h : stepTrust m p = .ok q) :
    q.host = p.host ∧
      q.instance_ = p.instance_ ∧
      q.database = p.database ∧
      q.user = p.user ∧
      q.password = p.password ∧
      q.encrypt = p.encrypt ∧
      q.disableEncryption = p.disableEncryption ∧
      q.hostInCertificate = p.hostInCertificate ∧
      q.hostInCertificateProvided = p.hostInCertificateProvided ∧
      q.typeFlags = p.typeFlags ∧
      q.logFlags = p.logFlags ∧
      q.packetSize = p.packetSize ∧
      q.columnEncryption = p.columnEncryption ∧
      q.keyStoreAuthentication = p.keyStoreAuthentication ∧
      q.keyStoreLocation = p.keyStoreLocation ∧
      q.keyStoreSecret = p.keyStoreSecret := by
  rcases stepTrust_ok.mp h with ⟨_, rfl⟩ | ⟨s, b, _, _, rfl⟩ <;> simp

lemma stepAppIntent_frame {m : RawParams} {p q : connectParams}
    (h : stepAppIntent m p = .ok q) :
    q.host = p.host ∧
      q.instance_ = p.instance_ ∧
      q.database = p.database ∧
      q.user = p.user ∧
      q.password = p.password ∧
      q.encrypt = p.encrypt ∧
      q.disableEncryption = p.disableEncryption ∧
      q.trustServerCertificate = p.trustServerCertificate ∧
      q.hostInCertificate = p.hostInCertificate ∧
      q.hostInCertificateProvided = p.hostInCertificateProvided ∧
      q.logFlags = p.logFlags ∧
      q.packetSize = p.packetSize ∧
      q.columnEncryption = p.columnEncryption ∧
      q.keyStoreAuthentication = p.keyStoreAuthentication ∧
      q.keyStoreLocation = p.keyStoreLocation ∧
      q.keyStoreSecret = p.keyStoreSecret := by
  rcases stepAppIntent_ok.mp h with ⟨_, rfl⟩ | ⟨s, _, _, rfl⟩ | ⟨_, _, rfl⟩ <;> simp

lemma stepFailoverPort_frame {m : RawParams} {p q : connectParams}
    (h : stepFailoverPort m p = .ok q) :
    q.host = p.host ∧
      q.instance_ = p.instance_ ∧
      q.database = p.database ∧
      q.user = p.user ∧
      q.password = p.password ∧
      q.encrypt = p.encrypt ∧
      q.disableEncryption = p.disableEncryption ∧
      q.trustServerCertificate = p.trustServerCertificate ∧
      q.hostInCertificate = p.hostInCertificate ∧
      q.hostInCertificateProvided = p.hostInCertificateProvided ∧
      q.typeFlags = p.typeFlags ∧
      q.logFlags = p.logFlags ∧
      q.packetSize = p.packetSize ∧
      q.columnEncryption = p.columnEncryption ∧
      q.keyStoreAuthentication = p.keyStoreAuthentication ∧
      q.keyStoreLocation = p.keyStoreLocation ∧
      q.keyStoreSecret = p.keyStoreSecret := by
  rcases stepFailoverPort_ok.mp h with ⟨_, rfl⟩ | ⟨s, v, _, _, rfl⟩ <;> simp

lemma stepKeyStoreLocation_frame {fe : Str → Bool} {m : RawParams} {p q : connectParams}
    (h : stepKeyStoreLocation fe m p = .ok q) :
    q.host = p.host ∧
      q.instance_ = p.instance_ ∧
      q.database = p.database ∧
      q.user = p.user ∧
      q.password = p.password ∧
      q.encrypt = p.encrypt ∧
      q.disableEncryption = p.disableEncryption ∧
      q.trustServerCertificate = p.trustServerCertificate ∧
      q.hostInCertificate = p.hostInCertificate ∧
      q.hostInCertificateProvided = p.hostInCertificateProvided ∧
      q.typeFlags = p.typeFlags ∧
      q.logFlags = p.logFlags ∧
      q.packetSize = p.packetSize ∧
      q.columnEncryption = p.columnEncryption ∧
      q.keyStoreAuthentication = p.keyStoreAuthentication ∧
      q.keyStoreSecret = p.keyStoreSecret := by
  rcases stepKeyStoreLocation_ok.mp h with ⟨_, rfl⟩ | ⟨s, _, _, _, rfl⟩ <;> simp

lemma stepServer_frame (m : RawParams) (p : connectParams) :
    (stepServer m p).database = p.database ∧
      (stepServer m p).user = p.user ∧
      (stepServer m p).password = p.password ∧
      (stepServer m p).encrypt = p.encrypt ∧
      (stepServer m p).disableEncryption = p.disableEncryption ∧
      (stepServer m p).trustServerCertificate = p.trustServerCertificate ∧
      (stepServer m p).hostInCertificate = p.hostInCertificate ∧
      (stepServer m p).hostInCertificateProvided = p.hostInCertificateProvided ∧
      (stepServer m p).typeFlags = p.typeFlags ∧
      (stepServer m p).logFlags = p.logFlags ∧
      (stepServer m p).packetSize = p.packetSize ∧
      (stepServer m p).columnEncryption = p.columnEncryption ∧
      (stepServer m p).keyStoreAuthentication = p.keyStoreAuthentication ∧
      (stepServer m p).keyStoreLocation = p.keyStoreLocation ∧
      (stepServer m p).keyStoreSecret = p.keyStoreSecret := by
  unfold stepServer
  dsimp only
  cases (goSplitN2 '\\' (mapGetD m (str "server"))).2 <;> simp

lemma stepDatabaseUserPassword_frame (m : RawParams) (p : connectParams) :
    (stepDatabaseUserPassword m p).host = p.host ∧
      (stepDatabaseUserPassword m p).instance_ = p.instance_ ∧
      (stepDatabaseUserPassword m p).encrypt = p.encrypt ∧
      (stepDatabaseUserPassword m p).disableEncryption = p.disableEncryption ∧
      (stepDatabaseUserPassword m p).trustServerCertificate = p.trustServerCertificate ∧
      (stepDatabaseUserPassword m p).hostInCertificate = p.hostInCertificate ∧
      (stepDatabaseUserPassword m p).hostInCertificateProvided = p.hostInCertificateProvided ∧
      (stepDatabaseUserPassword m p).typeFlags = p.typeFlags ∧
      (stepDatabaseUserPassword m p).logFlags = p.logFlags ∧
      (stepDatabaseUserPassword m p).packetSize = p.packetSize ∧
      (stepDatabaseUserPassword m p).columnEncryption = p.columnEncryption ∧
      (stepDatabaseUserPassword m p).keyStoreAuthentication = p.keyStoreAuthentication ∧
      (stepDatabaseUserPassword m p).keyStoreLocation = p.keyStoreLocation ∧
      (stepDatabaseUserPassword m p).keyStoreSecret = p.keyStoreSecret := by
  unfold stepDatabaseUserPassword
  simp

lemma stepKeyStoreSecret_frame (m : RawParams) (p : connectParams) :
    (stepKeyStoreSecret m p).host = p.host ∧
      (stepKeyStoreSecret m p).instance_ = p.instance_ ∧
      (stepKeyStoreSecret m p).database = p.database ∧
      (stepKeyStoreSecret m p).user = p.user ∧
      (stepKeyStoreSecret m p).password = p.password ∧
      (stepKeyStoreSecret m p).encrypt = p.encrypt ∧
      (stepKeyStoreSecret m p).disableEncryption = p.disableEncryption ∧
      (stepKeyStoreSecret m p).trustServerCertificate = p.trustServerCertificate ∧
      (stepKeyStoreSecret m p).hostInCertificate = p.hostInCertificate ∧
      (stepKeyStoreSecret m p).hostInCertificateProvided = p.hostInCertificateProvided ∧
      (stepKeyStoreSecret m p).typeFlags = p.typeFlags ∧
      (stepKeyStoreSecret m p).logFlags = p.logFlags ∧
      (stepKeyStoreSecret m p).packetSize = p.packetSize ∧
      (stepKeyStoreSecret m p).columnEncryption = p.columnEncryption ∧
      (stepKeyStoreSecret m p).keyStoreAuthentication = p.keyStoreAuthentication ∧
      (stepKeyStoreSecret m p).keyStoreLocation = p.keyStoreLocation := by
  unfold stepKeyStoreSecret
  cases mapGet m (str "keystoresecret") <;> simp

lemma stepCertificate_frame (m : RawParams) (p : connectParams) :
    (stepCertificate m p).host = p.host ∧
      (stepCertificate m p).instance_ = p.instance_ ∧
      (stepCertificate m p).database = p.database ∧
      (stepCertificate m p).user = p.user ∧
      (stepCertificate m p).password = p.password ∧
      (stepCertificate m p).encrypt = p.encrypt ∧
      (stepCertificate m p).disableEncryption = p.disableEncryption ∧
      (stepCertificate m p).trustServerCertificate = p.trustServerCertificate ∧
      (stepCertificate m p).hostInCertificate = p.hostInCertificate ∧
      (stepCertificate m p).hostInCertificateProvided = p.hostInCertificateProvided ∧
      (stepCertificate m p).typeFlags = p.typeFlags ∧
      (stepCertificate m p).logFlags = p.logFlags ∧
      (stepCertificate m p).packetSize = p.packetSize ∧
      (stepCertificate m p).columnEncryption = p.columnEncryption ∧
      (stepCertificate m p).keyStoreAuthentication = p.keyStoreAuthentication ∧
      (stepCertificate m p).keyStoreLocation = p.keyStoreLocation ∧
      (stepCertificate m p).keyStoreSecret = p.keyStoreSecret := by
  unfold stepCertificate
  simp

lemma stepHostInCertificate_frame (m : RawParams) (p : connectParams) :
    (stepHostInCertificate m p).host = p.host ∧
      (stepHostInCertificate m p).instance_ = p.instance_ ∧
      (stepHostInCertificate m p).database = p.database ∧
      (stepHostInCertificate m p).user = p.user ∧
      (stepHostInCertificate m p).password = p.password ∧
      (stepHostInCertificate m p).encrypt = p.encrypt ∧
      (stepHostInCertificate m p).disableEncryption = p.disableEncryption ∧
      (stepHostInCertificate m p).trustServerCertificate = p.trustServerCertificate ∧
      (stepHostInCertificate m p).typeFlags = p.typeFlags ∧
      (stepHostInCertificate m p).logFlags = p.logFlags ∧
      (stepHostInCertificate m p).packetSize = p.packetSize ∧
      (stepHostInCertificate m p).columnEncryption = p.columnEncryption ∧
      (stepHostInCertificate m p).keyStoreAuthentication = p.keyStoreAuthentication ∧
      (stepHostInCertificate m p).keyStoreLocation = p.keyStoreLocation ∧
      (stepHostInCertificate m p).keyStoreSecret = p.keyStoreSecret := by
  unfold stepHostInCertificate
  cases mapGet m (str "hostnameincertificate") <;> simp

lemma stepServerSPN_frame (m : RawParams) (p : connectParams) :
    (stepServerSPN m p).host = p.host ∧
      (stepServerSPN m p).instance_ = p.instance_ ∧
      (stepServerSPN m p).database = p.database ∧
      (stepServerSPN m p).user = p.user ∧
      (stepServerSPN m p).password = p.password ∧
      (stepServerSPN m p).encrypt = p.encrypt ∧
      (stepServerSPN m p).disableEncryption = p.disableEncryption ∧
      (stepServerSPN m p).trustServerCertificate = p.trustServerCertificate ∧
      (stepServerSPN m p).hostInCertificate = p.hostInCertificate ∧
      (stepServerSPN m p).hostInCertificateProvided = p.hostInCertificateProvided ∧
      (stepServerSPN m p).typeFlags = p.typeFlags ∧
      (stepServerSPN m p).logFlags = p.logFlags ∧
      (stepServerSPN m p).packetSize = p.packetSize ∧
      (stepServerSPN m p).columnEncryption = p.columnEncryption ∧
      (stepServerSPN m p).keyStoreAuthentication = p.keyStoreAuthentication ∧
      (stepServerSPN m p).keyStoreLocation = p.keyStoreLocation ∧
      (stepServerSPN m p).keyStoreSecret = p.keyStoreSecret := by
  unfold stepServerSPN
  cases mapGet m (str "serverspn") <;> simp

lemma stepWorkstation_frame (hn : Option Str) (m : RawParams) (p : connectParams) :
    (stepWorkstation hn m p).host = p.host ∧
      (stepWorkstation hn m p).instance_ = p.instance_ ∧
      (stepWorkstation hn m p).database = p.database ∧
      (stepWorkstation hn m p).user = p.user ∧
      (stepWorkstation hn m p).password = p.password ∧
      (stepWorkstation hn m p).encrypt = p.encrypt ∧
      (stepWorkstation hn m p).disableEncryption = p.disableEncryption ∧
      (stepWorkstation hn m p).trustServerCertificate = p.trustServerCertificate ∧
      (stepWorkstation hn m p).hostInCertificate = p.hostInCertificate ∧
      (stepWorkstation hn m p).hostInCertificateProvided = p.hostInCertificateProvided ∧
      (stepWorkstation hn m p).typeFlags = p.typeFlags ∧
      (stepWorkstation hn m p).logFlags = p.logFlags ∧
      (stepWorkstation hn m p).packetSize = p.packetSize ∧
      (stepWorkstation hn m p).columnEncryption = p.columnEncryption ∧
      (stepWorkstation hn m p).keyStoreAuthentication = p.keyStoreAuthentication ∧
      (stepWorkstation hn m p).keyStoreLocation = p.keyStoreLocation ∧
      (stepWorkstation hn m p).keyStoreSecret = p.keyStoreSecret := by
  unfold stepWorkstation
  cases mapGet m (str "workstation id")
  · cases hn <;> simp
  · simp

lemma stepAppName_frame (m : RawParams) (p : connectParams) :
    (stepAppName m p).host = p.host ∧
      (stepAppName m p).instance_ = p.instance_ ∧
      (stepAppName m p).database = p.database ∧
      (stepAppName m p).user = p.user ∧
      (stepAppName m p).password = p.password ∧
      (stepAppName m p).encrypt = p.encrypt ∧
      (stepAppName m p).disableEncryption = p.disableEncryption ∧
      (stepAppName m p).trustServerCertificate = p.trustServerCertificate ∧
      (stepAppName m p).hostInCertificate = p.hostInCertificate ∧
      (stepAppName m p).hostInCertificateProvided = p.hostInCertificateProvided ∧
      (stepAppName m p).typeFlags = p.typeFlags ∧
      (stepAppName m p).logFlags = p.logFlags ∧
      (stepAppName m p).packetSize = p.packetSize ∧
      (stepAppName m p).columnEncryption = p.columnEncryption ∧
      (stepAppName m p).keyStoreAuthentication = p.keyStoreAuthentication ∧
      (stepAppName m p).keyStoreLocation = p.keyStoreLocation ∧
      (stepAppName m p).keyStoreSecret = p.keyStoreSecret := by
  unfold stepAppName
  cases mapGet m (str "app name") <;> simp

lemma stepFailoverPartner_frame (m : RawParams) (p : connectParams) :
    (stepFailoverPartner m p).host = p.host ∧
      (stepFailoverPartner m p).instance_ = p.instance_ ∧
      (stepFailoverPartner m p).database = p.database ∧
      (stepFailoverPartner m p).user = p.user ∧
      (stepFailoverPartner m p).password = p.password ∧
      (stepFailoverPartner m p).encrypt = p.encrypt ∧
      (stepFailoverPartner m p).disableEncryption = p.disableEncryption ∧
      (stepFailoverPartner m p).trustServerCertificate = p.trustServerCertificate ∧
      (stepFailoverPartner m p).hostInCertificate = p.hostInCertificate ∧
      (stepFailoverPartner m p).hostInCertificateProvided = p.hostInCertificateProvided ∧
      (stepFailoverPartner m p).typeFlags = p.typeFlags ∧
      (stepFailoverPartner m p).logFlags = p.logFlags ∧
      (stepFailoverPartner m p).packetSize = p.packetSize ∧
      (stepFailoverPartner m p).columnEncryption = p.columnEncryption ∧
      (stepFailoverPartner m p).keyStoreAuthentication = p.keyStoreAuthentication ∧
      (stepFailoverPartner m p).keyStoreLocation = p.keyStoreLocation ∧
      (stepFailoverPartner m p).keyStoreSecret = p.keyStoreSecret := by
  unfold stepFailoverPartner
  cases mapGet m (str "failoverpartner") <;> simp

/-! ### Field-level characterization of a successful resolution

Each `…Spec` predicate restates the corresponding block of
`parseConnectParams` as a relation between the raw map and one resolved
field; `resolveParams_fields` proves that every successful resolution
satisfies all of them. -/

/-- The host produced by lines 87–92. -/
def hostSpec (m : RawParams) : Str :=
  let host0 := (goSplitN2 '\\' (mapGetD m (str "server"))).1
  if host0 = str "." ∨ goToUpper host0 = str "(LOCAL)" ∨ host0 = [] then str "localhost"
  else host0

/-- The instance produced by lines 93–95. -/
def instanceSpec (m : RawParams) : Str :=
  ((goSplitN2 '\\' (mapGetD m (str "server"))).2).getD []

/-- Lines 79–86. -/
def logSpec (m : RawParams) (v : Nat) : Prop :=
  match mapGet m (str "log") with
  | none => v = 0
  | some s => parseUint s 10 64 = .ok v

/-- Lines 112–132. -/
def packetSpec (m : RawParams) (w : Nat) : Prop :=
  match mapGet m (str "packet size") with
  | none => w = defaultPacketSize
  | some s => ∃ v, parseUint s 0 16 = .ok v ∧
      w = (if v % 2 ^ 16 < 512 then 512 else if v % 2 ^ 16 > 32767 then 32767 else v % 2 ^ 16)

/-- Lines 167–181 (the `encrypt` and `disableEncryption` outcome). -/
def encryptSpec (m : RawParams) (e d : Bool) : Prop :=
  match mapGet m (str "encrypt") with
  | none => e = false ∧ d = false
  | some s =>
    if goEqualFold s (str "DISABLE") then d = true ∧ e = false
    else parseBool s = some e ∧ d = false

/-- Lines 167–181 and 230–238 (the `trustServerCertificate` outcome). -/
def trustSpec (m : RawParams) (t : Bool) : Prop :=
  match mapGet m (str "trustservercertificate") with
  | none => t = (if mapGet m (str "encrypt") = none then true else false)
  | some s => parseBool s = some t

/-- Lines 183–197. -/
def columnSpec (m : RawParams) (c : Bool) : Prop :=
  match mapGet m (str "columnencryption") with
  | none => c = false
  | some s =>
    if goEqualFold s (str "true") then c = true
    else parseBool s = some c

/-- Lines 199–209. -/
def ksAuthSpec (m : RawParams) (a : Str) : Prop :=
  match mapGet m (str "keystoreauthentication") with
  | none => a = []
  | some s => goToLower s = str "pfx" ∧ a = str "pfx"

/-- Lines 211–223. -/
def ksLocSpec (fe : Str → Bool) (m : RawParams) (l : Str) : Prop :=
  match mapGet m (str "keystorelocation") with
  | none => l = []
  | some s => s ≠ [] ∧ fe s = true ∧ l = s

/-- Lines 225–228. -/
def ksSecretSpec (m : RawParams) (sec : Str) : Prop :=
  match mapGet m (str "keystoresecret") with
  | none => sec = []
  | some s => sec = s

/-- Lines 240–246 (`host` is the already-resolved host). -/
def hicSpec (m : RawParams) (host hic : Str) (prov : Bool) : Prop :=
  match mapGet m (str "hostnameincertificate") with
  | none => hic = host ∧ prov = false
  | some s => hic = s ∧ prov = true

/-- Lines 271–279 (`db` is the already-resolved database). -/
def appIntentSpec (m : RawParams) (db : Str) (flags : Nat) : Prop :=
  match mapGet m (str "applicationintent") with
  | none => flags = 0
  | some s =>
    if s = str "ReadOnly" then db ≠ [] ∧ flags = fReadOnlyIntent
    else flags = 0

/-- Every successful resolution satisfies all field specifications. -/
lemma resolveParams_fields {fe : Str → Bool} {hn : Option Str} {m : RawParams}
    {p : connectParams} (h : resolveParams fe hn m = .ok p) :
    p.host = hostSpec m ∧
    p.instance_ = instanceSpec m ∧
    p.database = mapGetD m (str "database") ∧
    p.user = mapGetD m (str "user id") ∧
    p.password = mapGetD m (str "password") ∧
    logSpec m p.logFlags ∧
    packetSpec m p.packetSize ∧
    encryptSpec m p.encrypt p.disableEncryption ∧
    trustSpec m p.trustServerCertificate ∧
    columnSpec m p.columnEncryption ∧
    ksAuthSpec m p.keyStoreAuthentication ∧
    ksLocSpec fe m p.keyStoreLocation ∧
    ksSecretSpec m p.keyStoreSecret ∧
    hicSpec m p.host p.hostInCertificate p.hostInCertificateProvided ∧
    appIntentSpec m p.database p.typeFlags := by
  obtain ⟨p1, p2, p3, p4, p5, p6, p7, p8, p9, p10, p11, p12,
    h1, h2, h3, h4, h5, h6, h7, h8, h9, h10, h11, h12, h13⟩ := resolveParams_ok.mp h
  obtain ⟨f1_host, f1_instance_, f1_database, f1_user, f1_password, f1_encrypt, f1_disableEncryption, f1_trustServerCertificate, f1_hostInCertificate, f1_hostInCertificateProvided, f1_typeFlags, f1_packetSize, f1_columnEncryption, f1_keyStoreAuthentication, f1_keyStoreLocation, f1_keyStoreSecret⟩ := stepLog_frame h1
  obtain ⟨f2_database, f2_user, f2_password, f2_encrypt, f2_disableEncryption, f2_trustServerCertificate, f2_hostInCertificate, f2_hostInCertificateProvided, f2_typeFlags, f2_logFlags, f2_packetSize, f2_columnEncryption, f2_keyStoreAuthentication, f2_keyStoreLocation, f2_keyStoreSecret⟩ := stepServer_frame m p1
  obtain ⟨f3_host, f3_instance_, f3_encrypt, f3_disableEncryption, f3_trustServerCertificate, f3_hostInCertificate, f3_hostInCertificateProvided, f3_typeFlags, f3_logFlags, f3_packetSize, f3_columnEncryption, f3_keyStoreAuthentication, f3_keyStoreLocation, f3_keyStoreSecret⟩ := stepDatabaseUserPassword_frame m (stepServer m p1)
  obtain ⟨f4_host, f4_instance_, f4_database, f4_user, f4_password, f4_encrypt, f4_disableEncryption, f4_trustServerCertificate, f4_hostInCertificate, f4_hostInCertificateProvided, f4_typeFlags, f4_logFlags, f4_packetSize, f4_columnEncryption, f4_keyStoreAuthentication, f4_keyStoreLocation, f4_keyStoreSecret⟩ := stepPort_frame h2
  obtain ⟨f5_host, f5_instance_, f5_database, f5_user, f5_password, f5_encrypt, f5_disableEncryption, f5_trustServerCertificate, f5_hostInCertificate, f5_hostInCertificateProvided, f5_typeFlags, f5_logFlags, f5_columnEncryption, f5_keyStoreAuthentication, f5_keyStoreLocation, f5_keyStoreSecret⟩ := stepPacketSize_frame h3
  obtain ⟨f6_host, f6_instance_, f6_database, f6_user, f6_password, f6_encrypt, f6_disableEncryption, f6_trustServerCertificate, f6_hostInCertificate, f6_hostInCertificateProvided, f6_typeFlags, f6_logFlags, f6_packetSize, f6_columnEncryption, f6_keyStoreAuthentication, f6_keyStoreLocation, f6_keyStoreSecret⟩ := stepConnTimeout_frame h4
  obtain ⟨f7_host, f7_instance_, f7_database, f7_user, f7_password, f7_encrypt, f7_disableEncryption, f7_trustServerCertificate, f7_hostInCertificate, f7_hostInCertificateProvided, f7_typeFlags, f7_logFlags, f7_packetSize, f7_columnEncryption, f7_keyStoreAuthentication, f7_keyStoreLocation, f7_keyStoreSecret⟩ := stepDialTimeout_frame h5
  obtain ⟨f8_host, f8_instance_, f8_database, f8_user, f8_password, f8_encrypt, f8_disableEncryption, f8_trustServerCertificate, f8_hostInCertificate, f8_hostInCertificateProvided, f8_typeFlags, f8_logFlags, f8_packetSize, f8_columnEncryption, f8_keyStoreAuthentication, f8_keyStoreLocation, f8_keyStoreSecret⟩ := stepKeepAlive_frame h6
  obtain ⟨f9_host, f9_instance_, f9_database, f9_user, f9_password, f9_hostInCertificate, f9_hostInCertificateProvided, f9_typeFlags, f9_logFlags, f9_packetSize, f9_columnEncryption, f9_keyStoreAuthentication, f9_keyStoreLocation, f9_keyStoreSecret⟩ := stepEncrypt_frame h7
  obtain ⟨f10_host, f10_instance_, f10_database, f10_user, f10_password, f10_encrypt, f10_disableEncryption, f10_trustServerCertificate, f10_hostInCertificate, f10_hostInCertificateProvided, f10_typeFlags, f10_logFlags, f10_packetSize, f10_keyStoreAuthentication, f10_keyStoreLocation, f10_keyStoreSecret⟩ := stepColumnEncryption_frame h8
  obtain ⟨f11_host, f11_instance_, f11_database, f11_user, f11_password, f11_encrypt, f11_disableEncryption, f11_trustServerCertificate, f11_hostInCertificate, f11_hostInCertificateProvided, f11_typeFlags, f11_logFlags, f11_packetSize, f11_columnEncryption, f11_keyStoreLocation, f11_keyStoreSecret⟩ := stepKeyStoreAuth_frame h9
  obtain ⟨f12_host, f12_instance_, f12_database, f12_user, f12_password, f12_encrypt, f12_disableEncryption, f12_trustServerCertificate, f12_hostInCertificate, f12_hostInCertificateProvided, f12_typeFlags, f12_logFlags, f12_packetSize, f12_columnEncryption, f12_keyStoreAuthentication, f12_keyStoreSecret⟩ := stepKeyStoreLocation_frame h10
  obtain ⟨f13_host, f13_instance_, f13_database, f13_user, f13_password, f13_encrypt, f13_disableEncryption, f13_trustServerCertificate, f13_hostInCertificate, f13_hostInCertificateProvided, f13_typeFlags, f13_logFlags, f13_packetSize, f13_columnEncryption, f13_keyStoreAuthentication, f13_keyStoreLocation⟩ := stepKeyStoreSecret_frame m p10
  obtain ⟨f14_host, f14_instance_, f14_database, f14_user, f14_password, f14_encrypt, f14_disableEncryption, f14_hostInCertificate, f14_hostInCertificateProvided, f14_typeFlags, f14_logFlags, f14_packetSize, f14_columnEncryption, f14_keyStoreAuthentication, f14_keyStoreLocation, f14_keyStoreSecret⟩ := stepTrust_frame h11
  obtain ⟨f15_host, f15_instance_, f15_database, f15_user, f15_password, f15_encrypt, f15_disableEncryption, f15_trustServerCertificate, f15_hostInCertificate, f15_hostInCertificateProvided, f15_typeFlags, f15_logFlags, f15_packetSize, f15_columnEncryption, f15_keyStoreAuthentication, f15_keyStoreLocation, f15_keyStoreSecret⟩ := stepCertificate_frame m p11
  obtain ⟨f16_host, f16_instance_, f16_database, f16_user, f16_password, f16_encrypt, f16_disableEncryption, f16_trustServerCertificate, f16_typeFlags, f16_logFlags, f16_packetSize, f16_columnEncryption, f16_keyStoreAuthentication, f16_keyStoreLocation, f16_keyStoreSecret⟩ := stepHostInCertificate_frame m (stepCertificate m p11)
  obtain ⟨f17_host, f17_instance_, f17_database, f17_user, f17_password, f17_encrypt, f17_disableEncryption, f17_trustServerCertificate, f17_hostInCertificate, f17_hostInCertificateProvided, f17_typeFlags, f17_logFlags, f17_packetSize, f17_columnEncryption, f17_keyStoreAuthentication, f17_keyStoreLocation, f17_keyStoreSecret⟩ := stepServerSPN_frame m (stepHostInCertificate m (stepCertificate m p11))
  obtain ⟨f18_host, f18_instance_, f18_database, f18_user, f18_password, f18_encrypt, f18_disableEncryption, f18_trustServerCertificate, f18_hostInCertificate, f18_hostInCertificateProvided, f18_typeFlags, f18_logFlags, f18_packetSize, f18_columnEncryption, f18_keyStoreAuthentication, f18_keyStoreLocation, f18_keyStoreSecret⟩ := stepWorkstation_frame hn m (stepServerSPN m (stepHostInCertificate m (stepCertificate m p11)))
  obtain ⟨f19_host, f19_instance_, f19_database, f19_user, f19_password, f19_encrypt, f19_disableEncryption, f19_trustServerCertificate, f19_hostInCertificate, f19_hostInCertificateProvided, f19_typeFlags, f19_logFlags, f19_packetSize, f19_columnEncryption, f19_keyStoreAuthentication, f19_keyStoreLocation, f19_keyStoreSecret⟩ := stepAppName_frame m (stepWorkstation hn m (stepServerSPN m (stepHostInCertificate m (stepCertificate m p11))))
  obtain ⟨f20_host, f20_instance_, f20_database, f20_user, f20_password, f20_encrypt, f20_disableEncryption, f20_trustServerCertificate, f20_hostInCertificate, f20_hostInCertificateProvided, f20_logFlags, f20_packetSize, f20_columnEncryption, f20_keyStoreAuthentication, f20_keyStoreLocation, f20_keyStoreSecret⟩ := stepAppIntent_frame h12
  obtain ⟨f21_host, f21_instance_, f21_database, f21_user, f21_password, f21_encrypt, f21_disableEncryption, f21_trustServerCertificate, f21_hostInCertificate, f21_hostInCertificateProvided, f21_typeFlags, f21_logFlags, f21_packetSize, f21_columnEncryption, f21_keyStoreAuthentication, f21_keyStoreLocation, f21_keyStoreSecret⟩ := stepFailoverPartner_frame m p12
  obtain ⟨f22_host, f22_instance_, f22_database, f22_user, f22_password, f22_encrypt, f22_disableEncryption, f22_trustServerCertificate, f22_hostInCertificate, f22_hostInCertificateProvided, f22_typeFlags, f22_logFlags, f22_packetSize, f22_columnEncryption, f22_keyStoreAuthentication, f22_keyStoreLocation, f22_keyStoreSecret⟩ := stepFailoverPort_frame h13
  have eq_host : p.host = (stepServer m p1).host := by
    simp only [f22_host, f21_host, f20_host, f19_host, f18_host, f17_host, f16_host, f15_host, f14_host, f13_host, f12_host, f11_host, f10_host, f9_host, f8_host, f7_host, f6_host, f5_host, f4_host, f3_host]
  have part_host : p.host = hostSpec m := by
    rw [eq_host]
    unfold stepServer hostSpec
    dsimp only
    cases (goSplitN2 '\\' (mapGetD m (str "server"))).2 <;> rfl
  have part_inst : p.instance_ = instanceSpec m := by
    have e : p.instance_ = (stepServer m p1).instance_ := by
      simp only [f22_instance_, f21_instance_, f20_instance_, f19_instance_, f18_instance_, f17_instance_, f16_instance_, f15_instance_, f14_instance_, f13_instance_, f12_instance_, f11_instance_, f10_instance_, f9_instance_, f8_instance_, f7_instance_, f6_instance_, f5_instance_, f4_instance_, f3_instance_]
    rw [e]
    unfold stepServer instanceSpec
    dsimp only
    cases (goSplitN2 '\\' (mapGetD m (str "server"))).2 with
    | none => simp [f1_instance_, initParams]
    | some i => rfl
  have part_db : p.database = mapGetD m (str "database") := by
    simp only [f22_database, f21_database, f20_database, f19_database, f18_database, f17_database, f16_database, f15_database, f14_database, f13_database, f12_database, f11_database, f10_database, f9_database, f8_database, f7_database, f6_database, f5_database, f4_database]
    rfl
  have part_user : p.user = mapGetD m (str "user id") := by
    simp only [f22_user, f21_user, f20_user, f19_user, f18_user, f17_user, f16_user, f15_user, f14_user, f13_user, f12_user, f11_user, f10_user, f9_user, f8_user, f7_user, f6_user, f5_user, f4_user]
    rfl
  have part_pw : p.password = mapGetD m (str "password") := by
    simp only [f22_password, f21_password, f20_password, f19_password, f18_password, f17_password, f16_password, f15_password, f14_password, f13_password, f12_password, f11_password, f10_password, f9_password, f8_password, f7_password, f6_password, f5_password, f4_password]
    rfl
  have part_log : logSpec m p.logFlags := by
    have e : p.logFlags = p1.logFlags := by
      simp only [f22_logFlags, f21_logFlags, f20_logFlags, f19_logFlags, f18_logFlags, f17_logFlags, f16_logFlags, f15_logFlags, f14_logFlags, f13_logFlags, f12_logFlags, f11_logFlags, f10_logFlags, f9_logFlags, f8_logFlags, f7_logFlags, f6_logFlags, f5_logFlags, f4_logFlags, f3_logFlags, f2_logFlags]
    rcases stepLog_ok.mp h1 with ⟨hk, heq⟩ | ⟨s, v, hk, hv, heq⟩
    · simp only [logSpec, hk, e, ← heq]
      rfl
    · simp only [logSpec, hk, e, ← heq]
      exact hv
  have part_pkt : packetSpec m p.packetSize := by
    have e : p.packetSize = p3.packetSize := by
      simp only [f22_packetSize, f21_packetSize, f20_packetSize, f19_packetSize, f18_packetSize, f17_packetSize, f16_packetSize, f15_packetSize, f14_packetSize, f13_packetSize, f12_packetSize, f11_packetSize, f10_packetSize, f9_packetSize, f8_packetSize, f7_packetSize, f6_packetSize]
    rcases stepPacketSize_ok.mp h3 with ⟨hk, heq⟩ | ⟨s, v, hk, hv, heq⟩
    · simp only [packetSpec, hk, e, ← heq]
    · simp only [packetSpec, hk, e, ← heq]
      exact ⟨v, hv, rfl⟩
  have enc_in : p6.encrypt = false := by
    simp only [f8_encrypt, f7_encrypt, f6_encrypt, f5_encrypt, f4_encrypt, f3_encrypt, f2_encrypt, f1_encrypt, initParams]
  have dis_in : p6.disableEncryption = false := by
    simp only [f8_disableEncryption, f7_disableEncryption, f6_disableEncryption, f5_disableEncryption, f4_disableEncryption, f3_disableEncryption, f2_disableEncryption, f1_disableEncryption, initParams]
  have trust_in : p6.trustServerCertificate = false := by
    simp only [f8_trustServerCertificate, f7_trustServerCertificate, f6_trustServerCertificate, f5_trustServerCertificate, f4_trustServerCertificate, f3_trustServerCertificate, f2_trustServerCertificate, f1_trustServerCertificate, initParams]
  have part_enc : encryptSpec m p.encrypt p.disableEncryption := by
    have e1 : p.encrypt = p7.encrypt := by
      simp only [f22_encrypt, f21_encrypt, f20_encrypt, f19_encrypt, f18_encrypt, f17_encrypt, f16_encrypt, f15_encrypt, f14_encrypt, f13_encrypt, f12_encrypt, f11_encrypt, f10_encrypt]
    have e2 : p.disableEncryption = p7.disableEncryption := by
      simp only [f22_disableEncryption, f21_disableEncryption, f20_disableEncryption, f19_disableEncryption, f18_disableEncryption, f17_disableEncryption, f16_disableEncryption, f15_disableEncryption, f14_disableEncryption, f13_disableEncryption, f12_disableEncryption, f11_disableEncryption, f10_disableEncryption]
    rcases stepEncrypt_ok.mp h7 with ⟨hk, heq⟩ | ⟨s, hk, hf, heq⟩ | ⟨s, b, hk, hf, hb, heq⟩
    · simp only [encryptSpec, hk, e1, e2, ← heq]
      exact ⟨enc_in, dis_in⟩
    · simp only [encryptSpec, hk, hf, if_true, eq_self_iff_true, e1, e2, ← heq]
      exact ⟨trivial, enc_in⟩
    · simp only [encryptSpec, hk, hf, Bool.false_eq_true, if_false, e1, e2, ← heq]
      exact ⟨hb, dis_in⟩
  have part_trust : trustSpec m p.trustServerCertificate := by
    have e : p.trustServerCertificate = p11.trustServerCertificate := by
      simp only [f22_trustServerCertificate, f21_trustServerCertificate, f20_trustServerCertificate, f19_trustServerCertificate, f18_trustServerCertificate, f17_trustServerCertificate, f16_trustServerCertificate, f15_trustServerCertificate]
    rcases stepTrust_ok.mp h11 with ⟨hk, heq⟩ | ⟨s, b, hk, hb, heq⟩
    · have e2 : p11.trustServerCertificate = p7.trustServerCertificate := by
        rw [← heq]
        simp only [f13_trustServerCertificate, f12_trustServerCertificate, f11_trustServerCertificate, f10_trustServerCertificate]
      rcases stepEncrypt_ok.mp h7 with ⟨hk2, heq2⟩ | ⟨s2, hk2, hf2, heq2⟩ | ⟨s2, b2, hk2, hf2, hb2, heq2⟩
      · simp only [trustSpec, hk, hk2, e, e2, ← heq2]
        rfl
      · simp only [trustSpec, hk, hk2, e, e2, ← heq2]
        simp [trust_in]
      · simp only [trustSpec, hk, hk2, e, e2, ← heq2]
        simp [trust_in]
    · simp only [trustSpec, hk, e, ← heq]
      exact hb
  have part_col : columnSpec m p.columnEncryption := by
    have e : p.columnEncryption = p8.columnEncryption := by
      simp only [f22_columnEncryption, f21_columnEncryption, f20_columnEncryption, f19_columnEncryption, f18_columnEncryption, f17_columnEncryption, f16_columnEncryption, f15_columnEncryption, f14_columnEncryption, f13_columnEncryption, f12_columnEncryption, f11_columnEncryption]
    rcases stepColumnEncryption_ok.mp h8 with ⟨hk, heq⟩ | ⟨s, hk, hf, heq⟩ | ⟨s, b, hk, hf, hb, heq⟩
    · simp only [columnSpec, hk, e, ← heq]
    · simp only [columnSpec, hk, hf, if_true, eq_self_iff_true, e, ← heq]
    · simp only [columnSpec, hk, hf, Bool.false_eq_true, if_false, e, ← heq]
      exact hb
  have part_ka : ksAuthSpec m p.keyStoreAuthentication := by
    have e : p.keyStoreAuthentication = p9.keyStoreAuthentication := by
      simp only [f22_keyStoreAuthentication, f21_keyStoreAuthentication, f20_keyStoreAuthentication, f19_keyStoreAuthentication, f18_keyStoreAuthentication, f17_keyStoreAuthentication, f16_keyStoreAuthentication, f15_keyStoreAuthentication, f14_keyStoreAuthentication, f13_keyStoreAuthentication, f12_keyStoreAuthentication]
    have eIn : p8.keyStoreAuthentication = [] := by
      simp only [f10_keyStoreAuthentication, f9_keyStoreAuthentication, f8_keyStoreAuthentication, f7_keyStoreAuthentication, f6_keyStoreAuthentication, f5_keyStoreAuthentication, f4_keyStoreAuthentication, f3_keyStoreAuthentication, f2_keyStoreAuthentication, f1_keyStoreAuthentication, initParams]
    rcases stepKeyStoreAuth_ok.mp h9 with ⟨hk, heq⟩ | ⟨s, hk, hl, heq⟩
    · simp only [ksAuthSpec, hk, e, ← heq]
      exact eIn
    · simp only [ksAuthSpec, hk, e, ← heq]
      exact ⟨hl, trivial⟩
  have part_kl : ksLocSpec fe m p.keyStoreLocation := by
    have e : p.keyStoreLocation = p10.keyStoreLocation := by
      simp only [f22_keyStoreLocation, f21_keyStoreLocation, f20_keyStoreLocation, f19_keyStoreLocation, f18_keyStoreLocation, f17_keyStoreLocation, f16_keyStoreLocation, f15_keyStoreLocation, f14_keyStoreLocation, f13_keyStoreLocation]
    have eIn : p9.keyStoreLocation = [] := by
      simp only [f11_keyStoreLocation, f10_keyStoreLocation, f9_keyStoreLocation, f8_keyStoreLocation, f7_keyStoreLocation, f6_keyStoreLocation, f5_keyStoreLocation, f4_keyStoreLocation, f3_keyStoreLocation, f2_keyStoreLocation, f1_keyStoreLocation, initParams]
    rcases stepKeyStoreLocation_ok.mp h10 with ⟨hk, heq⟩ | ⟨s, hk, hne, hfe, heq⟩
    · simp only [ksLocSpec, hk, e, ← heq]
      exact eIn
    · simp only [ksLocSpec, hk, e, ← heq]
      exact ⟨hne, hfe, trivial⟩
  have part_sec : ksSecretSpec m p.keyStoreSecret := by
    have e : p.keyStoreSecret = (stepKeyStoreSecret m p10).keyStoreSecret := by
      simp only [f22_keyStoreSecret, f21_keyStoreSecret, f20_keyStoreSecret, f19_keyStoreSecret, f18_keyStoreSecret, f17_keyStoreSecret, f16_keyStoreSecret, f15_keyStoreSecret, f14_keyStoreSecret]
    have eIn : p10.keyStoreSecret = [] := by
      simp only [f12_keyStoreSecret, f11_keyStoreSecret, f10_keyStoreSecret, f9_keyStoreSecret, f8_keyStoreSecret, f7_keyStoreSecret, f6_keyStoreSecret, f5_keyStoreSecret, f4_keyStoreSecret, f3_keyStoreSecret, f2_keyStoreSecret, f1_keyStoreSecret, initParams]
    cases hk : mapGet m (str "keystoresecret") with
    | none =>
      simp only [ksSecretSpec, hk, e]
      unfold stepKeyStoreSecret
      rw [hk]
      exact eIn
    | some s =>
      simp only [ksSecretSpec, hk, e]
      unfold stepKeyStoreSecret
      rw [hk]
  have part_hic : hicSpec m p.host p.hostInCertificate p.hostInCertificateProvided := by
    have e1 : p.hostInCertificate = (stepHostInCertificate m (stepCertificate m p11)).hostInCertificate := by
      simp only [f22_hostInCertificate, f21_hostInCertificate, f20_hostInCertificate, f19_hostInCertificate, f18_hostInCertificate, f17_hostInCertificate]
    have e2 : p.hostInCertificateProvided =
        (stepHostInCertificate m (stepCertificate m p11)).hostInCertificateProvided := by
      simp only [f22_hostInCertificateProvided, f21_hostInCertificateProvided, f20_hostInCertificateProvided, f19_hostInCertificateProvided, f18_hostInCertificateProvided, f17_hostInCertificateProvided]
    have e3 : (stepCertificate m p11).host = p.host := by
      have a : (stepCertificate m p11).host = (stepServer m p1).host := by
        simp only [f15_host, f14_host, f13_host, f12_host, f11_host, f10_host, f9_host, f8_host, f7_host, f6_host, f5_host, f4_host, f3_host]
      rw [a, ← eq_host]
    cases hk : mapGet m (str "hostnameincertificate") with
    | none =>
      simp only [hicSpec, hk, e1, e2]
      unfold stepHostInCertificate
      rw [hk]
      exact ⟨e3, rfl⟩
    | some s =>
      simp only [hicSpec, hk, e1, e2]
      unfold stepHostInCertificate
      rw [hk]
      exact ⟨rfl, rfl⟩
  have part_ai : appIntentSpec m p.database p.typeFlags := by
    have e : p.typeFlags = p12.typeFlags := by
      simp only [f22_typeFlags, f21_typeFlags]
    have eA : (stepAppName m (stepWorkstation hn m (stepServerSPN m (stepHostInCertificate m (stepCertificate m p11))))).typeFlags = p11.typeFlags := by
      simp only [f19_typeFlags, f18_typeFlags, f17_typeFlags, f16_typeFlags, f15_typeFlags]
    have eIn : p11.typeFlags = 0 := by
      simp only [f14_typeFlags, f13_typeFlags, f12_typeFlags, f11_typeFlags, f10_typeFlags, f9_typeFlags, f8_typeFlags, f7_typeFlags, f6_typeFlags, f5_typeFlags, f4_typeFlags, f3_typeFlags, f2_typeFlags, f1_typeFlags, initParams]
    have eAdb : (stepAppName m (stepWorkstation hn m (stepServerSPN m (stepHostInCertificate m (stepCertificate m p11))))).database = p.database := by
      have a : (stepAppName m (stepWorkstation hn m (stepServerSPN m (stepHostInCertificate m (stepCertificate m p11))))).database = (stepDatabaseUserPassword m (stepServer m p1)).database := by
        simp only [f19_database, f18_database, f17_database, f16_database, f15_database, f14_database, f13_database, f12_database, f11_database, f10_database, f9_database, f8_database, f7_database, f6_database, f5_database, f4_database]
      have b2 : p.database = (stepDatabaseUserPassword m (stepServer m p1)).database := by
        simp only [f22_database, f21_database, f20_database, f19_database, f18_database, f17_database, f16_database, f15_database, f14_database, f13_database, f12_database, f11_database, f10_database, f9_database, f8_database, f7_database, f6_database, f5_database, f4_database]
      rw [a, ← b2]
    rcases stepAppIntent_ok.mp h12 with ⟨hk, heq⟩ | ⟨ss, hk, hs, heq⟩ | ⟨hk, hdb, heq⟩
    · simp only [appIntentSpec, hk, e, ← heq, eA, eIn]
    · simp only [appIntentSpec, hk, e, ← heq, eA, eIn, if_neg hs]
    · simp only [appIntentSpec, hk, e, ← heq]
      refine ⟨?_, ?_⟩
      · rw [← eAdb]
        exact hdb
      · show (stepAppName m (stepWorkstation hn m (stepServerSPN m (stepHostInCertificate m (stepCertificate m p11))))).typeFlags ||| fReadOnlyIntent = fReadOnlyIntent
        rw [eA, eIn]
        simp
  exact ⟨part_host, part_inst, part_db, part_user, part_pw, part_log, part_pkt, part_enc,
    part_trust, part_col, part_ka, part_kl, part_sec, part_hic, part_ai⟩

/-! ## Auxiliary facts -/

lemma parseUintLoop_le {base maxVal : Nat} {b0 : Bool} :
    ∀ {s : Str} {n v : Nat}, parseUintLoop base maxVal b0 s n = .ok v → n ≤ maxVal →
      v ≤ maxVal := by
  intro s
  induction s with
  | nil =>
    intro n v h hle
    unfold parseUintLoop at h
    cases h
    exact hle
  | cons c t ih =>
    intro n v h hle
    unfold parseUintLoop at h
    split at h
    · exact ih h hle
    · split at h
      · cases h
      · split at h
        · cases h
        · split at h
          · cases h
          · split at h
            · cases h
            · rename_i hbound
              exact ih h (by omega)

lemma parseUintFinish_ok {b0 : Bool} {s0 : Str} {r : Except Str Nat} {v : Nat}
    (h : parseUintFinish b0 s0 r = .ok v) : r = .ok v := by
  cases r with
  | error e =>
    simp only [parseUintFinish] at h
    exact h
  | ok n =>
    simp only [parseUintFinish] at h
    by_cases hc : b0 = true ∧ ¬ underscoreOK s0 = true
    · rw [if_pos hc] at h
      cases h
    · rw [if_neg hc] at h
      exact h

lemma parseUint_le {s : Str} {b bs v : Nat} (h : parseUint s b bs = .ok v) :
    v ≤ 2 ^ bs - 1 := by
  unfold parseUint at h
  split at h
  · cases h
  · exact parseUintLoop_le (parseUintFinish_ok h) (Nat.zero_le _)

lemma hostSpec_ne_nil (m : RawParams) : hostSpec m ≠ [] := by
  unfold hostSpec
  dsimp only
  split
  · decide
  · rename_i hcond
    intro hnil
    exact hcond (Or.inr (Or.inr hnil))

/-- Inversion for the dispatcher: a successful `parseConnectParams` run
factors through a successful resolution of some tokenized map. -/
lemma parseConnectParams_ok {fe : Str → Bool} {hn : Option Str} {dsn : Str}
    {p : connectParams} (h : parseConnectParams fe hn dsn = .ok p) :
    ∃ m, resolveParams fe hn m = .ok p := by
  unfold parseConnectParams at h
  dsimp only at h
  split at h
  · rw [except_bind_ok] at h
    exact ⟨h.choose, h.choose_spec.2⟩
  · split at h
    · rw [except_bind_ok] at h
      exact ⟨h.choose, h.choose_spec.2⟩
    · rw [except_bind_ok] at h
      exact ⟨h.choose, h.choose_spec.2⟩

/-! ## The claims -/

/-- **C8** — For every raw parameter map, the resolver splits the `server`
value on its first backslash into host and instance and normalizes the
host: `.`, `(local)` in any letter case, and the empty string resolve to
`localhost`; the resolved host is never empty. -/
theorem server_split_and_host_normalization
    (fe : Str → Bool) (hn : Option Str) (m : RawParams) (p : connectParams)
    (h : resolveParams fe hn m = .ok p) :
    p.host =
      (let host0 := (goSplitN2 '\\' (mapGetD m (str "server"))).1
       if host0 = str "." ∨ goToUpper host0 = str "(LOCAL)" ∨ host0 = [] then str "localhost"
       else host0) ∧
    p.instance_ = ((goSplitN2 '\\' (mapGetD m (str "server"))).2).getD [] ∧
    p.host ≠ [] := by
  obtain ⟨hh, hi, -⟩ := resolveParams_fields h
  refine ⟨hh, hi, ?_⟩
  rw [hh]
  exact hostSpec_ne_nil m

/-- Witness for C8 at concrete inputs: `myhost\inst1`, `(LOCAL)`, `.` and
the empty server value. -/
theorem server_split_and_host_normalization_witness :
    (getOk (resolveParams feNone none [(str "server", str "myhost\\inst1")])).host =
      str "myhost" ∧
    (getOk (resolveParams feNone none [(str "server", str "myhost\\inst1")])).instance_ =
      str "inst1" ∧
    (getOk (resolveParams feNone none [(str "server", str "(Local)")])).host =
      str "localhost" ∧
    (getOk (resolveParams feNone none [(str "server", str ".")])).host = str "localhost" ∧
    (getOk (resolveParams feNone none [])).host = str "localhost" := by
  refine ⟨?_, ?_, ?_, ?_, ?_⟩
  · rw [(server_split_and_host_normalization feNone none _ _
      (show resolveParams feNone none [(str "server", str "myhost\\inst1")] = .ok (getOk (resolveParams feNone none [(str "server", str "myhost\\inst1")])) from rfl)).1]
    decide
  · rw [(server_split_and_host_normalization feNone none _ _
      (show resolveParams feNone none [(str "server", str "myhost\\inst1")] = .ok (getOk (resolveParams feNone none [(str "server", str "myhost\\inst1")])) from rfl)).2.1]
    decide
  · rw [(server_split_and_host_normalization feNone none _ _
      (show resolveParams feNone none [(str "server", str "(Local)")] = .ok (getOk (resolveParams feNone none [(str "server", str "(Local)")])) from rfl)).1]
    decide
  · rw [(server_split_and_host_normalization feNone none _ _
      (show resolveParams feNone none [(str "server", str ".")] = .ok (getOk (resolveParams feNone none [(str "server", str ".")])) from rfl)).1]
    decide
  · rw [(server_split_and_host_normalization feNone none _ _
      (show resolveParams feNone none [] = .ok (getOk (resolveParams feNone none [])) from rfl)).1]
    decide

/-- **C7** — `applicationintent=ReadOnly` requires a non-empty database
(otherwise resolution is a hard error) and sets the read-only bit in
`typeFlags`. -/
theorem applicationIntent_readOnly_requires_database :
    (∀ (fe : Str → Bool) (hn : Option Str) (m : RawParams) (p : connectParams),
      resolveParams fe hn m = .ok p →
      mapGet m (str "applicationintent") = some (str "ReadOnly") →
      p.database ≠ [] ∧ p.typeFlags = fReadOnlyIntent) ∧
    (∀ (fe : Str → Bool) (hn : Option Str) (m : RawParams),
      mapGet m (str "applicationintent") = some (str "ReadOnly") →
      mapGetD m (str "database") = [] →
      isErr (resolveParams fe hn m) = true) := by
  constructor
  · intro fe hn m p h hk
    have hai := (resolveParams_fields h).2.2.2.2.2.2.2.2.2.2.2.2.2.2
    unfold appIntentSpec at hai
    rw [hk] at hai
    simpa using hai
  · intro fe hn m hk hdb
    cases hres : resolveParams fe hn m with
    | error e => rfl
    | ok p =>
      obtain ⟨-, -, hdbeq, -⟩ := resolveParams_fields hres
      have hai := (resolveParams_fields hres).2.2.2.2.2.2.2.2.2.2.2.2.2.2
      unfold appIntentSpec at hai
      rw [hk] at hai
      simp only [if_pos rfl] at hai
      exact absurd (hdbeq.trans hdb) hai.1

/-- Witness for C7: with `database=foo` the read-only flag is set; without
a database the resolution errors. -/
theorem applicationIntent_readOnly_requires_database_witness :
    ((getOk (resolveParams feNone none
        [(str "applicationintent", str "ReadOnly"), (str "database", str "foo")])).database ≠ [] ∧
     (getOk (resolveParams feNone none
        [(str "applicationintent", str "ReadOnly"), (str "database", str "foo")])).typeFlags =
       fReadOnlyIntent) ∧
    isErr (resolveParams feNone none [(str "applicationintent", str "ReadOnly")]) = true := by
  constructor
  · exact applicationIntent_readOnly_requires_database.1 feNone none
      [(str "applicationintent", str "ReadOnly"), (str "database", str "foo")] _ rfl rfl
  · exact applicationIntent_readOnly_requires_database.2 feNone none
      [(str "applicationintent", str "ReadOnly")] rfl rfl

/-- **C10** — An `applicationintent` value other than the exact literal
`ReadOnly` is silently ignored: the application-intent block returns its
input unchanged, and the resolved `typeFlags` stays 0. -/
theorem applicationIntent_other_values_ignored :
    (∀ (m : RawParams) (p : connectParams) (v : Str),
      mapGet m (str "applicationintent") = some v → v ≠ str "ReadOnly" →
      stepAppIntent m p = .ok p) ∧
    (∀ (fe : Str → Bool) (hn : Option Str) (m : RawParams) (p : connectParams) (v : Str),
      resolveParams fe hn m = .ok p →
      mapGet m (str "applicationintent") = some v → v ≠ str "ReadOnly" →
      p.typeFlags = 0) := by
  constructor
  · intro m p v hk hv
    unfold stepAppIntent
    rw [hk]
    simp [hv]
  · intro fe hn m p v h hk hv
    have hai := (resolveParams_fields h).2.2.2.2.2.2.2.2.2.2.2.2.2.2
    unfold appIntentSpec at hai
    rw [hk] at hai
    simpa [if_neg hv] using hai

/-- Witness for C10 at the concrete value `readonly` (wrong case). -/
theorem applicationIntent_other_values_ignored_witness :
    stepAppIntent [(str "applicationintent", str "readonly")] initParams = .ok initParams ∧
    (getOk (resolveParams feNone none [(str "applicationintent", str "readonly")])).typeFlags
      = 0 := by
  constructor
  · exact applicationIntent_other_values_ignored.1
      [(str "applicationintent", str "readonly")] initParams (str "readonly") rfl (by decide)
  · exact applicationIntent_other_values_ignored.2 feNone none
      [(str "applicationintent", str "readonly")] _ (str "readonly") rfl rfl (by decide)

/-- **C3 (amended)** — On a successful resolution of the raw parameter
map, `hostInCertificate` defaults to the resolved host (which is never
empty) with the provided-flag false when the key is absent; an explicit
value is used verbatim — possibly empty — with the flag true. -/
theorem hostInCertificate_default_and_override
    (fe : Str → Bool) (hn : Option Str) (m : RawParams) (p : connectParams)
    (h : resolveParams fe hn m = .ok p) :
    (mapGet m (str "hostnameincertificate") = none →
      p.hostInCertificate = p.host ∧ p.hostInCertificateProvided = false ∧
      p.hostInCertificate ≠ []) ∧
    (∀ v, mapGet m (str "hostnameincertificate") = some v →
      p.hostInCertificate = v ∧ p.hostInCertificateProvided = true) := by
  obtain ⟨hh, -⟩ := resolveParams_fields h
  have hic := (resolveParams_fields h).2.2.2.2.2.2.2.2.2.2.2.2.2.1
  constructor
  · intro hk
    unfold hicSpec at hic
    rw [hk] at hic
    refine ⟨hic.1, hic.2, ?_⟩
    rw [hic.1, hh]
    exact hostSpec_ne_nil m
  · intro v hk
    unfold hicSpec at hic
    rw [hk] at hic
    exact hic

/-- Witness for C3 (amended): both the defaulting case and the explicit
case at concrete maps. -/
theorem hostInCertificate_default_and_override_witness :
    ((getOk (resolveParams feNone none [(str "server", str "myhost")])).hostInCertificate =
        (getOk (resolveParams feNone none [(str "server", str "myhost")])).host ∧
     (getOk (resolveParams feNone none
        [(str "server", str "myhost")])).hostInCertificateProvided = false) ∧
    ((getOk (resolveParams feNone none
        [(str "hostnameincertificate", str "other")])).hostInCertificate = str "other" ∧
     (getOk (resolveParams feNone none
        [(str "hostnameincertificate", str "other")])).hostInCertificateProvided = true) := by
  constructor
  · obtain ⟨h1, h2, -⟩ := (hostInCertificate_default_and_override feNone none
      [(str "server", str "myhost")] _ rfl).1 rfl
    exact ⟨h1, h2⟩
  · exact (hostInCertificate_default_and_override feNone none
      [(str "hostnameincertificate", str "other")] _ rfl).2 (str "other") rfl

/-- Counterexample for C3 as stated: the DSN `hostnameincertificate=`
resolves successfully with an **empty** `hostInCertificate`. -/
theorem hostInCertificate_can_be_empty :
    parseConnectParams feNone none (str "hostnameincertificate=") =
      .ok (getOk (parseConnectParams feNone none (str "hostnameincertificate="))) ∧
    (getOk (parseConnectParams feNone none (str "hostnameincertificate="))).hostInCertificate
      = [] := ⟨rfl, rfl⟩

/-- **C6** — The `encrypt` derivation: absent `encrypt` defaults
`trustServerCertificate` to true (when no explicit trust key overrides
it) and leaves `encrypt` false; `encrypt=disable` (case-insensitive)
sets `disableEncryption` with `encrypt` staying false; any other value
must parse as a boolean (resolution fails otherwise); and an explicit
`trustservercertificate` key always overrides the default, its value
also parsed as a boolean. -/
theorem encrypt_trust_derivation
    (fe : Str → Bool) (hn : Option Str) (m : RawParams) (p : connectParams)
    (h : resolveParams fe hn m = .ok p) :
    (mapGet m (str "encrypt") = none →
      p.encrypt = false ∧ p.disableEncryption = false ∧
      (mapGet m (str "trustservercertificate") = none → p.trustServerCertificate = true)) ∧
    (∀ v, mapGet m (str "encrypt") = some v → goEqualFold v (str "DISABLE") = true →
      p.disableEncryption = true ∧ p.encrypt = false) ∧
    (∀ v, mapGet m (str "encrypt") = some v → goEqualFold v (str "DISABLE") = false →
      parseBool v = some p.encrypt ∧ p.disableEncryption = false) ∧
    (∀ v, mapGet m (str "trustservercertificate") = some v →
      parseBool v = some p.trustServerCertificate) := by
  have henc := (resolveParams_fields h).2.2.2.2.2.2.2.1
  have htr := (resolveParams_fields h).2.2.2.2.2.2.2.2.1
  refine ⟨?_, ?_, ?_, ?_⟩
  · intro hk
    unfold encryptSpec at henc
    rw [hk] at henc
    refine ⟨henc.1, henc.2, ?_⟩
    intro hk2
    unfold trustSpec at htr
    rw [hk2, hk] at htr
    simpa using htr
  · intro v hk hf
    unfold encryptSpec at henc
    rw [hk] at henc
    simp only [hf, if_true] at henc
    exact henc
  · intro v hk hf
    unfold encryptSpec at henc
    rw [hk] at henc
    simp only [hf, Bool.false_eq_true, if_false] at henc
    exact henc
  · intro v hk
    unfold trustSpec at htr
    rw [hk] at htr
    exact htr

/-- Witness for C6: `encrypt` absent gives trust-by-default;
`encrypt=disable` sets `disableEncryption`; `encrypt=1` parses as a
boolean; an explicit trust key overrides. -/
theorem encrypt_trust_derivation_witness :
    ((getOk (resolveParams feNone none [])).encrypt = false ∧
     (getOk (resolveParams feNone none [])).trustServerCertificate = true) ∧
    ((getOk (resolveParams feNone none [(str "encrypt", str "disable")])).disableEncryption =
        true ∧
     (getOk (resolveParams feNone none [(str "encrypt", str "disable")])).encrypt = false) ∧
    parseBool (str "1") =
      some (getOk (resolveParams feNone none [(str "encrypt", str "1")])).encrypt ∧
    parseBool (str "false") = some (getOk (resolveParams feNone none
      [(str "trustservercertificate", str "false")])).trustServerCertificate := by
  refine ⟨⟨?_, ?_⟩, ?_, ?_, ?_⟩
  · exact ((encrypt_trust_derivation feNone none [] _ rfl).1 rfl).1
  · exact ((encrypt_trust_derivation feNone none [] _ rfl).1 rfl).2.2 rfl
  · exact (encrypt_trust_derivation feNone none [(str "encrypt", str "disable")] _ rfl).2.1
      (str "disable") rfl (by decide)
  · exact ((encrypt_trust_derivation feNone none [(str "encrypt", str "1")] _ rfl).2.2.1
      (str "1") rfl (by decide)).1
  · exact (encrypt_trust_derivation feNone none
      [(str "trustservercertificate", str "false")] _ rfl).2.2.2 (str "false") rfl

/-- **C1 (amended)** — When the `packet size` value parses as an
unsigned integer that fits in 16 bits, the packet-size block never
fails and the resolved `packetSize` is the parsed value clamped into
[512, 32767]; values whose parse overflows 16 bits are hard errors
(see the counterexample for `999999`). -/
theorem packetSize_clamped :
    (∀ (fe : Str → Bool) (hn : Option Str) (m : RawParams) (p : connectParams) (v : Str),
      resolveParams fe hn m = .ok p → mapGet m (str "packet size") = some v →
      ∃ n, parseUint v 0 16 = .ok n ∧
        p.packetSize = (if n < 512 then 512 else if n > 32767 then 32767 else n)) ∧
    (∀ (m : RawParams) (p : connectParams) (v : Str) (n : Nat),
      mapGet m (str "packet size") = some v → parseUint v 0 16 = .ok n →
      stepPacketSize m p = .ok { p with packetSize :=
        if n % 2 ^ 16 < 512 then 512 else if n % 2 ^ 16 > 32767 then 32767 else n % 2 ^ 16 }) := by
  constructor
  · intro fe hn m p v h hk
    have hps := (resolveParams_fields h).2.2.2.2.2.2.1
    unfold packetSpec at hps
    rw [hk] at hps
    obtain ⟨n, hn', hps⟩ := hps
    have hle : n ≤ 2 ^ 16 - 1 := parseUint_le hn'
    have hmod : n % 2 ^ 16 = n := Nat.mod_eq_of_lt (by omega)
    rw [hmod] at hps
    exact ⟨n, hn', hps⟩
  · intro m p v n hk hp
    exact stepPacketSize_ok.mpr (Or.inr ⟨v, n, hk, hp, rfl⟩)

/-- Witness for C1 (amended): `packet size=100` resolves to a clamped
512, and the block-level lemma applied at the same input. -/
theorem packetSize_clamped_witness :
    (getOk (resolveParams feNone none [(str "packet size", str "100")])).packetSize = 512 ∧
    stepPacketSize [(str "packet size", str "100")] initParams =
      .ok { initParams with packetSize := 512 } := by
  constructor
  · obtain ⟨n, hp, hps⟩ := packetSize_clamped.1 feNone none
      [(str "packet size", str "100")] _ (str "100")
      (show resolveParams feNone none [(str "packet size", str "100")] =
        .ok (getOk (resolveParams feNone none [(str "packet size", str "100")])) from rfl) rfl
    have hn : n = 100 := by
      have h2 : parseUint (str "100") 0 16 = .ok 100 := by decide
      exact (Except.ok.inj (h2.symm.trans hp)).symm
    rw [hps, hn]
    decide
  · have := packetSize_clamped.2 [(str "packet size", str "100")] initParams
      (str "100") 100 rfl (by decide)
    simpa using this

/-- Counterexample for C1 as stated: `packet size=999999` does **not**
resolve to 32767 — `strconv.ParseUint` with bit size 16 range-errors on
it, so resolution fails. -/
theorem packetSize_999999_is_error :
    isErr (resolveParams feNone none [(str "packet size", str "999999")]) = true ∧
    parseUint (str "999999") 0 16 = .error (str "value out of range") := ⟨rfl, rfl⟩

/-- **C2** — In the ODBC tokenizer's braced-value states: a doubled
closing brace is an escaped literal `}`; every other character
(including `{`, `=`, `;` and whitespace) is literal content inside a
braced value; after the closing brace only whitespace or `;` may
follow, anything else being a hard error; and the input `k={a}}b}`
tokenizes to the literal value `a}b`. -/
theorem odbc_braced_value_escaping :
    splitConnectionStringOdbc (str "k=\x7ba\x7d\x7db\x7d") = .ok [(str "k", str "a\x7db")] ∧
    (∀ (i : Nat) (c : Char) (a : OdbcAcc), a.state = .bracedValue → c ≠ '}' →
      odbcStep i c a = .ok { a with value := a.value ++ [c] }) ∧
    (∀ (i : Nat) (a : OdbcAcc), a.state = .bracedValue →
      odbcStep i '}' a = .ok { a with state := .bracedValueClosingBrace }) ∧
    (∀ (i : Nat) (a : OdbcAcc), a.state = .bracedValueClosingBrace →
      odbcStep i '}' a = .ok { a with value := a.value ++ ['}'], state := .bracedValue }) ∧
    (∀ (i : Nat) (a : OdbcAcc), a.state = .bracedValueClosingBrace →
      odbcStep i ';' a =
        .ok ⟨mapSet a.res a.key a.value, [], [], .beforeKey⟩) ∧
    (∀ (i : Nat) (c : Char) (a : OdbcAcc), a.state = .bracedValueClosingBrace →
      c ≠ '}' → goIsSpace c = true →
      odbcStep i c a = .ok ⟨mapSet a.res a.key a.value, [], [], .endValue⟩) ∧
    (∀ (i : Nat) (c : Char) (a : OdbcAcc), a.state = .bracedValueClosingBrace →
      c ≠ '}' → c ≠ ';' → goIsSpace c = false →
      odbcStep i c a = .error (str "unexpected character " ++ [c] ++ str " at index " ++
        natToStr i ++ str ". Expected semi-colon or whitespace")) := by
  refine ⟨by decide, ?_, ?_, ?_, ?_, ?_, ?_⟩
  · intro i c a hs hc
    unfold odbcStep
    rw [hs]
    simp [hc]
  · intro i a hs
    unfold odbcStep
    rw [hs]
    simp
  · intro i a hs
    unfold odbcStep
    rw [hs]
    simp
  · intro i a hs
    unfold odbcStep
    rw [hs]
    simp
  · intro i c a hs hc hsp
    have hc2 : c ≠ ';' := fun hh => by
      rw [hh] at hsp
      exact absurd hsp (by decide)
    unfold odbcStep
    rw [hs]
    simp [hc, hc2, hsp]
  · intro i c a hs hc1 hc2 hsp
    unfold odbcStep
    rw [hs]
    simp [hc1, hc2, hsp]

/-- Witness for C2: each braced-value transition at a concrete
accumulator, including the hard error after a closing brace. -/
theorem odbc_braced_value_escaping_witness :
    odbcStep 3 '{' ⟨[], str "k", str "v", .bracedValue⟩ =
      .ok ⟨[], str "k", str "v\x7b", .bracedValue⟩ ∧
    odbcStep 3 '}' ⟨[], str "k", str "v", .bracedValue⟩ =
      .ok ⟨[], str "k", str "v", .bracedValueClosingBrace⟩ ∧
    odbcStep 3 '}' ⟨[], str "k", str "v", .bracedValueClosingBrace⟩ =
      .ok ⟨[], str "k", str "v\x7d", .bracedValue⟩ ∧
    odbcStep 3 ';' ⟨[], str "k", str "v", .bracedValueClosingBrace⟩ =
      .ok ⟨[(str "k", str "v")], [], [], .beforeKey⟩ ∧
    odbcStep 3 'x' ⟨[], str "k", str "v", .bracedValueClosingBrace⟩ =
      .error (str "unexpected character " ++ ['x'] ++ str " at index " ++ natToStr 3 ++
        str ". Expected semi-colon or whitespace") := by
  refine ⟨?_, ?_, ?_, ?_, ?_⟩
  · have := odbc_braced_value_escaping.2.1 3 '{' ⟨[], str "k", str "v", .bracedValue⟩ rfl
      (by decide)
    simpa using this
  · exact odbc_braced_value_escaping.2.2.1 3 ⟨[], str "k", str "v", .bracedValue⟩ rfl
  · have := odbc_braced_value_escaping.2.2.2.1 3 ⟨[], str "k", str "v",
      .bracedValueClosingBrace⟩ rfl
    simpa using this
  · have := odbc_braced_value_escaping.2.2.2.2.1 3 ⟨[], str "k", str "v",
      .bracedValueClosingBrace⟩ rfl
    simpa using this
  · have := odbc_braced_value_escaping.2.2.2.2.2.2 3 'x' ⟨[], str "k", str "v",
      .bracedValueClosingBrace⟩ rfl (by decide) (by decide) (by decide)
    exact this

/-! ## URL-tokenizer claims -/

lemma ok_bind {ε α β : Type} (a : α) (f : α → Except ε β) :
    (Except.ok a >>= f) = f a := rfl

lemma mapGet_mapSet_self (m : RawParams) (k v : Str) :
    mapGet (mapSet m k v) k = some v := by
  induction m with
  | nil => simp [mapSet, mapGet]
  | cons kv t ih =>
    by_cases hk : kv.1 = k
    · simp [mapSet, mapGet, hk]
    · simp [mapSet, mapGet, hk, ih]

lemma mapGet_mapSet_ne (m : RawParams) (k v k0 : Str) (h : k ≠ k0) :
    mapGet (mapSet m k v) k0 = mapGet m k0 := by
  induction m with
  | nil => simp [mapSet, mapGet, h]
  | cons kv t ih =>
    by_cases hk : kv.1 = k
    · simp [mapSet, mapGet, hk, h]
    · simp [mapSet, mapGet, hk, ih]

lemma urlQueryLoop_preserves {vs : Values} {res m : RawParams} {k0 : Str}
    (h : urlQueryLoop vs res = .ok m) (hk : ∀ kv ∈ vs, goToLower kv.1 ≠ k0) :
    mapGet m k0 = mapGet res k0 := by
  induction vs generalizing res with
  | nil =>
    unfold urlQueryLoop at h
    cases h
    rfl
  | cons kv t ih =>
    unfold urlQueryLoop at h
    split at h
    · cases h
    · rw [ih h (fun x hx => hk x (List.mem_cons_of_mem kv hx)),
        mapGet_mapSet_ne _ _ _ _ (hk kv (List.mem_cons_self kv t))]

lemma urlQueryLoop_dup {vs : Values} (res : RawParams)
    (hdup : ∃ kv ∈ vs, kv.2.length > 1) :
    ∃ k vals, (k, vals) ∈ vs ∧ vals.length > 1 ∧
      urlQueryLoop vs res = .error (str "key " ++ k ++ str " provided more than once") := by
  induction vs generalizing res with
  | nil => simp at hdup
  | cons kv t ih =>
    by_cases hl : kv.2.length > 1
    · refine ⟨kv.1, kv.2, List.mem_cons_self kv t, hl, ?_⟩
      unfold urlQueryLoop
      rw [if_pos hl]
    · obtain ⟨kv', hmem, hlen⟩ := hdup
      have hmem' : kv' ∈ t := by
        rcases List.mem_cons.mp hmem with h | h
        · exact absurd (h ▸ hlen) hl
        · exact h
      obtain ⟨k, vals, hm, hlv, herr⟩ := ih (mapSet res (goToLower kv.1) (kv.2.headD [])) ⟨kv', hmem', hlen⟩
      refine ⟨k, vals, List.mem_cons_of_mem kv hm, hlv, ?_⟩
      unfold urlQueryLoop
      rw [if_neg hl]
      exact herr

/-- **C4 (amended)** — For every URL-syntax DSN that parses with scheme
`sqlserver` and tokenizes successfully, provided no query parameter is
itself named `server` (which would overwrite the entry), the `server`
map entry is the host joined by a backslash with the **entire** URI path
minus its leading separator — later path segments are included — and
exactly the host when the path is empty. -/
theorem url_server_from_host_and_path
    (dsn : Str) (u : GoURL) (m : RawParams)
    (hparse : urlParse dsn = .ok u)
    (hscheme : u.scheme = str "sqlserver")
    (hok : splitConnectionStringURL dsn = .ok m)
    (hq : ∀ kv ∈ parseQueryValues u.rawQuery, goToLower kv.1 ≠ str "server") :
    mapGet m (str "server") =
      some (if u.path.length > 0 then
              (match splitHostPort u.host with
               | .ok hp => hp.1
               | .error _ => u.host) ++ '\\' :: u.path.drop 1
            else
              match splitHostPort u.host with
              | .ok hp => hp.1
              | .error _ => u.host) := by
  unfold splitConnectionStringURL at hok
  rw [hparse, ok_bind] at hok
  rw [if_neg (by simp [hscheme])] at hok
  dsimp only at hok
  rw [urlQueryLoop_preserves hok hq]
  have hps : str "port" ≠ str "server" := by decide
  cases hsp : splitHostPort u.host with
  | ok hp =>
    obtain ⟨h1, p1⟩ := hp
    simp only [hsp]
    by_cases hpath : u.path.length > 0 <;> by_cases hport : p1.length > 0 <;>
      simp [hpath, hport, mapGet_mapSet_self, mapGet_mapSet_ne _ _ _ _ hps]
  | error e =>
    simp only [hsp]
    by_cases hpath : u.path.length > 0 <;>
      simp [hpath, mapGet_mapSet_self, mapGet_mapSet_ne _ _ _ _ hps]

/-- A successful URL parse, used to instantiate witnesses. -/
def getOkU (e : Except Str GoURL) : GoURL :=
  match e with
  | .ok u => u
  | .error _ => emptyURL

/-- Witness for C4 (amended): the two-segment path `sqlserver://host/a/b`
yields `server = host\a/b`, and an empty path yields just the host. -/
theorem url_server_from_host_and_path_witness :
    mapGet (getOk' (splitConnectionStringURL (str "sqlserver://host/a/b"))) (str "server") =
      some (str "host\\a/b") ∧
    mapGet (getOk' (splitConnectionStringURL (str "sqlserver://host"))) (str "server") =
      some (str "host") := by
  constructor
  · have := url_server_from_host_and_path (str "sqlserver://host/a/b")
      (getOkU (urlParse (str "sqlserver://host/a/b")))
      (getOk' (splitConnectionStringURL (str "sqlserver://host/a/b")))
      rfl rfl rfl (by decide)
    rw [this]
    rfl
  · have := url_server_from_host_and_path (str "sqlserver://host")
      (getOkU (urlParse (str "sqlserver://host")))
      (getOk' (splitConnectionStringURL (str "sqlserver://host")))
      rfl rfl rfl (by decide)
    rw [this]
    rfl

/-- Counterexample for C4 as stated: with path `/a/b` the `server` entry
is `host\a/b` — the second path segment is **not** dropped, so the claim
that only the first segment forms the instance name fails. -/
theorem url_server_includes_later_segments :
    splitConnectionStringURL (str "sqlserver://host/a/b") =
      .ok [(str "server", str "host\\a/b")] ∧
    str "host\\a/b" ≠ str "host\\a" := ⟨rfl, by decide⟩

/-- **C5** — A query key occurring more than once in a URL-syntax DSN is
a hard error naming a duplicated key, regardless of the values. -/
theorem url_duplicate_query_key_error
    (dsn : Str) (u : GoURL)
    (hparse : urlParse dsn = .ok u)
    (hscheme : u.scheme = str "sqlserver")
    (hdup : ∃ kv ∈ parseQueryValues u.rawQuery, kv.2.length > 1) :
    ∃ k vals, (k, vals) ∈ parseQueryValues u.rawQuery ∧ vals.length > 1 ∧
      splitConnectionStringURL dsn =
        .error (str "key " ++ k ++ str " provided more than once") := by
  unfold splitConnectionStringURL
  rw [hparse, ok_bind]
  rw [if_neg (by simp [hscheme])]
  dsimp only
  exact urlQueryLoop_dup _ hdup

/-- Witness for C5: `sqlserver://h?a=1&a=2` (and equal values
`sqlserver://h?a=1&a=1`) are hard errors. -/
theorem url_duplicate_query_key_error_witness :
    isErr (splitConnectionStringURL (str "sqlserver://h?a=1&a=2")) = true ∧
    isErr (splitConnectionStringURL (str "sqlserver://h?a=1&a=1")) = true := by
  constructor
  · obtain ⟨k, vals, -, -, herr⟩ := url_duplicate_query_key_error
      (str "sqlserver://h?a=1&a=2") (getOkU (urlParse (str "sqlserver://h?a=1&a=2")))
      rfl rfl ⟨(str "a", [str "1", str "2"]), by decide, by decide⟩
    rw [herr]
    rfl
  · obtain ⟨k, vals, -, -, herr⟩ := url_duplicate_query_key_error
      (str "sqlserver://h?a=1&a=1") (getOkU (urlParse (str "sqlserver://h?a=1&a=1")))
      rfl rfl ⟨(str "a", [str "1", str "1"]), by decide, by decide⟩
    rw [herr]
    rfl

end ConnStr
namespace ConnStr

/-! ## Escape/unescape round-trip lemmas (for the C9 serializer claim) -/

lemma except_bind_error {ε α β : Type} (e : ε) (f : α → Except ε β) :
    ((Except.error e : Except ε α) >>= f) = .error e := rfl

lemma except_map_ok {ε α β : Type} (f : α → β) (a : α) :
    (Except.ok a : Except ε α).map f = .ok (f a) := rfl

lemma except_map_error {ε α β : Type} (f : α → β) (e : ε) :
    (Except.error e : Except ε α).map f = .error e := rfl

lemma shouldEscape_percent (mode : encoding) : shouldEscape '%' mode = true := by
  cases mode <;> decide

lemma upperHex_mem {d : Nat} (h : d < 16) : upperHex d ∈ str "0123456789ABCDEF" := by
  interval_cases d <;> decide

lemma unhex_upperHex {d : Nat} (h : d < 16) : unhex (upperHex d) = d := by
  interval_cases d <;> decide

lemma ishex_upperHex {d : Nat} (h : d < 16) : ishex (upperHex d) = true := by
  interval_cases d <;> decide

lemma escape_cons (mode : encoding) (a : Char) (t : Str) :
    escape (a :: t) mode = escapeChar mode a ++ escape t mode := by
  simp [escape]

/-- Every character of an `escape` output is a character the mode keeps
verbatim, or `%`, `+`, or an upper-case hexadecimal digit. -/
lemma mem_escape {mode : encoding} {s : Str} {c : Char} (h : c ∈ escape s mode) :
    shouldEscape c mode = false ∨ c = '%' ∨ c = '+' ∨ c ∈ str "0123456789ABCDEF" := by
  induction s with
  | nil => simp [escape] at h
  | cons a t ih =>
    rw [escape_cons] at h
    rcases List.mem_append.mp h with h | h
    · unfold escapeChar at h
      by_cases hse : shouldEscape a mode = true
      · rw [if_pos hse] at h
        by_cases hsp : a = ' ' ∧ mode = .encodeQueryComponent
        · rw [if_pos hsp] at h
          simp at h
          subst h
          exact Or.inr (Or.inr (Or.inl rfl))
        · rw [if_neg hsp] at h
          simp at h
          rcases h with rfl | rfl | rfl
          · exact Or.inr (Or.inl rfl)
          · exact Or.inr (Or.inr (Or.inr (upperHex_mem (Nat.mod_lt _ (by norm_num)))))
          · exact Or.inr (Or.inr (Or.inr (upperHex_mem (Nat.mod_lt _ (by norm_num)))))
      · rw [if_neg hse] at h
        simp at h
        subst h
        exact Or.inl (by simpa using hse)
    · exact ih h

/-- Strings no character of which needs escaping are kept verbatim. -/
lemma escape_eq_self {mode : encoding} {s : Str} (h : ∀ c ∈ s, shouldEscape c mode = false) :
    escape s mode = s := by
  induction s with
  | nil => rfl
  | cons a t ih =>
    rw [escape_cons, ih (fun c hc => h c (List.mem_cons_of_mem a hc))]
    simp [escapeChar, h a (List.mem_cons_self a t)]

lemma unescape_cons_other {mode : encoding} {a : Char} (t : Str) (h1 : a ≠ '%') (h2 : a ≠ '+') :
    unescape mode (a :: t) =
      (if (mode = .encodeHost ∨ mode = .encodeZone) ∧ a.toNat < 0x80 ∧ shouldEscape a mode then
        .error (str "invalid character in host name")
      else unescape mode t >>= fun r => .ok (a :: r)) := by
  rw [unescape]
  · exact fun h => h1 h
  · exact fun h => h2 h

lemma unescape_cons_plus (mode : encoding) (t : Str) :
    unescape mode ('+' :: t) =
      unescape mode t >>= fun r =>
        .ok ((if mode = .encodeQueryComponent then ' ' else '+') :: r) := by
  rw [unescape]

lemma unescape_cons_percent (mode : encoding) (h1 h2 : Char) (t : Str) :
    unescape mode ('%' :: h1 :: h2 :: t) =
      (if ¬ (ishex h1 ∧ ishex h2) then .error (str "invalid URL escape")
      else if mode = .encodeHost ∧ unhex h1 < 8 ∧ ¬ (h1 = '2' ∧ h2 = '5') then
        .error (str "invalid URL escape")
      else if mode = .encodeZone ∧ ¬ (h1 = '2' ∧ h2 = '5') ∧ unhex h1 * 16 + unhex h2 ≠ 32 ∧
          shouldEscape (Char.ofNat (unhex h1 * 16 + unhex h2)) .encodeHost then
        .error (str "invalid URL escape")
      else unescape mode t >>= fun r => .ok (Char.ofNat (unhex h1 * 16 + unhex h2) :: r)) := by
  rw [unescape]

/-- Unescaping an escaped string (in a non-host, non-zone mode) prepends a
decoded copy of the string; the copy is exact for byte strings (every
element's code point at most 255, the view in which the escaping layer
models Go exactly). -/
lemma unescape_escape_append {mode : encoding} (hm1 : mode ≠ .encodeHost)
    (hm2 : mode ≠ .encodeZone) (s t : Str) :
    ∃ s2, unescape mode (escape s mode ++ t) = (unescape mode t).map (fun r => s2 ++ r) ∧
      ((∀ c ∈ s, c.toNat ≤ 255) → s2 = s) := by
  induction s with
  | nil =>
    refine ⟨[], ?_, fun _ => rfl⟩
    show unescape mode t = _
    cases h : unescape mode t <;> simp [except_map_ok, except_map_error]
  | cons a s ih =>
    obtain ⟨s2, hs2, hval⟩ := ih
    rw [escape_cons, List.append_assoc]
    by_cases hse : shouldEscape a mode = true
    · by_cases hsp : a = ' ' ∧ mode = .encodeQueryComponent
      · have he : escapeChar mode a = ['+'] := by rw [escapeChar, if_pos hse, if_pos hsp]
        rw [he]
        refine ⟨' ' :: s2, ?_, ?_⟩
        · show unescape mode ('+' :: (escape s mode ++ t)) = _
          rw [unescape_cons_plus, hs2, if_pos hsp.2]
          cases h : unescape mode t <;>
            simp [except_map_ok, except_map_error, except_bind_ok, except_bind_error]
        · intro hlat
          rw [hval (fun c hc => hlat c (List.mem_cons_of_mem a hc)), hsp.1]
      · have he : escapeChar mode a =
            ['%', upperHex (a.toNat / 16 % 16), upperHex (a.toNat % 16)] := by
          rw [escapeChar, if_pos hse, if_neg hsp]
        rw [he]
        have hu1 : unhex (upperHex (a.toNat / 16 % 16)) = a.toNat / 16 % 16 :=
          unhex_upperHex (Nat.mod_lt _ (by norm_num))
        have hu2 : unhex (upperHex (a.toNat % 16)) = a.toNat % 16 :=
          unhex_upperHex (Nat.mod_lt _ (by norm_num))
        refine ⟨Char.ofNat (a.toNat / 16 % 16 * 16 + a.toNat % 16) :: s2, ?_, ?_⟩
        · show unescape mode ('%' :: _ :: _ :: (escape s mode ++ t)) = _
          have hx1 : ishex (upperHex (a.toNat / 16 % 16)) = true :=
            ishex_upperHex (Nat.mod_lt _ (by norm_num))
          have hx2 : ishex (upperHex (a.toNat % 16)) = true :=
            ishex_upperHex (Nat.mod_lt _ (by norm_num))
          rw [unescape_cons_percent, if_neg (by simp [hx1, hx2]),
            if_neg (by simp [hm1]), if_neg (by simp [hm2]), hu1, hu2, hs2]
          cases h : unescape mode t <;>
            simp [except_map_ok, except_map_error, except_bind_ok, except_bind_error]
        · intro hlat
          have ha := hlat a (List.mem_cons_self a s)
          have hdm : a.toNat / 16 % 16 * 16 + a.toNat % 16 = a.toNat := by
            have h16 : a.toNat / 16 < 16 := by omega
            omega
          rw [hdm, Char.ofNat_toNat, hval (fun c hc => hlat c (List.mem_cons_of_mem a hc))]
    · have he : escapeChar mode a = [a] := by
        rw [escapeChar, if_neg hse]
      rw [he]
      have hap : a ≠ '%' := by
        intro hx
        rw [hx, shouldEscape_percent] at hse
        exact hse rfl
      by_cases hplus : a = '+'
      · subst hplus
        have hq : mode ≠ .encodeQueryComponent := by
          intro hx
          rw [hx] at hse
          exact hse (by decide)
        refine ⟨'+' :: s2, ?_, ?_⟩
        · show unescape mode ('+' :: (escape s mode ++ t)) = _
          rw [unescape_cons_plus, hs2, if_neg hq]
          cases h : unescape mode t <;>
            simp [except_map_ok, except_map_error, except_bind_ok, except_bind_error]
        · intro hlat
          rw [hval (fun c hc => hlat c (List.mem_cons_of_mem _ hc))]
      · refine ⟨a :: s2, ?_, ?_⟩
        · show unescape mode (a :: (escape s mode ++ t)) = _
          rw [unescape_cons_other _ hap hplus, if_neg (by simp [hm1, hm2]), hs2]
          cases h : unescape mode t <;>
            simp [except_map_ok, except_map_error, except_bind_ok, except_bind_error]
        · intro hlat
          rw [hval (fun c hc => hlat c (List.mem_cons_of_mem _ hc))]

/-- Unescaping in host mode is the identity on strings of host-safe
characters. -/
lemma unescape_host_safe {s : Str}
    (h : ∀ c ∈ s, shouldEscape c .encodeHost = false) :
    unescape .encodeHost s = .ok s := by
  induction s with
  | nil => rfl
  | cons a t ih =>
    have ha := h a (List.mem_cons_self a t)
    have hih := ih (fun c hc => h c (List.mem_cons_of_mem a hc))
    have hap : a ≠ '%' := by
      intro hx
      rw [hx, shouldEscape_percent] at ha
      exact Bool.noConfusion ha
    by_cases hplus : a = '+'
    · subst hplus
      rw [unescape_cons_plus, hih]
      rfl
    · rw [unescape_cons_other _ hap hplus, if_neg (by simp [ha]), hih]
      rfl

/-- Control characters are escaped in every mode. -/
lemma shouldEscape_of_ctl {c : Char} {mode : encoding}
    (h : c.toNat < 0x20 ∨ c.toNat = 0x7f) : shouldEscape c mode = true := by
  obtain ⟨n, hn, rfl⟩ : ∃ n, (n < 32 ∨ n = 0x7f) ∧ Char.ofNat n = c :=
    ⟨c.toNat, h, Char.ofNat_toNat c⟩
  rcases hn with hn | rfl
  · interval_cases n <;> cases mode <;> decide
  · cases mode <;> decide

/-- Characters surviving user-password escaping are valid userinfo bytes. -/
lemma validUserinfoChar_of_not_escape {c : Char}
    (h : shouldEscape c .encodeUserPassword = false) :
    (('A' ≤ c ∧ c ≤ 'Z') ∨ ('a' ≤ c ∧ c ≤ 'z') ∨ ('0' ≤ c ∧ c ≤ '9') ∨
      c ∈ str "-._:~!$&'()*+,;=%@") := by
  unfold shouldEscape at h
  split_ifs at h with h1 h2 h3 h4 h5
  · rcases h1 with h1 | h1 | h1
    · exact Or.inr (Or.inl h1)
    · exact Or.inl h1
    · exact Or.inr (Or.inr (Or.inl h1))
  · exact absurd h2.1 (by decide)
  · rcases h3 with rfl | rfl | rfl | rfl <;> decide
  · rcases h4 with rfl | rfl | rfl | rfl | rfl | rfl | rfl | rfl | rfl | rfl <;>
      first | decide | exact absurd h (by decide)
  · exact absurd h5.1 (by decide)

end ConnStr
namespace ConnStr

/-! ## Splitting lemmas -/

lemma splitAtFirst_not_mem {c : Char} {s : Str} (h : c ∉ s) : splitAtFirst c s = none := by
  induction s with
  | nil => rfl
  | cons a t ih =>
    have hne : ¬ (a = c) := fun hx => h (by rw [← hx]; exact List.mem_cons_self a t)
    rw [splitAtFirst, if_neg hne, ih (fun hx => h (List.mem_cons_of_mem a hx))]
    rfl

lemma splitAtFirst_append {c : Char} {x : Str} (h : c ∉ x) (y : Str) :
    splitAtFirst c (x ++ c :: y) = some (x, y) := by
  induction x with
  | nil => simp [splitAtFirst]
  | cons a t ih =>
    have hne : ¬ (a = c) := fun hx => h (by rw [← hx]; exact List.mem_cons_self a t)
    rw [List.cons_append, splitAtFirst, if_neg hne,
      ih (fun hx => h (List.mem_cons_of_mem a hx))]
    rfl

lemma splitAtLast_not_mem {c : Char} {s : Str} (h : c ∉ s) : splitAtLast c s = none := by
  unfold splitAtLast
  rw [splitAtFirst_not_mem (by simpa using h)]

lemma splitAtLast_append {c : Char} (x : Str) {y : Str} (h : c ∉ y) :
    splitAtLast c (x ++ c :: y) = some (x, y) := by
  unfold splitAtLast
  rw [show (x ++ c :: y).reverse = y.reverse ++ c :: x.reverse from by simp,
    splitAtFirst_append (by simpa using h)]
  simp

lemma goHasSuffix_false_of_not_mem {c : Char} {s : Str} (h : c ∉ s) :
    goHasSuffix [c] s = false := by
  cases hx : goHasSuffix [c] s with
  | false => rfl
  | true =>
    obtain ⟨t, ht⟩ := List.isSuffixOf_iff_suffix.mp hx
    exact absurd (ht ▸ List.mem_append_right t (List.mem_cons_self c [])) h

lemma goHasSuffix_false_of_last {c : Char} {A E : Str} (hE : E ≠ []) (hmem : c ∉ E) :
    goHasSuffix [c] (A ++ c :: E) = false := by
  cases hx : goHasSuffix [c] (A ++ c :: E) with
  | false => rfl
  | true =>
    obtain ⟨t, ht⟩ := List.isSuffixOf_iff_suffix.mp hx
    have h1 : (A ++ c :: E).getLast? = some c := by
      rw [← ht]
      exact List.getLast?_concat t
    have h2 : (A ++ c :: E).getLast? = E.getLast? := by
      rw [show A ++ c :: E = (A ++ [c]) ++ E from by simp]
      exact List.getLast?_append_of_ne_nil _ hE
    rw [h2] at h1
    obtain ⟨hne, heq⟩ := List.mem_getLast?_eq_getLast (show c ∈ E.getLast? from by rw [h1]; rfl)
    exact absurd (heq ▸ List.getLast_mem hne) hmem

/-! ## Formatting and re-parsing decimal numbers -/

lemma digitVal_digit {n : Nat} (h : n < 10) :
    digitVal (Char.ofNat ('0'.toNat + n)) = some n := by
  interval_cases n <;> decide

lemma digit_bounds {n : Nat} (h : n < 10) :
    '0' ≤ Char.ofNat ('0'.toNat + n) ∧ Char.ofNat ('0'.toNat + n) ≤ '9' := by
  interval_cases n <;> decide

lemma digit_ne_underscore {n : Nat} (h : n < 10) : Char.ofNat ('0'.toNat + n) ≠ '_' := by
  interval_cases n <;> decide

lemma natToStrAux_ne_nil {f n : Nat} (h : n < f) : natToStrAux f n ≠ [] := by
  cases f with
  | zero => omega
  | succ f =>
    rw [natToStrAux]
    by_cases h10 : n < 10
    · simp [h10]
    · simp [h10]

lemma natToStrAux_digits : ∀ f n, n < f → ∀ c ∈ natToStrAux f n, '0' ≤ c ∧ c ≤ '9' := by
  intro f
  induction f using Nat.strong_induction_on with
  | _ f ih =>
    intro n hn c hc
    cases f with
    | zero => omega
    | succ f =>
      rw [natToStrAux] at hc
      by_cases h10 : n < 10
      · rw [if_pos h10] at hc
        simp at hc
        subst hc
        exact digit_bounds h10
      · rw [if_neg h10] at hc
        rcases List.mem_append.mp hc with hc | hc
        · exact ih n hn (n / 10) (Nat.div_lt_self (by omega) (by omega)) c hc
        · simp at hc
          subst hc
          exact digit_bounds (Nat.mod_lt _ (by omega))

lemma natToStr_digits {n : Nat} : ∀ c ∈ natToStr n, '0' ≤ c ∧ c ≤ '9' :=
  natToStrAux_digits (n + 1) n (Nat.lt_succ_self n)

lemma natToStr_ne_nil (n : Nat) : natToStr n ≠ [] :=
  natToStrAux_ne_nil (Nat.lt_succ_self n)

lemma parseUintLoop_natToStrAux {maxVal : Nat} (hmax : maxVal ≤ maxUint64) (b0 : Bool) :
    ∀ f n acc rest, n < f → acc * 10 ^ (natToStrAux f n).length + n ≤ maxVal →
      parseUintLoop 10 maxVal b0 (natToStrAux f n ++ rest) acc =
        parseUintLoop 10 maxVal b0 rest (acc * 10 ^ (natToStrAux f n).length + n) := by
  have hmu : maxUint64 = 2 ^ 64 - 1 := rfl
  intro f
  induction f using Nat.strong_induction_on with
  | _ f ih =>
    intro n acc rest hn hbound
    have hmu2 : maxUint64 = 18446744073709551615 := by norm_num [maxUint64]
    cases f with
    | zero => omega
    | succ f =>
      by_cases h10 : n < 10
      · have hform : natToStrAux (f + 1) n = [Char.ofNat ('0'.toNat + n)] := by
          rw [natToStrAux, if_pos h10]
        rw [hform] at hbound ⊢
        simp only [List.length_cons, List.length_nil, Nat.zero_add, pow_one] at hbound ⊢
        rw [List.singleton_append, parseUintLoop,
          if_neg (show ¬ (Char.ofNat ('0'.toNat + n) = '_' ∧ b0 = true) from
            fun hx => digit_ne_underscore h10 hx.1)]
        simp only [digitVal_digit h10]
        rw [if_neg (by omega),
          if_neg (by rw [hmu2] at hmax ⊢; omega),
          if_neg (by omega)]
      · have hform : natToStrAux (f + 1) n =
            natToStrAux n (n / 10) ++ [Char.ofNat ('0'.toNat + n % 10)] := by
          rw [natToStrAux, if_neg h10]
        rw [hform] at hbound ⊢
        have hlen : (natToStrAux n (n / 10) ++ [Char.ofNat ('0'.toNat + n % 10)]).length =
            (natToStrAux n (n / 10)).length + 1 := by simp
        rw [hlen] at hbound ⊢
        have hpow : 10 ^ ((natToStrAux n (n / 10)).length + 1) =
            10 ^ (natToStrAux n (n / 10)).length * 10 := pow_succ 10 _
        rw [hpow] at hbound ⊢
        have hmod : n % 10 < 10 := Nat.mod_lt _ (by omega)
        rw [← mul_assoc] at hbound ⊢
        rw [List.append_assoc]
        have hdivlt : n / 10 < n := Nat.div_lt_self (by omega) (by omega)
        have hbound' : acc * 10 ^ (natToStrAux n (n / 10)).length + n / 10 ≤ maxVal := by
          omega
        rw [ih n hn (n / 10) acc _ hdivlt hbound']
        rw [List.singleton_append, parseUintLoop,
          if_neg (show ¬ (Char.ofNat ('0'.toNat + n % 10) = '_' ∧ b0 = true) from
            fun hx => digit_ne_underscore hmod hx.1)]
        simp only [digitVal_digit hmod]
        rw [if_neg (by omega),
          if_neg (by rw [hmu2] at hmax ⊢; omega),
          if_neg (by omega)]
        congr 1
        omega

lemma parseUint_natToStr {n : Nat} (h : n ≤ maxUint64) :
    parseUint (natToStr n) 10 64 = .ok n := by
  have hloop : parseUintLoop 10 (2 ^ 64 - 1) false (natToStr n) 0 = .ok n := by
    have h2 : natToStr n ++ [] = natToStr n := List.append_nil _
    calc parseUintLoop 10 (2 ^ 64 - 1) false (natToStr n) 0
        = parseUintLoop 10 maxUint64 false (natToStr n ++ []) 0 := by rw [h2]; rfl
      _ = parseUintLoop 10 maxUint64 false []
            (0 * 10 ^ (natToStrAux (n + 1) n).length + n) :=
          parseUintLoop_natToStrAux (le_refl _) false (n + 1) n 0 []
            (Nat.lt_succ_self n) (by simpa using h)
      _ = .ok n := by simp [parseUintLoop]
  unfold parseUint
  rw [if_neg (natToStr_ne_nil n)]
  have hpre1 : (parseUintPrefix 10 (natToStr n)).1 = 10 := rfl
  have hpre2 : (parseUintPrefix 10 (natToStr n)).2 = natToStr n := rfl
  rw [hpre1, hpre2, show (decide ((10:Nat) = 0)) = false from rfl, hloop, parseUintFinish]
  simp

/-! ## Splitting an encoded query on ampersands -/

lemma goSplitAux_append_no_sep {c : Char} {x : Str} (h : c ∉ x) :
    ∀ s acc, goSplitAux c (x ++ s) acc = goSplitAux c s (x.reverse ++ acc) := by
  induction x with
  | nil => intro s acc; simp
  | cons a t ih =>
    intro s acc
    have hne : ¬ (a = c) := fun hx => h (by rw [← hx]; exact List.mem_cons_self a t)
    rw [List.cons_append, goSplitAux, if_neg hne]
    rw [ih (fun hx => h (List.mem_cons_of_mem a hx)) s (a :: acc)]
    congr 1
    simp

lemma goSplit_joinAmp : ∀ l : List Str, l ≠ [] → (∀ x ∈ l, '&' ∉ x) →
    goSplit '&' (joinAmp l) = l := by
  intro l
  induction l with
  | nil => intro h _; exact absurd rfl h
  | cons x t ih =>
    intro _ hmem
    cases t with
    | nil =>
      show goSplitAux '&' x [] = [x]
      calc goSplitAux '&' x []
          = goSplitAux '&' (x ++ []) [] := by rw [List.append_nil]
        _ = goSplitAux '&' [] (x.reverse ++ []) :=
            goSplitAux_append_no_sep (hmem x (List.mem_cons_self x [])) [] []
        _ = [x] := by simp [goSplitAux]
    | cons y u =>
      show goSplitAux '&' (x ++ '&' :: joinAmp (y :: u)) [] = x :: y :: u
      rw [goSplitAux_append_no_sep (hmem x (List.mem_cons_self x _)) _ []]
      rw [goSplitAux, if_pos rfl]
      have hih := ih (by simp) (fun z hz => hmem z (List.mem_cons_of_mem x hz))
      rw [show goSplitAux '&' (joinAmp (y :: u)) [] = goSplit '&' (joinAmp (y :: u)) from rfl,
        hih]
      simp

end ConnStr
namespace ConnStr

/-! ## Structure of the serialized URL string -/

lemma not_mem_escape {mode : encoding} {c : Char} (h1 : shouldEscape c mode = true)
    (h2 : c ≠ '%') (h3 : c ≠ '+') (h4 : c ∉ str "0123456789ABCDEF") (s : Str) :
    c ∉ escape s mode := by
  intro hmem
  rcases mem_escape hmem with h | h | h | h
  · rw [h1] at h
    exact Bool.noConfusion h
  · exact h2 h
  · exact h3 h
  · exact h4 h

lemma mem_joinAmp {c : Char} : ∀ {l : List Str}, c ∈ joinAmp l → c = '&' ∨ ∃ x ∈ l, c ∈ x := by
  intro l
  induction l with
  | nil => intro h; exact absurd h (List.not_mem_nil c)
  | cons x t ih =>
    intro h
    cases t with
    | nil => exact Or.inr ⟨x, List.mem_cons_self x [], h⟩
    | cons y u =>
      rcases List.mem_append.mp h with h | h
      · exact Or.inr ⟨x, List.mem_cons_self x _, h⟩
      · rcases List.mem_cons.mp h with rfl | h
        · exact Or.inl rfl
        · rcases ih h with h | ⟨z, hz, hc⟩
          · exact Or.inl h
          · exact Or.inr ⟨z, List.mem_cons_of_mem x hz, hc⟩

/-- Characters of an encoded query: separators or query-escape output. -/
lemma mem_valuesEncode {q : Values} {c : Char} (h : c ∈ valuesEncode q) :
    c = '&' ∨ c = '=' ∨ shouldEscape c .encodeQueryComponent = false ∨ c = '%' ∨ c = '+' ∨
      c ∈ str "0123456789ABCDEF" := by
  unfold valuesEncode at h
  by_cases hq : q = []
  · rw [if_pos hq] at h
    exact absurd h (List.not_mem_nil c)
  · rw [if_neg hq] at h
    rcases mem_joinAmp h with rfl | ⟨x, hx, hc⟩
    · exact Or.inl rfl
    · rw [List.mem_map] at hx
      obtain ⟨k, -, rfl⟩ := hx
      rcases mem_joinAmp hc with rfl | ⟨y, hy, hcy⟩
      · exact Or.inl rfl
      · rw [List.mem_map] at hy
        obtain ⟨v, -, rfl⟩ := hy
        rcases List.mem_append.mp hcy with hc2 | hc2
        · rcases mem_escape hc2 with hz | hz | hz | hz
          · exact Or.inr (Or.inr (Or.inl hz))
          · exact Or.inr (Or.inr (Or.inr (Or.inl hz)))
          · exact Or.inr (Or.inr (Or.inr (Or.inr (Or.inl hz))))
          · exact Or.inr (Or.inr (Or.inr (Or.inr (Or.inr hz))))
        · rcases List.mem_cons.mp hc2 with rfl | hc3
          · exact Or.inr (Or.inl rfl)
          · rcases mem_escape hc3 with hz | hz | hz | hz
            · exact Or.inr (Or.inr (Or.inl hz))
            · exact Or.inr (Or.inr (Or.inr (Or.inl hz)))
            · exact Or.inr (Or.inr (Or.inr (Or.inr (Or.inl hz))))
            · exact Or.inr (Or.inr (Or.inr (Or.inr (Or.inr hz))))

lemma getScheme_sqlserver (t : Str) :
    getScheme (str "sqlserver:" ++ t) = .ok (str "sqlserver", t) := rfl

lemma hasPrefix_odbc (X : Str) : goHasPrefix (str "odbc:") (str "sqlserver://" ++ X) = false := rfl

lemma hasPrefix_sqlserver (X : Str) :
    goHasPrefix (str "sqlserver://") (str "sqlserver://" ++ X) = true := by
  rw [goHasPrefix]
  exact List.isPrefixOf_iff_prefix.mpr (List.prefix_append _ X)

lemma hasPrefix_slash (Y : Str) : goHasPrefix (str "/") (str "//" ++ Y) = true := rfl

lemma hasPrefix_dslash (Y : Str) : goHasPrefix (str "//") (str "//" ++ Y) = true := by
  rw [goHasPrefix]
  exact List.isPrefixOf_iff_prefix.mpr (List.prefix_append _ Y)

lemma drop2_dslash (Y : Str) : (str "//" ++ Y).drop 2 = Y := rfl

lemma assoc_sqlserver (X : Str) :
    str "sqlserver://" ++ X = str "sqlserver:" ++ (str "//" ++ X) := rfl

/-- The canonical serializer's output, laid out as the scheme, the
userinfo, the host, the path part and the query part. -/
lemma urlString_toUrl (p : connectParams) :
    urlString (toUrl p) =
      str "sqlserver://" ++ (escape p.user .encodeUserPassword ++
        ':' :: (escape p.password .encodeUserPassword ++
        '@' :: (escape p.host .encodeHost ++
        (((if escapedPath (toUrl p) ≠ [] ∧ (escapedPath (toUrl p)).headD ' ' ≠ '/' ∧
            p.host ≠ [] then ['/'] else []) ++ escapedPath (toUrl p)) ++
        (if (toUrl p).rawQuery ≠ [] then '?' :: (toUrl p).rawQuery else []))))) := by
  have h1 : (toUrl p).scheme = str "sqlserver" := rfl
  have h2 : (toUrl p).opaque_ = [] := rfl
  have h3 : (toUrl p).user = some (p.user, some p.password) := rfl
  have h4 : (toUrl p).host = p.host := rfl
  have h5 : (toUrl p).forceQuery = false := rfl
  have h6 : (toUrl p).fragment = [] := rfl
  conv_lhs => rw [urlString]
  rw [h1, h2, h3, h4, h5, h6]
  rw [if_pos (show str "sqlserver" ≠ [] from by decide),
    if_neg (show ¬ (([] : Str) ≠ []) from by simp),
    if_pos (Or.inl (show str "sqlserver" ≠ [] from by decide)),
    if_pos (Or.inr (Or.inr (show (some (p.user, some p.password)).isSome = true from rfl)))]
  simp only [userinfoString, List.append_assoc, List.cons_append, List.nil_append,
    List.singleton_append, Bool.false_eq_true, false_or, ne_eq,
    not_true_eq_false, if_false, List.append_nil]
  rfl

end ConnStr
namespace ConnStr

lemma unescape_escape {mode : encoding} (hm1 : mode ≠ .encodeHost) (hm2 : mode ≠ .encodeZone)
    (s : Str) :
    ∃ s2, unescape mode (escape s mode) = .ok s2 ∧ ((∀ c ∈ s, c.toNat ≤ 255) → s2 = s) := by
  obtain ⟨s2, h1, h2⟩ := unescape_escape_append hm1 hm2 s []
  rw [List.append_nil] at h1
  refine ⟨s2, ?_, h2⟩
  rw [h1, show unescape mode [] = .ok ([] : Str) from rfl, except_map_ok, List.append_nil]

lemma mem_escapedPath_classify {u : GoURL} {c : Char} (h : c ∈ escapedPath u) :
    c = '*' ∨ shouldEscape c .encodePath = false ∨ c = '%' ∨ c = '+' ∨
      c ∈ str "0123456789ABCDEF" := by
  unfold escapedPath at h
  split at h
  · left
    have : c ∈ ['*'] := h
    simpa using this
  · rcases mem_escape h with hz | hz | hz | hz
    · exact Or.inr (Or.inl hz)
    · exact Or.inr (Or.inr (Or.inl hz))
    · exact Or.inr (Or.inr (Or.inr (Or.inl hz)))
    · exact Or.inr (Or.inr (Or.inr (Or.inr hz)))

lemma not_mem_escapedPath {c : Char} (h1 : shouldEscape c .encodePath = true)
    (h0 : c ≠ '*') (h2 : c ≠ '%') (h3 : c ≠ '+') (h4 : c ∉ str "0123456789ABCDEF")
    (u : GoURL) : c ∉ escapedPath u := by
  intro hm
  rcases mem_escapedPath_classify hm with h | h | h | h | h
  · exact h0 h
  · rw [h1] at h
    exact Bool.noConfusion h
  · exact h2 h
  · exact h3 h
  · exact h4 h

lemma host_safe_not_mem {H : Str}
    (hh : ∀ c ∈ H, shouldEscape c .encodeHost = false ∧ c ≠ ':' ∧ c ≠ '[' ∧ c ≠ ']')
    {c : Char} (hc : shouldEscape c .encodeHost = true) : c ∉ H :=
  fun hm => by rw [(hh c hm).1] at hc; exact Bool.noConfusion hc

lemma not_ctl_of_not_escape {c : Char} {mode : encoding} (h : shouldEscape c mode = false) :
    ¬ (c.toNat < 0x20 ∨ c.toNat = 0x7f) :=
  fun hc => by rw [shouldEscape_of_ctl hc] at h; exact Bool.noConfusion h

lemma ite_valuesEncode_cases (v : Values) :
    (if v.length > 0 then valuesEncode v else []) = [] ∨
      ∃ q : Values, (if v.length > 0 then valuesEncode v else []) = valuesEncode q := by
  split
  · exact Or.inr ⟨v, rfl⟩
  · exact Or.inl rfl

lemma rawQuery_toUrl_cases (p : connectParams) :
    (toUrl p).rawQuery = [] ∨ ∃ q : Values, (toUrl p).rawQuery = valuesEncode q :=
  ite_valuesEncode_cases _

lemma mem_rawQuery_classify {p : connectParams} {c : Char} (h : c ∈ (toUrl p).rawQuery) :
    c = '&' ∨ c = '=' ∨ shouldEscape c .encodeQueryComponent = false ∨ c = '%' ∨ c = '+' ∨
      c ∈ str "0123456789ABCDEF" := by
  rcases rawQuery_toUrl_cases p with hq | ⟨q, hq⟩ <;> rw [hq] at h
  · exact absurd h (List.not_mem_nil c)
  · exact mem_valuesEncode h

lemma mem_if_slash {c : Char} {b : Prop} [Decidable b] (h : c ∈ (if b then ['/'] else [])) :
    c = '/' := by
  split at h
  · simpa using h
  · exact absurd h (List.not_mem_nil c)

lemma hasPrefix_bracket_false {H : Str}
    (hh : ∀ c ∈ H, shouldEscape c .encodeHost = false ∧ c ≠ ':' ∧ c ≠ '[' ∧ c ≠ ']') :
    goHasPrefix (str "[") H = false := by
  cases H with
  | nil => rfl
  | cons a t =>
    have ha : a ≠ '[' := (hh a (List.mem_cons_self a t)).2.2.1
    simp [goHasPrefix, List.isPrefixOf]
    exact fun h => ha h.symm

end ConnStr
namespace ConnStr

lemma not_mem_rawQuery {p : connectParams} {c : Char}
    (h1 : c ≠ '&') (h2 : c ≠ '=') (h3 : shouldEscape c .encodeQueryComponent = true)
    (h4 : c ≠ '%') (h5 : c ≠ '+') (h6 : c ∉ str "0123456789ABCDEF") :
    c ∉ (toUrl p).rawQuery := by
  intro hm
  rcases mem_rawQuery_classify hm with h | h | h | h | h | h
  · exact h1 h
  · exact h2 h
  · rw [h3] at h
    exact Bool.noConfusion h
  · exact h4 h
  · exact h5 h
  · exact h6 h

lemma not_mem_ite_cons {c q : Char} {RQ : Str} {b : Prop} [Decidable b]
    (h1 : c ≠ q) (h2 : c ∉ RQ) : c ∉ (if b then q :: RQ else []) := by
  split
  · intro hm
    rcases List.mem_cons.mp hm with h | h
    · exact h1 h
    · exact h2 h
  · exact List.not_mem_nil c

lemma not_ctl_hex {c : Char} (h : c ∈ str "0123456789ABCDEF") :
    ¬ (c.toNat < 0x20 ∨ c.toNat = 0x7f) := by
  rw [show str "0123456789ABCDEF" =
    (['0', '1', '2', '3', '4', '5'] ++ (['6', '7', '8', '9', 'A'] ++
      ['B', 'C', 'D', 'E', 'F']) : Str) from rfl] at h
  simp only [List.mem_append, List.mem_cons, List.not_mem_nil, or_false] at h
  rcases h with (rfl | rfl | rfl | rfl | rfl | rfl) |
    ((rfl | rfl | rfl | rfl | rfl) | (rfl | rfl | rfl | rfl | rfl)) <;> decide

lemma not_ctl_of_mem_escape {mode : encoding} {s : Str} {c : Char} (h : c ∈ escape s mode) :
    ¬ (c.toNat < 0x20 ∨ c.toNat = 0x7f) := by
  rcases mem_escape h with h | rfl | rfl | h
  · exact not_ctl_of_not_escape h
  · decide
  · decide
  · exact not_ctl_hex h

lemma not_ctl_of_mem_escapedPath {u : GoURL} {c : Char} (h : c ∈ escapedPath u) :
    ¬ (c.toNat < 0x20 ∨ c.toNat = 0x7f) := by
  rcases mem_escapedPath_classify h with rfl | h | rfl | rfl | h
  · decide
  · exact not_ctl_of_not_escape h
  · decide
  · decide
  · exact not_ctl_hex h

lemma not_ctl_of_mem_rawQuery {p : connectParams} {c : Char} (h : c ∈ (toUrl p).rawQuery) :
    ¬ (c.toNat < 0x20 ∨ c.toNat = 0x7f) := by
  rcases mem_rawQuery_classify h with rfl | rfl | h | rfl | rfl | h
  · decide
  · decide
  · exact not_ctl_of_not_escape h
  · decide
  · decide
  · exact not_ctl_hex h

lemma validUserinfo_escape_char {s : Str} {r : Char} (h : r ∈ escape s .encodeUserPassword) :
    ('A' ≤ r ∧ r ≤ 'Z') ∨ ('a' ≤ r ∧ r ≤ 'z') ∨ ('0' ≤ r ∧ r ≤ '9') ∨
      r ∈ str "-._:~!$&'()*+,;=%@" := by
  rcases mem_escape h with h | rfl | rfl | h
  · exact validUserinfoChar_of_not_escape h
  · decide
  · decide
  · rw [show str "0123456789ABCDEF" =
      (['0', '1', '2', '3', '4', '5'] ++ (['6', '7', '8', '9', 'A'] ++
        ['B', 'C', 'D', 'E', 'F']) : Str) from rfl] at h
    simp only [List.mem_append, List.mem_cons, List.not_mem_nil, or_false] at h
    rcases h with (rfl | rfl | rfl | rfl | rfl | rfl) |
      ((rfl | rfl | rfl | rfl | rfl) | (rfl | rfl | rfl | rfl | rfl)) <;> decide

lemma urlParse_toUrl {p : connectParams}
    (hhost : ∀ c ∈ p.host, shouldEscape c .encodeHost = false ∧ c ≠ ':' ∧ c ≠ '[' ∧ c ≠ ']')
    (hne : p.host ≠ []) :
    ∃ U2 P2 PV,
      urlParse (urlString (toUrl p)) =
        .ok { scheme := str "sqlserver", opaque_ := [], user := some (U2, some P2),
              host := p.host, path := PV, rawQuery := (toUrl p).rawQuery,
              forceQuery := false, fragment := [] } := by
  rw [urlString_toUrl p,
    show escape p.host .encodeHost = p.host from escape_eq_self (fun c hc => (hhost c hc).1)]
  set UE := escape p.user .encodeUserPassword with hUE
  set PE := escape p.password .encodeUserPassword with hPE
  set EP := escapedPath (toUrl p) with hEP
  set RQ := (toUrl p).rawQuery with hRQdef
  set SL := (if EP ≠ [] ∧ EP.headD ' ' ≠ '/' ∧ p.host ≠ [] then ['/'] else ([] : Str)) with hSL
  set QS := (if RQ ≠ [] then '?' :: RQ else ([] : Str)) with hQS
  -- character facts
  have hhostq : '?' ∉ p.host := host_safe_not_mem hhost (by decide)
  have hhostsl : '/' ∉ p.host := host_safe_not_mem hhost (by decide)
  have hhostat : '@' ∉ p.host := host_safe_not_mem hhost (by decide)
  have hUEq : '?' ∉ UE := not_mem_escape (by decide) (by decide) (by decide) (by decide) _
  have hPEq : '?' ∉ PE := not_mem_escape (by decide) (by decide) (by decide) (by decide) _
  have hUEsl : '/' ∉ UE := not_mem_escape (by decide) (by decide) (by decide) (by decide) _
  have hPEsl : '/' ∉ PE := not_mem_escape (by decide) (by decide) (by decide) (by decide) _
  have hUEcol : ':' ∉ UE := not_mem_escape (by decide) (by decide) (by decide) (by decide) _
  have hEPq : '?' ∉ EP :=
    not_mem_escapedPath (by decide) (by decide) (by decide) (by decide) (by decide) _
  have hRQq : '?' ∉ RQ :=
    not_mem_rawQuery (by decide) (by decide) (by decide) (by decide) (by decide) (by decide)
  have hSLmem : ∀ c, c ∈ SL → c = '/' := fun c hc => mem_if_slash (hSL ▸ hc)
  have hW : '?' ∉ str "//" ++ (UE ++ ':' :: (PE ++ '@' :: (p.host ++ (SL ++ EP)))) := by
    intro hm
    simp only [List.mem_append, List.mem_cons] at hm
    rcases hm with hm | hm | hm | hm | hm | hm | hm | hm
    · exact absurd hm (by decide)
    · exact hUEq hm
    · exact absurd hm (by decide)
    · exact hPEq hm
    · exact absurd hm (by decide)
    · exact hhostq hm
    · exact absurd (hSLmem _ hm) (by decide)
    · exact hEPq hm
  have hRQsharp : '#' ∉ RQ :=
    not_mem_rawQuery (by decide) (by decide) (by decide) (by decide) (by decide) (by decide)
  have hsharp : '#' ∉ str "sqlserver://" ++ (UE ++ ':' :: (PE ++ '@' :: (p.host ++ (SL ++ EP ++ QS)))) := by
    intro hm
    simp only [List.mem_append, List.mem_cons] at hm
    rcases hm with hm | hm | hm | hm | hm | hm | (hm | hm) | hm
    · exact absurd hm (by decide)
    · exact not_mem_escape (by decide) (by decide) (by decide) (by decide) _ hm
    · exact absurd hm (by decide)
    · exact not_mem_escape (by decide) (by decide) (by decide) (by decide) _ hm
    · exact absurd hm (by decide)
    · exact host_safe_not_mem hhost (by decide) hm
    · exact absurd (hSLmem _ hm) (by decide)
    · exact not_mem_escapedPath (by decide) (by decide) (by decide) (by decide) (by decide) _ hm
    · exact not_mem_ite_cons (by decide) hRQsharp (hQS ▸ hm)
  have hctl : containsCTL (str "sqlserver://" ++
      (UE ++ ':' :: (PE ++ '@' :: (p.host ++ (SL ++ EP ++ QS))))) = false := by
    rw [containsCTL]
    simp only [List.any_eq_false, decide_eq_true_eq]
    intro c hc
    simp only [List.mem_append, List.mem_cons] at hc
    rcases hc with hc | hc | rfl | hc | rfl | hc | (hc | hc) | hc
    · exact (by decide : ∀ x ∈ str "sqlserver://", ¬ (x.toNat < 0x20 ∨ x.toNat = 0x7f)) c hc
    · exact not_ctl_of_mem_escape hc
    · decide
    · exact not_ctl_of_mem_escape hc
    · decide
    · exact not_ctl_of_not_escape (hhost c hc).1
    · rw [hSLmem c hc]
      decide
    · exact not_ctl_of_mem_escapedPath hc
    · rw [hQS] at hc
      split at hc
      · rcases List.mem_cons.mp hc with rfl | hc3
        · decide
        · exact not_ctl_of_mem_rawQuery hc3
      · exact absurd hc (List.not_mem_nil c)
  have hstar : str "sqlserver://" ++ (UE ++ ':' :: (PE ++ '@' :: (p.host ++ (SL ++ EP ++ QS)))) ≠
      str "*" := by
    rw [show str "sqlserver://" = 's' :: str "qlserver://" from rfl, List.cons_append]
    intro h
    rw [show str "*" = '*' :: [] from rfl] at h
    injection h with h1 h2
    exact absurd h1 (by decide)
  obtain ⟨U2, hU2, -⟩ := @unescape_escape .encodeUserPassword (by decide) (by decide) p.user
  obtain ⟨P2, hP2, -⟩ :=
    @unescape_escape .encodeUserPassword (by decide) (by decide) p.password
  have hAUTHsl : '/' ∉ UE ++ ':' :: (PE ++ '@' :: p.host) := by
    intro hm
    simp only [List.mem_append, List.mem_cons] at hm
    rcases hm with hm | hm | hm | hm | hm
    · exact hUEsl hm
    · exact absurd hm (by decide)
    · exact hPEsl hm
    · exact absurd hm (by decide)
    · exact hhostsl hm
  have hPP : SL ++ EP = [] ∨ ∃ T, SL ++ EP = '/' :: T := by
    by_cases hc : EP ≠ [] ∧ EP.headD ' ' ≠ '/' ∧ p.host ≠ []
    · exact Or.inr ⟨EP, by rw [hSL, if_pos hc]; rfl⟩
    · have hSLnil : SL = [] := by rw [hSL, if_neg hc]
      rw [hSLnil, List.nil_append]
      cases hEPc : EP with
      | nil => exact Or.inl rfl
      | cons e t =>
        right
        refine ⟨t, ?_⟩
        have he : e = '/' := by
          by_contra hee
          exact hc ⟨by rw [hEPc]; simp, by rw [hEPc]; simpa using hee, hne⟩
        rw [he]
  have htrip : (if goHasSuffix (str "?") (str "//" ++
        (UE ++ ':' :: (PE ++ '@' :: (p.host ++ (SL ++ EP ++ QS))))) = true ∧
        ¬ containsChar '?' (List.dropLast (str "//" ++
          (UE ++ ':' :: (PE ++ '@' :: (p.host ++ (SL ++ EP ++ QS)))))) = true then
      (List.dropLast (str "//" ++ (UE ++ ':' :: (PE ++ '@' :: (p.host ++ (SL ++ EP ++ QS))))),
        ([] : Str), true)
    else
      match splitAtFirst '?' (str "//" ++
          (UE ++ ':' :: (PE ++ '@' :: (p.host ++ (SL ++ EP ++ QS))))) with
      | some (a, b) => (a, b, false)
      | none => (str "//" ++ (UE ++ ':' :: (PE ++ '@' :: (p.host ++ (SL ++ EP ++ QS)))),
          ([] : Str), false)) =
      (str "//" ++ (UE ++ ':' :: (PE ++ '@' :: (p.host ++ (SL ++ EP)))), RQ, false) := by
    by_cases hRQ : RQ = []
    · have hQSnil : QS = [] := by rw [hQS, if_neg (fun hx => hx hRQ)]
      rw [hQSnil]
      simp only [List.append_nil]
      have hsufW : goHasSuffix (str "?") (str "//" ++
          (UE ++ ':' :: (PE ++ '@' :: (p.host ++ (SL ++ EP))))) = false :=
        goHasSuffix_false_of_not_mem hW
      rw [if_neg (fun hx => by rw [hsufW] at hx; exact Bool.noConfusion hx.1),
        splitAtFirst_not_mem hW]
      rw [hRQ]
    · have hQScons : QS = '?' :: RQ := by rw [hQS, if_pos hRQ]
      rw [hQScons]
      rw [show str "//" ++ (UE ++ ':' :: (PE ++ '@' :: (p.host ++ (SL ++ EP ++ '?' :: RQ)))) =
          (str "//" ++ (UE ++ ':' :: (PE ++ '@' :: (p.host ++ (SL ++ EP))))) ++ '?' :: RQ from
        by simp [List.append_assoc]]
      have hsufW : goHasSuffix (str "?") ((str "//" ++
          (UE ++ ':' :: (PE ++ '@' :: (p.host ++ (SL ++ EP))))) ++ '?' :: RQ) = false :=
        goHasSuffix_false_of_last hRQ hRQq
      rw [if_neg (fun hx => by rw [hsufW] at hx; exact Bool.noConfusion hx.1),
        splitAtFirst_append hW RQ]
  have hauth : (match splitAtFirst '/' (UE ++ ':' :: (PE ++ '@' :: (p.host ++ (SL ++ EP)))) with
      | some (a, b) => (a, '/' :: b)
      | none => (UE ++ ':' :: (PE ++ '@' :: (p.host ++ (SL ++ EP))), ([] : Str))) =
      (UE ++ ':' :: (PE ++ '@' :: p.host), SL ++ EP) := by
    rw [show UE ++ ':' :: (PE ++ '@' :: (p.host ++ (SL ++ EP))) =
        (UE ++ ':' :: (PE ++ '@' :: p.host)) ++ (SL ++ EP) from by simp [List.append_assoc]]
    rcases hPP with hPP | ⟨T, hPP⟩
    · rw [hPP, List.append_nil, splitAtFirst_not_mem hAUTHsl]
    · rw [hPP, splitAtFirst_append hAUTHsl T]
  have hvalid : validUserinfo (UE ++ ':' :: PE) = true := by
    rw [validUserinfo]
    simp only [List.all_append, List.all_cons, Bool.and_eq_true, List.all_eq_true,
      decide_eq_true_eq]
    exact ⟨fun r hr => validUserinfo_escape_char hr,
      by decide, fun r hr => validUserinfo_escape_char hr⟩
  have hPH : parseHost p.host = .ok p.host := by
    unfold parseHost
    rw [if_neg (show ¬ (goHasPrefix (str "[") p.host = true) from
      fun h => by rw [hasPrefix_bracket_false hhost] at h; exact Bool.noConfusion h)]
    rw [splitAtLast_not_mem (show ':' ∉ p.host from fun hm => ((hhost ':' hm).2.1) rfl)]
    exact unescape_host_safe (fun c hc => (hhost c hc).1)
  have hPA : parseAuthority (UE ++ ':' :: (PE ++ '@' :: p.host)) =
      .ok (some (U2, some P2), p.host) := by
    unfold parseAuthority
    rw [show UE ++ ':' :: (PE ++ '@' :: p.host) = (UE ++ ':' :: PE) ++ '@' :: p.host from
      by simp [List.append_assoc], splitAtLast_append _ hhostat]
    dsimp only
    rw [hPH, ok_bind]
    rw [if_neg (show ¬ ¬ (validUserinfo (UE ++ ':' :: PE) = true) from
      fun hn => hn hvalid)]
    rw [splitAtFirst_append hUEcol PE]
    dsimp only
    rw [hU2, ok_bind, hP2, ok_bind]
  have hpath : ∃ PV, unescape .encodePath (SL ++ EP) = .ok PV := by
    have hEPok : ∃ x, unescape .encodePath EP = .ok x := by
      rw [hEP]
      unfold escapedPath
      split
      · exact ⟨str "*", by decide⟩
      · obtain ⟨x, hx, -⟩ := @unescape_escape .encodePath (by decide) (by decide) _
        exact ⟨x, hx⟩
    by_cases hc : EP ≠ [] ∧ EP.headD ' ' ≠ '/' ∧ p.host ≠ []
    · have hSLc : SL = ['/'] := by rw [hSL, if_pos hc]
      rw [hSLc, List.singleton_append,
        unescape_cons_other _ (by decide) (by decide),
        if_neg (show ¬ ((encoding.encodePath = .encodeHost ∨ encoding.encodePath = .encodeZone) ∧
          '/'.toNat < 0x80 ∧ shouldEscape '/' .encodePath = true) from
          fun hx => by rcases hx.1 with h | h <;> exact encoding.noConfusion h)]
      obtain ⟨x, hx⟩ := hEPok
      rw [hx]
      exact ⟨'/' :: x, rfl⟩
    · have hSLnil : SL = [] := by rw [hSL, if_neg hc]
      rw [hSLnil, List.nil_append]
      exact hEPok
  obtain ⟨PV, hPV⟩ := hpath
  have hInner : urlParseInner (str "sqlserver://" ++
      (UE ++ ':' :: (PE ++ '@' :: (p.host ++ (SL ++ EP ++ QS))))) =
      .ok { scheme := str "sqlserver", opaque_ := [], user := some (U2, some P2),
            host := p.host, path := PV, rawQuery := RQ,
            forceQuery := false, fragment := [] } := by
    unfold urlParseInner
    rw [if_neg (show ¬ (containsCTL (str "sqlserver://" ++
        (UE ++ ':' :: (PE ++ '@' :: (p.host ++ (SL ++ EP ++ QS))))) = true) from
      fun h => by rw [hctl] at h; exact Bool.noConfusion h), if_neg hstar]
    rw [assoc_sqlserver, getScheme_sqlserver, ok_bind]
    dsimp only
    rw [show goToLower (str "sqlserver") = str "sqlserver" from by decide]
    rw [htrip]
    dsimp only
    rw [if_neg (show ¬ ¬ (goHasPrefix (str "/") (str "//" ++
        (UE ++ ':' :: (PE ++ '@' :: (p.host ++ (SL ++ EP))))) = true) from
      fun hn => hn (hasPrefix_slash _))]
    rw [if_pos (show (str "sqlserver" ≠ [] ∨
        ¬ goHasPrefix (str "///") (str "//" ++ (UE ++ ':' :: (PE ++ '@' :: (p.host ++ (SL ++ EP))))) = true) ∧
        goHasPrefix (str "//") (str "//" ++ (UE ++ ':' :: (PE ++ '@' :: (p.host ++ (SL ++ EP))))) = true from
      ⟨Or.inl (by decide), hasPrefix_dslash _⟩)]
    rw [drop2_dslash, hauth]
    dsimp only
    rw [hPA, ok_bind]
    dsimp only
    rw [hPV, ok_bind]
    rw [hRQdef]
    rfl
  refine ⟨U2, P2, PV, ?_⟩
  unfold urlParse
  rw [splitAtFirst_not_mem hsharp]
  dsimp only
  rw [hInner, ok_bind]

end ConnStr
namespace ConnStr

/-! ## Parsing back an encoded query -/

lemma containsChar_false {c : Char} {s : Str} (h : c ∉ s) : containsChar c s = false := by
  rw [containsChar]
  simpa using h

lemma insertSorted_perm (x : Str) : ∀ l : List Str, (insertSorted x l).Perm (x :: l) := by
  intro l
  induction l with
  | nil => exact List.Perm.refl _
  | cons y t ih =>
    rw [insertSorted]
    split
    · exact ((ih.cons y).trans (List.Perm.swap x y t)).symm.symm
    · exact List.Perm.refl _

lemma sortStrs_perm (l : List Str) : (sortStrs l).Perm l := by
  induction l with
  | nil => exact List.Perm.refl _
  | cons x t ih =>
    rw [sortStrs, List.foldr_cons]
    exact (insertSorted_perm x _).trans (ih.cons x)

lemma valuesGet_eq_of_mem {q : Values} (hd : q.Pairwise (fun a b => a.1 ≠ b.1))
    {kv : Str × List Str} (h : kv ∈ q) : valuesGet q kv.1 = kv.2 := by
  induction q with
  | nil => exact absurd h (List.not_mem_nil kv)
  | cons a t ih =>
    rw [valuesGet]
    rcases List.mem_cons.mp h with rfl | h
    · rw [if_pos rfl]
    · rw [if_neg (fun he => ((List.pairwise_cons.mp hd).1 kv h) he),
        ih (List.pairwise_cons.mp hd).2 h]

lemma valuesAppend_fresh {m : Values} {k : Str} (h : k ∉ m.map Prod.fst) (v : Str) :
    valuesAppend m k v = m ++ [(k, [v])] := by
  induction m with
  | nil => rfl
  | cons a t ih =>
    rw [valuesAppend,
      if_neg (fun he => h (by rw [← he]; exact List.mem_map_of_mem Prod.fst (List.mem_cons_self a t))),
      ih (fun hm => h (by
        rcases List.mem_map.mp hm with ⟨b, hb, rfl⟩
        exact List.mem_map_of_mem Prod.fst (List.mem_cons_of_mem a hb)))]
    rfl

lemma queryUnescape_queryEscape {s : Str} (h : ∀ c ∈ s, c.toNat ≤ 255) :
    queryUnescape (queryEscape s) = .ok s := by
  obtain ⟨s2, h1, h2⟩ := @unescape_escape .encodeQueryComponent (by decide) (by decide) s
  rw [queryUnescape, queryEscape, h1, h2 h]

lemma parseQuerySegment_pair {m : Values} {k v : Str}
    (hk : ∀ c ∈ k, c.toNat ≤ 255) (hv : ∀ c ∈ v, c.toNat ≤ 255)
    (hfresh : k ∉ m.map Prod.fst) :
    parseQuerySegment m (queryEscape k ++ '=' :: queryEscape v) = m ++ [(k, [v])] := by
  have hsemi : ';' ∉ queryEscape k ++ '=' :: queryEscape v := by
    intro hm
    rcases List.mem_append.mp hm with hm | hm
    · exact not_mem_escape (by decide) (by decide) (by decide) (by decide) _ hm
    · rcases List.mem_cons.mp hm with hm | hm
      · exact absurd hm (by decide)
      · exact not_mem_escape (by decide) (by decide) (by decide) (by decide) _ hm
  rw [parseQuerySegment, if_neg (by rw [containsChar_false hsemi]; simp)]
  rw [if_neg (by simp)]
  rw [splitAtFirst_append (show '=' ∉ queryEscape k from
    not_mem_escape (by decide) (by decide) (by decide) (by decide) _) _]
  dsimp only
  rw [queryUnescape_queryEscape hk, queryUnescape_queryEscape hv]
  exact valuesAppend_fresh hfresh v

lemma parseQuery_fold :
    ∀ (r : Values) (m : Values),
      (∀ kv ∈ r, (∀ c ∈ kv.1, c.toNat ≤ 255) ∧
        ∃ v, kv.2 = [v] ∧ (∀ c ∈ v, c.toNat ≤ 255)) →
      (∀ kv ∈ r, kv.1 ∉ m.map Prod.fst) →
      r.Pairwise (fun a b => a.1 ≠ b.1) →
      List.foldl parseQuerySegment m
        (r.map fun kv => queryEscape kv.1 ++ '=' :: queryEscape (kv.2.headD [])) = m ++ r := by
  intro r
  induction r with
  | nil => intro m _ _ _; simp
  | cons kv t ih =>
    intro m hgood hfresh hpair
    obtain ⟨hk, v, hv2, hv⟩ := hgood kv (List.mem_cons_self kv t)
    rw [List.map_cons, List.foldl_cons, hv2]
    rw [show ([v] : List Str).headD [] = v from rfl]
    rw [parseQuerySegment_pair hk hv (hfresh kv (List.mem_cons_self kv t))]
    rw [ih (m ++ [(kv.1, [v])])
      (fun kv' h' => hgood kv' (List.mem_cons_of_mem kv h'))
      (fun kv' h' => by
        rw [List.map_append]
        intro hm
        rcases List.mem_append.mp hm with hm | hm
        · exact hfresh kv' (List.mem_cons_of_mem kv h') hm
        · have : kv'.1 = kv.1 := by simpa using hm
          exact ((List.pairwise_cons.mp hpair).1 kv' h') this.symm)
      (List.pairwise_cons.mp hpair).2]
    have : kv = (kv.1, [v]) := by rw [← hv2]
    rw [← this, List.append_assoc, List.singleton_append]

lemma joinAmp_ne_nil {x : Str} (hx : x ≠ []) (t : List Str) : joinAmp (x :: t) ≠ [] := by
  cases t with
  | nil => exact hx
  | cons y u =>
    rw [joinAmp]
    simp

/-- Parsing back a canonically encoded query recovers the entries up to
key-sorting, for single-valued Latin-1 entries with distinct keys. -/
lemma parseQueryValues_valuesEncode {q : Values} (hne : q ≠ [])
    (hkeys : q.Pairwise (fun a b => a.1 ≠ b.1))
    (hgood : ∀ kv ∈ q, (∀ c ∈ kv.1, c.toNat ≤ 255) ∧
      ∃ v, kv.2 = [v] ∧ (∀ c ∈ v, c.toNat ≤ 255)) :
    parseQueryValues (valuesEncode q) =
      (sortStrs (q.map Prod.fst)).map (fun k => (k, valuesGet q k)) ∧
    ((sortStrs (q.map Prod.fst)).map (fun k => (k, valuesGet q k))).Perm q := by
  have hksperm : (sortStrs (q.map Prod.fst)).Perm (q.map Prod.fst) := sortStrs_perm _
  have hr : ∀ k ∈ sortStrs (q.map Prod.fst), ∃ kv ∈ q, kv.1 = k := by
    intro k hk
    have : k ∈ q.map Prod.fst := hksperm.mem_iff.mp hk
    rcases List.mem_map.mp this with ⟨kv, hkv, rfl⟩
    exact ⟨kv, hkv, rfl⟩
  have hget : ∀ kv ∈ q, valuesGet q kv.1 = kv.2 := fun kv h => valuesGet_eq_of_mem hkeys h
  have hrperm : ((sortStrs (q.map Prod.fst)).map (fun k => (k, valuesGet q k))).Perm q := by
    refine ((hksperm.map (fun k => (k, valuesGet q k))).trans ?_)
    rw [List.map_map]
    have : q.map ((fun k => (k, valuesGet q k)) ∘ Prod.fst) = q.map id := by
      apply List.map_congr_left
      intro kv hkv
      show (kv.1, valuesGet q kv.1) = kv
      rw [hget kv hkv]
    rw [this, List.map_id]
  refine ⟨?_, hrperm⟩
  have hgood' : ∀ kv ∈ (sortStrs (q.map Prod.fst)).map (fun k => (k, valuesGet q k)),
      (∀ c ∈ kv.1, c.toNat ≤ 255) ∧ ∃ v, kv.2 = [v] ∧ (∀ c ∈ v, c.toNat ≤ 255) :=
    fun kv h => hgood kv (hrperm.mem_iff.mp h)
  have hpair' : ((sortStrs (q.map Prod.fst)).map (fun k => (k, valuesGet q k))).Pairwise
      (fun a b => a.1 ≠ b.1) := by
    have h1 : (q.map Prod.fst).Pairwise (fun a b : Str => a ≠ b) := by
      rw [List.pairwise_map]
      exact hkeys
    have h2 : (sortStrs (q.map Prod.fst)).Pairwise (fun a b : Str => a ≠ b) :=
      (hksperm.pairwise_iff (fun hab => fun he => hab he.symm)).mpr h1
    rw [List.pairwise_map]
    exact h2
  -- the encoded query
  have henc : valuesEncode q =
      joinAmp (((sortStrs (q.map Prod.fst)).map (fun k => (k, valuesGet q k))).map
        (fun kv => queryEscape kv.1 ++ '=' :: queryEscape (kv.2.headD []))) := by
    rw [valuesEncode, if_neg hne, List.map_map]
    dsimp only
    congr 1
    apply List.map_congr_left
    intro k hk
    obtain ⟨kv, hkv, rfl⟩ := hr k hk
    obtain ⟨-, v, hv2, -⟩ := hgood kv hkv
    show joinAmp (List.map (fun val => queryEscape kv.1 ++ '=' :: queryEscape val)
        (valuesGet q kv.1)) =
      queryEscape kv.1 ++ '=' :: queryEscape ((valuesGet q kv.1).headD [])
    rw [hget kv hkv, hv2]
    rfl
  have hsegs : ∀ x ∈ ((sortStrs (q.map Prod.fst)).map (fun k => (k, valuesGet q k))).map
      (fun kv => queryEscape kv.1 ++ '=' :: queryEscape (kv.2.headD [])), '&' ∉ x := by
    intro x hx
    rcases List.mem_map.mp hx with ⟨kv, -, rfl⟩
    intro hm
    rcases List.mem_append.mp hm with hm | hm
    · exact not_mem_escape (by decide) (by decide) (by decide) (by decide) _ hm
    · rcases List.mem_cons.mp hm with hm | hm
      · exact absurd hm (by decide)
      · exact not_mem_escape (by decide) (by decide) (by decide) (by decide) _ hm
  have hsne : sortStrs (q.map Prod.fst) ≠ [] := by
    intro h
    rcases q with _ | ⟨kv, t⟩
    · exact hne rfl
    · have := hksperm.length_eq
      rw [h] at this
      simp at this
  have hLne : ((sortStrs (q.map Prod.fst)).map (fun k => (k, valuesGet q k))).map
      (fun kv => queryEscape kv.1 ++ '=' :: queryEscape (kv.2.headD [])) ≠ [] := by
    simp [hsne]
  have hencne : joinAmp (((sortStrs (q.map Prod.fst)).map (fun k => (k, valuesGet q k))).map
      (fun kv => queryEscape kv.1 ++ '=' :: queryEscape (kv.2.headD []))) ≠ [] := by
    rcases hL : ((sortStrs (q.map Prod.fst)).map (fun k => (k, valuesGet q k))).map
        (fun kv => queryEscape kv.1 ++ '=' :: queryEscape (kv.2.headD [])) with _ | ⟨x, t⟩
    · exact absurd hL hLne
    · rw [hL]
      have hx : x ∈ ((sortStrs (q.map Prod.fst)).map (fun k => (k, valuesGet q k))).map
          (fun kv => queryEscape kv.1 ++ '=' :: queryEscape (kv.2.headD [])) := by
        rw [hL]
        exact List.mem_cons_self x t
      rcases List.mem_map.mp hx with ⟨kv, -, rfl⟩
      exact joinAmp_ne_nil (by simp) t
  rw [henc, parseQueryValues, if_neg hencne, goSplit_joinAmp _ hLne hsegs]
  have := parseQuery_fold ((sortStrs (q.map Prod.fst)).map (fun k => (k, valuesGet q k))) []
    hgood' (fun kv _ => by simp) hpair'
  rw [this, List.nil_append]

end ConnStr
namespace ConnStr

/-! ## The URL tokenizer applied to a serialized configuration -/

lemma urlQueryLoop_singles {vs : Values} (h : ∀ kv ∈ vs, kv.2.length ≤ 1) :
    ∀ res, ∃ m, urlQueryLoop vs res = .ok m := by
  induction vs with
  | nil => intro res; exact ⟨res, rfl⟩
  | cons kv t ih =>
    intro res
    rw [urlQueryLoop,
      if_neg (by have := h kv (List.mem_cons_self kv t); omega)]
    exact ih (fun kv' h' => h kv' (List.mem_cons_of_mem kv h')) _

lemma urlQueryLoop_mapGet {k v : Str} :
    ∀ {vs : Values} {res m : RawParams}, urlQueryLoop vs res = .ok m →
      (k, [v]) ∈ vs →
      (∀ kv' ∈ vs, goToLower kv'.1 = goToLower k → kv' = (k, [v])) →
      mapGet m (goToLower k) = some v := by
  intro vs
  induction vs with
  | nil =>
    intro res m _ hmem _
    exact absurd hmem (List.not_mem_nil _)
  | cons kv t ih =>
    intro res m hloop hmem huniq
    rw [urlQueryLoop] at hloop
    split at hloop
    · exact Except.noConfusion hloop
    · by_cases hmem2 : (k, [v]) ∈ t
      · exact ih hloop hmem2 (fun kv' h' => huniq kv' (List.mem_cons_of_mem kv h'))
      · have hkv : kv = (k, [v]) := by
          rcases List.mem_cons.mp hmem with h | h
          · exact h.symm
          · exact absurd h hmem2
        subst hkv
        have hdiff : ∀ kv' ∈ t, goToLower kv'.1 ≠ goToLower k := by
          intro kv' h' he
          have := huniq kv' (List.mem_cons_of_mem _ h') he
          rw [this] at h'
          exact hmem2 h'
        rw [urlQueryLoop_preserves hloop hdiff]
        exact mapGet_mapSet_self res _ _

lemma mem_ite_singleton {α : Type} {c : Prop} [Decidable c] {x kv : α}
    (h : kv ∈ (if c then [x] else [])) : kv = x ∧ c := by
  by_cases hc : c
  · rw [if_pos hc] at h
    exact ⟨by simpa using h, hc⟩
  · rw [if_neg hc] at h
    exact absurd h (List.not_mem_nil kv)

lemma ite_singleton_eq_nil {α : Type} {c : Prop} [Decidable c] {x : α}
    (h : (if c then [x] else []) = []) : ¬ c := by
  intro hc
  rw [if_pos hc] at h
  exact List.noConfusion h

lemma mem_ite_singleton_of {α : Type} {c : Prop} [Decidable c] (x : α) (hc : c) :
    x ∈ (if c then [x] else []) := by
  rw [if_pos hc]
  exact List.mem_cons_self x []

lemma digit_latin {n : Nat} (h : n < 10) : (Char.ofNat ('0'.toNat + n)).toNat ≤ 255 := by
  interval_cases n <;> decide

lemma natToStrAux_latin : ∀ f n, n < f → ∀ c ∈ natToStrAux f n, c.toNat ≤ 255 := by
  intro f
  induction f using Nat.strong_induction_on with
  | _ f ih =>
    intro n hn c hc
    cases f with
    | zero => omega
    | succ f =>
      rw [natToStrAux] at hc
      by_cases h10 : n < 10
      · rw [if_pos h10] at hc
        simp at hc
        subst hc
        exact digit_latin h10
      · rw [if_neg h10] at hc
        rcases List.mem_append.mp hc with hc | hc
        · exact ih n hn (n / 10) (Nat.div_lt_self (by omega) (by omega)) c hc
        · simp at hc
          subst hc
          exact digit_latin (Nat.mod_lt _ (by omega))

lemma natToStr_latin {n : Nat} : ∀ c ∈ natToStr n, c.toNat ≤ 255 :=
  natToStrAux_latin (n + 1) n (Nat.lt_succ_self n)

/-- The conditional query built by `toUrl`, as a concatenation of
conditional singletons. -/
lemma toUrl_query_chain (db : Str) (lf : Nat) (ce : Bool) (ka kl ks : Str) :
    (let q : Values := []
     let q := if db ≠ [] then valuesAppend q (str "database") db else q
     let q := if lf ≠ 0 then valuesAppend q (str "log") (natToStr lf) else q
     let q := if ce = true then valuesAppend q (str "columnEncryption") (str "true") else q
     let q := if ka ≠ [] then valuesAppend q (str "keyStoreAuthentication") ka else q
     let q := if kl ≠ [] then valuesAppend q (str "keyStoreLocation") kl else q
     if ks ≠ [] then valuesAppend q (str "keyStoreSecret") ks else q) =
    (if db ≠ [] then [(str "database", [db])] else []) ++
    (if lf ≠ 0 then [(str "log", [natToStr lf])] else []) ++
    (if ce = true then [(str "columnEncryption", [str "true"])] else []) ++
    (if ka ≠ [] then [(str "keyStoreAuthentication", [ka])] else []) ++
    (if kl ≠ [] then [(str "keyStoreLocation", [kl])] else []) ++
    (if ks ≠ [] then [(str "keyStoreSecret", [ks])] else []) := by
  have n1 : str "database" ≠ str "log" := by decide
  have n2 : str "database" ≠ str "columnEncryption" := by decide
  have n3 : str "database" ≠ str "keyStoreAuthentication" := by decide
  have n4 : str "database" ≠ str "keyStoreLocation" := by decide
  have n5 : str "database" ≠ str "keyStoreSecret" := by decide
  have n6 : str "log" ≠ str "columnEncryption" := by decide
  have n7 : str "log" ≠ str "keyStoreAuthentication" := by decide
  have n8 : str "log" ≠ str "keyStoreLocation" := by decide
  have n9 : str "log" ≠ str "keyStoreSecret" := by decide
  have n10 : str "columnEncryption" ≠ str "keyStoreAuthentication" := by decide
  have n11 : str "columnEncryption" ≠ str "keyStoreLocation" := by decide
  have n12 : str "columnEncryption" ≠ str "keyStoreSecret" := by decide
  have n13 : str "keyStoreAuthentication" ≠ str "keyStoreLocation" := by decide
  have n14 : str "keyStoreAuthentication" ≠ str "keyStoreSecret" := by decide
  have n15 : str "keyStoreLocation" ≠ str "keyStoreSecret" := by decide
  by_cases h1 : db ≠ [] <;> by_cases h2 : lf ≠ 0 <;> by_cases h3 : ce = true <;>
    by_cases h4 : ka ≠ [] <;> by_cases h5 : kl ≠ [] <;> by_cases h6 : ks ≠ [] <;>
    simp [h1, h2, h3, h4, h5, h6, valuesAppend, n1, n2, n3, n4, n5, n6, n7, n8, n9, n10,
      n11, n12, n13, n14, n15]

end ConnStr
namespace ConnStr

/-- `toUrl`'s raw query in terms of the explicit conditional entry list. -/
lemma rawQuery_toUrl_rep (p : connectParams) :
    (toUrl p).rawQuery =
      (if ((if p.database ≠ [] then [(str "database", [p.database])] else []) ++
          (if p.logFlags ≠ 0 then [(str "log", [natToStr p.logFlags])] else []) ++
          (if p.columnEncryption = true then [(str "columnEncryption", [str "true"])] else []) ++
          (if p.keyStoreAuthentication ≠ [] then
            [(str "keyStoreAuthentication", [p.keyStoreAuthentication])] else []) ++
          (if p.keyStoreLocation ≠ [] then
            [(str "keyStoreLocation", [p.keyStoreLocation])] else []) ++
          (if p.keyStoreSecret ≠ [] then
            [(str "keyStoreSecret", [p.keyStoreSecret])] else [])).length > 0 then
        valuesEncode
          ((if p.database ≠ [] then [(str "database", [p.database])] else []) ++
          (if p.logFlags ≠ 0 then [(str "log", [natToStr p.logFlags])] else []) ++
          (if p.columnEncryption = true then [(str "columnEncryption", [str "true"])] else []) ++
          (if p.keyStoreAuthentication ≠ [] then
            [(str "keyStoreAuthentication", [p.keyStoreAuthentication])] else []) ++
          (if p.keyStoreLocation ≠ [] then
            [(str "keyStoreLocation", [p.keyStoreLocation])] else []) ++
          (if p.keyStoreSecret ≠ [] then
            [(str "keyStoreSecret", [p.keyStoreSecret])] else []))
      else []) := by
  have hc := toUrl_query_chain p.database p.logFlags p.columnEncryption
    p.keyStoreAuthentication p.keyStoreLocation p.keyStoreSecret
  calc (toUrl p).rawQuery
      = (if (let q : Values := []
             let q := if p.database ≠ [] then valuesAppend q (str "database") p.database else q
             let q := if p.logFlags ≠ 0 then valuesAppend q (str "log") (natToStr p.logFlags)
               else q
             let q := if p.columnEncryption = true then
               valuesAppend q (str "columnEncryption") (str "true") else q
             let q := if p.keyStoreAuthentication ≠ [] then
               valuesAppend q (str "keyStoreAuthentication") p.keyStoreAuthentication else q
             let q := if p.keyStoreLocation ≠ [] then
               valuesAppend q (str "keyStoreLocation") p.keyStoreLocation else q
             if p.keyStoreSecret ≠ [] then
               valuesAppend q (str "keyStoreSecret") p.keyStoreSecret else q).length > 0 then
          valuesEncode
            (let q : Values := []
             let q := if p.database ≠ [] then valuesAppend q (str "database") p.database else q
             let q := if p.logFlags ≠ 0 then valuesAppend q (str "log") (natToStr p.logFlags)
               else q
             let q := if p.columnEncryption = true then
               valuesAppend q (str "columnEncryption") (str "true") else q
             let q := if p.keyStoreAuthentication ≠ [] then
               valuesAppend q (str "keyStoreAuthentication") p.keyStoreAuthentication else q
             let q := if p.keyStoreLocation ≠ [] then
               valuesAppend q (str "keyStoreLocation") p.keyStoreLocation else q
             if p.keyStoreSecret ≠ [] then
               valuesAppend q (str "keyStoreSecret") p.keyStoreSecret else q)
        else []) := rfl
    _ = _ := by rw [hc]

end ConnStr
namespace ConnStr

lemma mapGet_three {k1 k2 k3 v1 v2 v3 κ : Str} (h1 : k1 ≠ κ) (h2 : k2 ≠ κ) (h3 : k3 ≠ κ) :
    mapGet [(k1, v1), (k2, v2), (k3, v3)] κ = none := by
  rw [mapGet, if_neg h1, mapGet, if_neg h2, mapGet, if_neg h3]
  rfl

lemma splitURL_toUrl {p : connectParams}
    (hhost : ∀ c ∈ p.host, shouldEscape c .encodeHost = false ∧ c ≠ ':' ∧ c ≠ '[' ∧ c ≠ ']')
    (hne : p.host ≠ [])
    (hdb : ∀ c ∈ p.database, c.toNat ≤ 255)
    (hksa : p.keyStoreAuthentication = [] ∨ p.keyStoreAuthentication = str "pfx")
    (hloc : ∀ c ∈ p.keyStoreLocation, c.toNat ≤ 255)
    (hsec : ∀ c ∈ p.keyStoreSecret, c.toNat ≤ 255) :
    ∃ M, splitConnectionStringURL (urlString (toUrl p)) = .ok M ∧
      mapGet M (str "database") = (if p.database = [] then none else some p.database) ∧
      mapGet M (str "log") = (if p.logFlags = 0 then none else some (natToStr p.logFlags)) ∧
      mapGet M (str "columnencryption") =
        (if p.columnEncryption = true then some (str "true") else none) ∧
      mapGet M (str "keystoreauthentication") =
        (if p.keyStoreAuthentication = [] then none else some p.keyStoreAuthentication) ∧
      mapGet M (str "keystorelocation") =
        (if p.keyStoreLocation = [] then none else some p.keyStoreLocation) ∧
      mapGet M (str "keystoresecret") =
        (if p.keyStoreSecret = [] then none else some p.keyStoreSecret) ∧
      (∀ k0 ∈ [str "port", str "packet size", str "connection timeout", str "dial timeout",
        str "keepalive", str "encrypt", str "trustservercertificate",
        str "hostnameincertificate", str "serverspn", str "workstation id", str "app name",
        str "applicationintent", str "failoverpartner", str "failoverport"],
        mapGet M k0 = none) := by
  obtain ⟨U2, P2, PV, hparse⟩ := urlParse_toUrl hhost hne
  have hclassREP : ∀ kv : Str × List Str, kv ∈
      (if p.database ≠ [] then [(str "database", [p.database])] else []) ++
      (if p.logFlags ≠ 0 then [(str "log", [natToStr p.logFlags])] else []) ++
      (if p.columnEncryption = true then [(str "columnEncryption", [str "true"])] else []) ++
      (if p.keyStoreAuthentication ≠ [] then
        [(str "keyStoreAuthentication", [p.keyStoreAuthentication])] else []) ++
      (if p.keyStoreLocation ≠ [] then [(str "keyStoreLocation", [p.keyStoreLocation])] else []) ++
      (if p.keyStoreSecret ≠ [] then [(str "keyStoreSecret", [p.keyStoreSecret])] else []) →
      (kv.1 = str "database" ∧ kv.2 = [p.database] ∧ p.database ≠ []) ∨
      (kv.1 = str "log" ∧ kv.2 = [natToStr p.logFlags] ∧ p.logFlags ≠ 0) ∨
      (kv.1 = str "columnEncryption" ∧ kv.2 = [str "true"] ∧ p.columnEncryption = true) ∨
      (kv.1 = str "keyStoreAuthentication" ∧ kv.2 = [p.keyStoreAuthentication] ∧ p.keyStoreAuthentication ≠ []) ∨
      (kv.1 = str "keyStoreLocation" ∧ kv.2 = [p.keyStoreLocation] ∧ p.keyStoreLocation ≠ []) ∨
      (kv.1 = str "keyStoreSecret" ∧ kv.2 = [p.keyStoreSecret] ∧ p.keyStoreSecret ≠ []) := by
    intro kv h
    simp only [List.mem_append] at h
    rcases h with ((((h | h) | h) | h) | h) | h <;>
      obtain ⟨heq, hc⟩ := mem_ite_singleton h
    · exact Or.inl ⟨by rw [heq], by rw [heq], hc⟩
    · exact Or.inr (Or.inl ⟨by rw [heq], by rw [heq], hc⟩)
    · exact Or.inr (Or.inr (Or.inl ⟨by rw [heq], by rw [heq], hc⟩))
    · exact Or.inr (Or.inr (Or.inr (Or.inl ⟨by rw [heq], by rw [heq], hc⟩)))
    · exact Or.inr (Or.inr (Or.inr (Or.inr (Or.inl ⟨by rw [heq], by rw [heq], hc⟩))))
    · exact Or.inr (Or.inr (Or.inr (Or.inr (Or.inr ⟨by rw [heq], by rw [heq], hc⟩))))
  have hgoodREP : ∀ kv ∈
      (if p.database ≠ [] then [(str "database", [p.database])] else []) ++
      (if p.logFlags ≠ 0 then [(str "log", [natToStr p.logFlags])] else []) ++
      (if p.columnEncryption = true then [(str "columnEncryption", [str "true"])] else []) ++
      (if p.keyStoreAuthentication ≠ [] then
        [(str "keyStoreAuthentication", [p.keyStoreAuthentication])] else []) ++
      (if p.keyStoreLocation ≠ [] then [(str "keyStoreLocation", [p.keyStoreLocation])] else []) ++
      (if p.keyStoreSecret ≠ [] then [(str "keyStoreSecret", [p.keyStoreSecret])] else []),
      (∀ c ∈ kv.1, c.toNat ≤ 255) ∧ ∃ v, kv.2 = [v] ∧ (∀ c ∈ v, c.toNat ≤ 255) := by
    intro kv h
    rcases hclassREP kv h with ⟨hk1, hk2, hc⟩ | ⟨hk1, hk2, hc⟩ | ⟨hk1, hk2, hc⟩ |
      ⟨hk1, hk2, hc⟩ | ⟨hk1, hk2, hc⟩ | ⟨hk1, hk2, hc⟩ <;> rw [hk1, hk2]
    · exact ⟨by decide, p.database, rfl, hdb⟩
    · exact ⟨by decide, natToStr p.logFlags, rfl, natToStr_latin⟩
    · exact ⟨by decide, str "true", rfl, by decide⟩
    · rcases hksa with hka | hka
      · exact absurd hka hc
      · exact ⟨by decide, p.keyStoreAuthentication, rfl, by rw [hka]; decide⟩
    · exact ⟨by decide, p.keyStoreLocation, rfl, hloc⟩
    · exact ⟨by decide, p.keyStoreSecret, rfl, hsec⟩
  have hsub : (((if p.database ≠ [] then [(str "database", [p.database])] else []) ++
      (if p.logFlags ≠ 0 then [(str "log", [natToStr p.logFlags])] else []) ++
      (if p.columnEncryption = true then [(str "columnEncryption", [str "true"])] else []) ++
      (if p.keyStoreAuthentication ≠ [] then
        [(str "keyStoreAuthentication", [p.keyStoreAuthentication])] else []) ++
      (if p.keyStoreLocation ≠ [] then [(str "keyStoreLocation", [p.keyStoreLocation])] else []) ++
      (if p.keyStoreSecret ≠ [] then
        [(str "keyStoreSecret", [p.keyStoreSecret])] else [])).map Prod.fst).Sublist
      ([str "database"] ++ [str "log"] ++ [str "columnEncryption"] ++
        [str "keyStoreAuthentication"] ++ [str "keyStoreLocation"] ++ [str "keyStoreSecret"]) := by
    simp only [List.map_append]
    refine List.Sublist.append (List.Sublist.append (List.Sublist.append
      (List.Sublist.append (List.Sublist.append ?_ ?_) ?_) ?_) ?_) ?_ <;>
      (split
       · simp
       · simp)
  have hpairREP : ((if p.database ≠ [] then [(str "database", [p.database])] else []) ++
      (if p.logFlags ≠ 0 then [(str "log", [natToStr p.logFlags])] else []) ++
      (if p.columnEncryption = true then [(str "columnEncryption", [str "true"])] else []) ++
      (if p.keyStoreAuthentication ≠ [] then
        [(str "keyStoreAuthentication", [p.keyStoreAuthentication])] else []) ++
      (if p.keyStoreLocation ≠ [] then [(str "keyStoreLocation", [p.keyStoreLocation])] else []) ++
      (if p.keyStoreSecret ≠ [] then
        [(str "keyStoreSecret", [p.keyStoreSecret])] else [])).Pairwise
      (fun a b => goToLower a.1 ≠ goToLower b.1) := by
    have hK6 : ([str "database"] ++ [str "log"] ++ [str "columnEncryption"] ++
        [str "keyStoreAuthentication"] ++ [str "keyStoreLocation"] ++
        [str "keyStoreSecret"]).Pairwise (fun a b : Str => goToLower a ≠ goToLower b) := by
      decide
    have hmk : ((((if p.database ≠ [] then [(str "database", [p.database])] else []) ++
      (if p.logFlags ≠ 0 then [(str "log", [natToStr p.logFlags])] else []) ++
      (if p.columnEncryption = true then [(str "columnEncryption", [str "true"])] else []) ++
      (if p.keyStoreAuthentication ≠ [] then
        [(str "keyStoreAuthentication", [p.keyStoreAuthentication])] else []) ++
      (if p.keyStoreLocation ≠ [] then [(str "keyStoreLocation", [p.keyStoreLocation])] else []) ++
      (if p.keyStoreSecret ≠ [] then [(str "keyStoreSecret", [p.keyStoreSecret])] else [])).map Prod.fst).Pairwise
        (fun x y : Str => goToLower x ≠ goToLower y)) :=
      List.Pairwise.sublist hsub hK6
    exact List.Pairwise.of_map Prod.fst (fun a b h => h) hmk
  have hpairNe := hpairREP.imp (fun h he => h (congrArg goToLower he))
  unfold splitConnectionStringURL
  rw [hparse, ok_bind]
  dsimp only
  rw [if_neg (by simp)]
  have hshp : splitHostPort p.host = .error (str "missing port in address") := by
    unfold splitHostPort
    rw [splitAtLast_not_mem (show ':' ∉ p.host from fun hm => ((hhost ':' hm).2.1) rfl)]
  rw [hshp]
  dsimp only
  rw [if_neg (show ¬ (List.length ([] : Str) > 0) from by simp)]
  rw [← apply_ite
    (mapSet (mapSet (mapSet [] (str "user id") U2) (str "password") P2) (str "server"))
    (List.length PV > 0) (p.host ++ '\\' :: List.drop 1 PV) p.host]
  have hres : ∀ X : Str,
      mapSet (mapSet (mapSet [] (str "user id") U2) (str "password") P2) (str "server") X =
        [(str "user id", U2), (str "password", P2), (str "server", X)] := by
    intro X
    simp [mapSet, show str "user id" ≠ str "password" from by decide,
      show str "user id" ≠ str "server" from by decide,
      show str "password" ≠ str "server" from by decide]
  rw [hres]
  rw [rawQuery_toUrl_rep]
  by_cases hrep : (if p.database ≠ [] then [(str "database", [p.database])] else []) ++
      (if p.logFlags ≠ 0 then [(str "log", [natToStr p.logFlags])] else []) ++
      (if p.columnEncryption = true then [(str "columnEncryption", [str "true"])] else []) ++
      (if p.keyStoreAuthentication ≠ [] then
        [(str "keyStoreAuthentication", [p.keyStoreAuthentication])] else []) ++
      (if p.keyStoreLocation ≠ [] then [(str "keyStoreLocation", [p.keyStoreLocation])] else []) ++
      (if p.keyStoreSecret ≠ [] then
        [(str "keyStoreSecret", [p.keyStoreSecret])] else []) = []
  · -- no query parameters at all
    rw [hrep]
    rw [if_neg (by simp)]
    rw [show parseQueryValues [] = [] from rfl]
    simp only [List.append_eq_nil] at hrep
    obtain ⟨⟨⟨⟨⟨e1, e2⟩, e3⟩, e4⟩, e5⟩, e6⟩ := hrep
    have hc1 := ite_singleton_eq_nil e1
    have hc2 := ite_singleton_eq_nil e2
    have hc3 := ite_singleton_eq_nil e3
    have hc4 := ite_singleton_eq_nil e4
    have hc5 := ite_singleton_eq_nil e5
    have hc6 := ite_singleton_eq_nil e6
    refine ⟨_, rfl, ?_, ?_, ?_, ?_, ?_, ?_, ?_⟩
    · rw [if_pos (not_not.mp hc1)]
      exact mapGet_three (by decide) (by decide) (by decide)
    · rw [if_pos (not_not.mp hc2)]
      exact mapGet_three (by decide) (by decide) (by decide)
    · rw [if_neg hc3]
      exact mapGet_three (by decide) (by decide) (by decide)
    · rw [if_pos (not_not.mp hc4)]
      exact mapGet_three (by decide) (by decide) (by decide)
    · rw [if_pos (not_not.mp hc5)]
      exact mapGet_three (by decide) (by decide) (by decide)
    · rw [if_pos (not_not.mp hc6)]
      exact mapGet_three (by decide) (by decide) (by decide)
    · intro k0 hk0
      simp only [List.mem_cons, List.not_mem_nil, or_false] at hk0
      rcases hk0 with rfl | rfl | rfl | rfl | rfl | rfl | rfl | rfl | rfl | rfl | rfl | rfl | rfl | rfl <;>
        exact mapGet_three (by decide) (by decide) (by decide)
  · have hlen := List.length_pos.mpr hrep
    rw [if_pos hlen]
    obtain ⟨hpqv, hperm⟩ := parseQueryValues_valuesEncode hrep hpairNe hgoodREP
    rw [hpqv]
    have hclassvs : ∀ kv ∈ (sortStrs
        ((((if p.database ≠ [] then [(str "database", [p.database])] else []) ++
        (if p.logFlags ≠ 0 then [(str "log", [natToStr p.logFlags])] else []) ++
        (if p.columnEncryption = true then [(str "columnEncryption", [str "true"])] else []) ++
        (if p.keyStoreAuthentication ≠ [] then
          [(str "keyStoreAuthentication", [p.keyStoreAuthentication])] else []) ++
        (if p.keyStoreLocation ≠ [] then
          [(str "keyStoreLocation", [p.keyStoreLocation])] else []) ++
        (if p.keyStoreSecret ≠ [] then
          [(str "keyStoreSecret", [p.keyStoreSecret])] else [])).map Prod.fst))).map
        (fun k => (k, valuesGet
          ((if p.database ≠ [] then [(str "database", [p.database])] else []) ++
          (if p.logFlags ≠ 0 then [(str "log", [natToStr p.logFlags])] else []) ++
          (if p.columnEncryption = true then [(str "columnEncryption", [str "true"])] else []) ++
          (if p.keyStoreAuthentication ≠ [] then
            [(str "keyStoreAuthentication", [p.keyStoreAuthentication])] else []) ++
          (if p.keyStoreLocation ≠ [] then
            [(str "keyStoreLocation", [p.keyStoreLocation])] else []) ++
          (if p.keyStoreSecret ≠ [] then
            [(str "keyStoreSecret", [p.keyStoreSecret])] else [])) k)),
      (kv.1 = str "database" ∧ kv.2 = [p.database] ∧ p.database ≠ []) ∨
      (kv.1 = str "log" ∧ kv.2 = [natToStr p.logFlags] ∧ p.logFlags ≠ 0) ∨
      (kv.1 = str "columnEncryption" ∧ kv.2 = [str "true"] ∧ p.columnEncryption = true) ∨
      (kv.1 = str "keyStoreAuthentication" ∧ kv.2 = [p.keyStoreAuthentication] ∧ p.keyStoreAuthentication ≠ []) ∨
      (kv.1 = str "keyStoreLocation" ∧ kv.2 = [p.keyStoreLocation] ∧ p.keyStoreLocation ≠ []) ∨
      (kv.1 = str "keyStoreSecret" ∧ kv.2 = [p.keyStoreSecret] ∧ p.keyStoreSecret ≠ []) :=
      fun kv h => hclassREP kv (hperm.mem_iff.mp h)
    have hsingles : ∀ kv ∈ (sortStrs
        ((((if p.database ≠ [] then [(str "database", [p.database])] else []) ++
        (if p.logFlags ≠ 0 then [(str "log", [natToStr p.logFlags])] else []) ++
        (if p.columnEncryption = true then [(str "columnEncryption", [str "true"])] else []) ++
        (if p.keyStoreAuthentication ≠ [] then
          [(str "keyStoreAuthentication", [p.keyStoreAuthentication])] else []) ++
        (if p.keyStoreLocation ≠ [] then
          [(str "keyStoreLocation", [p.keyStoreLocation])] else []) ++
        (if p.keyStoreSecret ≠ [] then
          [(str "keyStoreSecret", [p.keyStoreSecret])] else [])).map Prod.fst))).map
        (fun k => (k, valuesGet
          ((if p.database ≠ [] then [(str "database", [p.database])] else []) ++
          (if p.logFlags ≠ 0 then [(str "log", [natToStr p.logFlags])] else []) ++
          (if p.columnEncryption = true then [(str "columnEncryption", [str "true"])] else []) ++
          (if p.keyStoreAuthentication ≠ [] then
            [(str "keyStoreAuthentication", [p.keyStoreAuthentication])] else []) ++
          (if p.keyStoreLocation ≠ [] then
            [(str "keyStoreLocation", [p.keyStoreLocation])] else []) ++
          (if p.keyStoreSecret ≠ [] then
            [(str "keyStoreSecret", [p.keyStoreSecret])] else [])) k)),
        kv.2.length ≤ 1 := by
      intro kv h
      obtain ⟨-, v, hv2, -⟩ := hgoodREP kv (hperm.mem_iff.mp h)
      rw [hv2]
      simp
    obtain ⟨M, hM⟩ := urlQueryLoop_singles hsingles
      [(str "user id", U2), (str "password", P2),
        (str "server", if List.length PV > 0 then p.host ++ '\\' :: List.drop 1 PV else p.host)]
    have hvspair := (hperm.pairwise_iff
      (fun {a b} (h : goToLower a.1 ≠ goToLower b.1) (he : goToLower b.1 = goToLower a.1) =>
        h he.symm)).mpr hpairREP
    have huniq : ∀ (K V : Str), ∀ hKV : (K, [V]) ∈ (sortStrs
        ((((if p.database ≠ [] then [(str "database", [p.database])] else []) ++
        (if p.logFlags ≠ 0 then [(str "log", [natToStr p.logFlags])] else []) ++
        (if p.columnEncryption = true then [(str "columnEncryption", [str "true"])] else []) ++
        (if p.keyStoreAuthentication ≠ [] then
          [(str "keyStoreAuthentication", [p.keyStoreAuthentication])] else []) ++
        (if p.keyStoreLocation ≠ [] then
          [(str "keyStoreLocation", [p.keyStoreLocation])] else []) ++
        (if p.keyStoreSecret ≠ [] then
          [(str "keyStoreSecret", [p.keyStoreSecret])] else [])).map Prod.fst))).map
        (fun k => (k, valuesGet
          ((if p.database ≠ [] then [(str "database", [p.database])] else []) ++
          (if p.logFlags ≠ 0 then [(str "log", [natToStr p.logFlags])] else []) ++
          (if p.columnEncryption = true then [(str "columnEncryption", [str "true"])] else []) ++
          (if p.keyStoreAuthentication ≠ [] then
            [(str "keyStoreAuthentication", [p.keyStoreAuthentication])] else []) ++
          (if p.keyStoreLocation ≠ [] then
            [(str "keyStoreLocation", [p.keyStoreLocation])] else []) ++
          (if p.keyStoreSecret ≠ [] then
            [(str "keyStoreSecret", [p.keyStoreSecret])] else [])) k)),
        ∀ kv' ∈ (sortStrs
        ((((if p.database ≠ [] then [(str "database", [p.database])] else []) ++
        (if p.logFlags ≠ 0 then [(str "log", [natToStr p.logFlags])] else []) ++
        (if p.columnEncryption = true then [(str "columnEncryption", [str "true"])] else []) ++
        (if p.keyStoreAuthentication ≠ [] then
          [(str "keyStoreAuthentication", [p.keyStoreAuthentication])] else []) ++
        (if p.keyStoreLocation ≠ [] then
          [(str "keyStoreLocation", [p.keyStoreLocation])] else []) ++
        (if p.keyStoreSecret ≠ [] then
          [(str "keyStoreSecret", [p.keyStoreSecret])] else [])).map Prod.fst))).map
        (fun k => (k, valuesGet
          ((if p.database ≠ [] then [(str "database", [p.database])] else []) ++
          (if p.logFlags ≠ 0 then [(str "log", [natToStr p.logFlags])] else []) ++
          (if p.columnEncryption = true then [(str "columnEncryption", [str "true"])] else []) ++
          (if p.keyStoreAuthentication ≠ [] then
            [(str "keyStoreAuthentication", [p.keyStoreAuthentication])] else []) ++
          (if p.keyStoreLocation ≠ [] then
            [(str "keyStoreLocation", [p.keyStoreLocation])] else []) ++
          (if p.keyStoreSecret ≠ [] then
            [(str "keyStoreSecret", [p.keyStoreSecret])] else [])) k)),
        goToLower kv'.1 = goToLower K → kv' = (K, [V]) := by
      intro K V hKV kv' h' he
      by_cases heq : kv' = (K, [V])
      · exact heq
      · have hsym : Symmetric (fun a b : Str × List Str => goToLower a.1 ≠ goToLower b.1) :=
          fun a b h he2 => h he2.symm
        exact absurd he (List.Pairwise.forall hsym hvspair h' hKV heq)
    refine ⟨M, hM, ?_, ?_, ?_, ?_, ?_, ?_, ?_⟩
    · -- database
      by_cases hc : p.database ≠ []
      · have hmem : ((str "database" : Str), ([p.database] : List Str)) ∈
            (if p.database ≠ [] then [(str "database", [p.database])] else []) ++
            (if p.logFlags ≠ 0 then [(str "log", [natToStr p.logFlags])] else []) ++
            (if p.columnEncryption = true then [(str "columnEncryption", [str "true"])] else []) ++
            (if p.keyStoreAuthentication ≠ [] then
              [(str "keyStoreAuthentication", [p.keyStoreAuthentication])] else []) ++
            (if p.keyStoreLocation ≠ [] then
              [(str "keyStoreLocation", [p.keyStoreLocation])] else []) ++
            (if p.keyStoreSecret ≠ [] then
              [(str "keyStoreSecret", [p.keyStoreSecret])] else []) :=
          (List.mem_append.mpr (Or.inl (List.mem_append.mpr (Or.inl (List.mem_append.mpr (Or.inl (List.mem_append.mpr (Or.inl (List.mem_append.mpr (Or.inl (mem_ite_singleton_of _ hc)))))))))))
        have hmemvs := hperm.mem_iff.mpr hmem
        have hget := urlQueryLoop_mapGet hM hmemvs (huniq _ _ hmemvs)
        rw [show goToLower (str "database") = str "database" from by decide] at hget
        rw [if_neg (show ¬ p.database = [] from hc)]
        exact hget
      · have hnone : ∀ kv ∈ (sortStrs
          ((((if p.database ≠ [] then [(str "database", [p.database])] else []) ++
          (if p.logFlags ≠ 0 then [(str "log", [natToStr p.logFlags])] else []) ++
          (if p.columnEncryption = true then [(str "columnEncryption", [str "true"])] else []) ++
          (if p.keyStoreAuthentication ≠ [] then
            [(str "keyStoreAuthentication", [p.keyStoreAuthentication])] else []) ++
          (if p.keyStoreLocation ≠ [] then
            [(str "keyStoreLocation", [p.keyStoreLocation])] else []) ++
          (if p.keyStoreSecret ≠ [] then
            [(str "keyStoreSecret", [p.keyStoreSecret])] else [])).map Prod.fst))).map
          (fun k => (k, valuesGet
            ((if p.database ≠ [] then [(str "database", [p.database])] else []) ++
            (if p.logFlags ≠ 0 then [(str "log", [natToStr p.logFlags])] else []) ++
            (if p.columnEncryption = true then [(str "columnEncryption", [str "true"])] else []) ++
            (if p.keyStoreAuthentication ≠ [] then
              [(str "keyStoreAuthentication", [p.keyStoreAuthentication])] else []) ++
            (if p.keyStoreLocation ≠ [] then
              [(str "keyStoreLocation", [p.keyStoreLocation])] else []) ++
            (if p.keyStoreSecret ≠ [] then
              [(str "keyStoreSecret", [p.keyStoreSecret])] else [])) k)),
          goToLower kv.1 ≠ str "database" := by
          intro kv h he
          rcases hclassvs kv h with ⟨hk1, -, hcx⟩ | ⟨hk1, -, hcx⟩ | ⟨hk1, -, hcx⟩ |
            ⟨hk1, -, hcx⟩ | ⟨hk1, -, hcx⟩ | ⟨hk1, -, hcx⟩ <;> rw [hk1] at he
          · exact hc hcx
          · exact absurd he (by decide)
          · exact absurd he (by decide)
          · exact absurd he (by decide)
          · exact absurd he (by decide)
          · exact absurd he (by decide)
        rw [urlQueryLoop_preserves hM hnone]
        rw [if_pos (not_not.mp hc)]
        exact mapGet_three (by decide) (by decide) (by decide)
    · -- log
      by_cases hc : p.logFlags ≠ 0
      · have hmem : ((str "log" : Str), ([natToStr p.logFlags] : List Str)) ∈
            (if p.database ≠ [] then [(str "database", [p.database])] else []) ++
            (if p.logFlags ≠ 0 then [(str "log", [natToStr p.logFlags])] else []) ++
            (if p.columnEncryption = true then [(str "columnEncryption", [str "true"])] else []) ++
            (if p.keyStoreAuthentication ≠ [] then
              [(str "keyStoreAuthentication", [p.keyStoreAuthentication])] else []) ++
            (if p.keyStoreLocation ≠ [] then
              [(str "keyStoreLocation", [p.keyStoreLocation])] else []) ++
            (if p.keyStoreSecret ≠ [] then
              [(str "keyStoreSecret", [p.keyStoreSecret])] else []) :=
          (List.mem_append.mpr (Or.inl (List.mem_append.mpr (Or.inl (List.mem_append.mpr (Or.inl (List.mem_append.mpr (Or.inl (List.mem_append.mpr (Or.inr (mem_ite_singleton_of _ hc)))))))))))
        have hmemvs := hperm.mem_iff.mpr hmem
        have hget := urlQueryLoop_mapGet hM hmemvs (huniq _ _ hmemvs)
        rw [show goToLower (str "log") = str "log" from by decide] at hget
        rw [if_neg (show ¬ p.logFlags = 0 from hc)]
        exact hget
      · have hnone : ∀ kv ∈ (sortStrs
          ((((if p.database ≠ [] then [(str "database", [p.database])] else []) ++
          (if p.logFlags ≠ 0 then [(str "log", [natToStr p.logFlags])] else []) ++
          (if p.columnEncryption = true then [(str "columnEncryption", [str "true"])] else []) ++
          (if p.keyStoreAuthentication ≠ [] then
            [(str "keyStoreAuthentication", [p.keyStoreAuthentication])] else []) ++
          (if p.keyStoreLocation ≠ [] then
            [(str "keyStoreLocation", [p.keyStoreLocation])] else []) ++
          (if p.keyStoreSecret ≠ [] then
            [(str "keyStoreSecret", [p.keyStoreSecret])] else [])).map Prod.fst))).map
          (fun k => (k, valuesGet
            ((if p.database ≠ [] then [(str "database", [p.database])] else []) ++
            (if p.logFlags ≠ 0 then [(str "log", [natToStr p.logFlags])] else []) ++
            (if p.columnEncryption = true then [(str "columnEncryption", [str "true"])] else []) ++
            (if p.keyStoreAuthentication ≠ [] then
              [(str "keyStoreAuthentication", [p.keyStoreAuthentication])] else []) ++
            (if p.keyStoreLocation ≠ [] then
              [(str "keyStoreLocation", [p.keyStoreLocation])] else []) ++
            (if p.keyStoreSecret ≠ [] then
              [(str "keyStoreSecret", [p.keyStoreSecret])] else [])) k)),
          goToLower kv.1 ≠ str "log" := by
          intro kv h he
          rcases hclassvs kv h with ⟨hk1, -, hcx⟩ | ⟨hk1, -, hcx⟩ | ⟨hk1, -, hcx⟩ |
            ⟨hk1, -, hcx⟩ | ⟨hk1, -, hcx⟩ | ⟨hk1, -, hcx⟩ <;> rw [hk1] at he
          · exact absurd he (by decide)
          · exact hc hcx
          · exact absurd he (by decide)
          · exact absurd he (by decide)
          · exact absurd he (by decide)
          · exact absurd he (by decide)
        rw [urlQueryLoop_preserves hM hnone]
        rw [if_pos (not_not.mp hc)]
        exact mapGet_three (by decide) (by decide) (by decide)
    · -- columnEncryption
      by_cases hc : p.columnEncryption = true
      · have hmem : ((str "columnEncryption" : Str), ([str "true"] : List Str)) ∈
            (if p.database ≠ [] then [(str "database", [p.database])] else []) ++
            (if p.logFlags ≠ 0 then [(str "log", [natToStr p.logFlags])] else []) ++
            (if p.columnEncryption = true then [(str "columnEncryption", [str "true"])] else []) ++
            (if p.keyStoreAuthentication ≠ [] then
              [(str "keyStoreAuthentication", [p.keyStoreAuthentication])] else []) ++
            (if p.keyStoreLocation ≠ [] then
              [(str "keyStoreLocation", [p.keyStoreLocation])] else []) ++
            (if p.keyStoreSecret ≠ [] then
              [(str "keyStoreSecret", [p.keyStoreSecret])] else []) :=
          (List.mem_append.mpr (Or.inl (List.mem_append.mpr (Or.inl (List.mem_append.mpr (Or.inl (List.mem_append.mpr (Or.inr (mem_ite_singleton_of _ hc)))))))))
        have hmemvs := hperm.mem_iff.mpr hmem
        have hget := urlQueryLoop_mapGet hM hmemvs (huniq _ _ hmemvs)
        rw [show goToLower (str "columnEncryption") = str "columnencryption" from by decide] at hget
        rw [if_pos hc]
        exact hget
      · have hnone : ∀ kv ∈ (sortStrs
          ((((if p.database ≠ [] then [(str "database", [p.database])] else []) ++
          (if p.logFlags ≠ 0 then [(str "log", [natToStr p.logFlags])] else []) ++
          (if p.columnEncryption = true then [(str "columnEncryption", [str "true"])] else []) ++
          (if p.keyStoreAuthentication ≠ [] then
            [(str "keyStoreAuthentication", [p.keyStoreAuthentication])] else []) ++
          (if p.keyStoreLocation ≠ [] then
            [(str "keyStoreLocation", [p.keyStoreLocation])] else []) ++
          (if p.keyStoreSecret ≠ [] then
            [(str "keyStoreSecret", [p.keyStoreSecret])] else [])).map Prod.fst))).map
          (fun k => (k, valuesGet
            ((if p.database ≠ [] then [(str "database", [p.database])] else []) ++
            (if p.logFlags ≠ 0 then [(str "log", [natToStr p.logFlags])] else []) ++
            (if p.columnEncryption = true then [(str "columnEncryption", [str "true"])] else []) ++
            (if p.keyStoreAuthentication ≠ [] then
              [(str "keyStoreAuthentication", [p.keyStoreAuthentication])] else []) ++
            (if p.keyStoreLocation ≠ [] then
              [(str "keyStoreLocation", [p.keyStoreLocation])] else []) ++
            (if p.keyStoreSecret ≠ [] then
              [(str "keyStoreSecret", [p.keyStoreSecret])] else [])) k)),
          goToLower kv.1 ≠ str "columnencryption" := by
          intro kv h he
          rcases hclassvs kv h with ⟨hk1, -, hcx⟩ | ⟨hk1, -, hcx⟩ | ⟨hk1, -, hcx⟩ |
            ⟨hk1, -, hcx⟩ | ⟨hk1, -, hcx⟩ | ⟨hk1, -, hcx⟩ <;> rw [hk1] at he
          · exact absurd he (by decide)
          · exact absurd he (by decide)
          · exact hc hcx
          · exact absurd he (by decide)
          · exact absurd he (by decide)
          · exact absurd he (by decide)
        rw [urlQueryLoop_preserves hM hnone]
        rw [if_neg hc]
        exact mapGet_three (by decide) (by decide) (by decide)
    · -- keyStoreAuthentication
      by_cases hc : p.keyStoreAuthentication ≠ []
      · have hmem : ((str "keyStoreAuthentication" : Str), ([p.keyStoreAuthentication] : List Str)) ∈
            (if p.database ≠ [] then [(str "database", [p.database])] else []) ++
            (if p.logFlags ≠ 0 then [(str "log", [natToStr p.logFlags])] else []) ++
            (if p.columnEncryption = true then [(str "columnEncryption", [str "true"])] else []) ++
            (if p.keyStoreAuthentication ≠ [] then
              [(str "keyStoreAuthentication", [p.keyStoreAuthentication])] else []) ++
            (if p.keyStoreLocation ≠ [] then
              [(str "keyStoreLocation", [p.keyStoreLocation])] else []) ++
            (if p.keyStoreSecret ≠ [] then
              [(str "keyStoreSecret", [p.keyStoreSecret])] else []) :=
          (List.mem_append.mpr (Or.inl (List.mem_append.mpr (Or.inl (List.mem_append.mpr (Or.inr (mem_ite_singleton_of _ hc)))))))
        have hmemvs := hperm.mem_iff.mpr hmem
        have hget := urlQueryLoop_mapGet hM hmemvs (huniq _ _ hmemvs)
        rw [show goToLower (str "keyStoreAuthentication") = str "keystoreauthentication" from by decide] at hget
        rw [if_neg (show ¬ p.keyStoreAuthentication = [] from hc)]
        exact hget
      · have hnone : ∀ kv ∈ (sortStrs
          ((((if p.database ≠ [] then [(str "database", [p.database])] else []) ++
          (if p.logFlags ≠ 0 then [(str "log", [natToStr p.logFlags])] else []) ++
          (if p.columnEncryption = true then [(str "columnEncryption", [str "true"])] else []) ++
          (if p.keyStoreAuthentication ≠ [] then
            [(str "keyStoreAuthentication", [p.keyStoreAuthentication])] else []) ++
          (if p.keyStoreLocation ≠ [] then
            [(str "keyStoreLocation", [p.keyStoreLocation])] else []) ++
          (if p.keyStoreSecret ≠ [] then
            [(str "keyStoreSecret", [p.keyStoreSecret])] else [])).map Prod.fst))).map
          (fun k => (k, valuesGet
            ((if p.database ≠ [] then [(str "database", [p.database])] else []) ++
            (if p.logFlags ≠ 0 then [(str "log", [natToStr p.logFlags])] else []) ++
            (if p.columnEncryption = true then [(str "columnEncryption", [str "true"])] else []) ++
            (if p.keyStoreAuthentication ≠ [] then
              [(str "keyStoreAuthentication", [p.keyStoreAuthentication])] else []) ++
            (if p.keyStoreLocation ≠ [] then
              [(str "keyStoreLocation", [p.keyStoreLocation])] else []) ++
            (if p.keyStoreSecret ≠ [] then
              [(str "keyStoreSecret", [p.keyStoreSecret])] else [])) k)),
          goToLower kv.1 ≠ str "keystoreauthentication" := by
          intro kv h he
          rcases hclassvs kv h with ⟨hk1, -, hcx⟩ | ⟨hk1, -, hcx⟩ | ⟨hk1, -, hcx⟩ |
            ⟨hk1, -, hcx⟩ | ⟨hk1, -, hcx⟩ | ⟨hk1, -, hcx⟩ <;> rw [hk1] at he
          · exact absurd he (by decide)
          · exact absurd he (by decide)
          · exact absurd he (by decide)
          · exact hc hcx
          · exact absurd he (by decide)
          · exact absurd he (by decide)
        rw [urlQueryLoop_preserves hM hnone]
        rw [if_pos (not_not.mp hc)]
        exact mapGet_three (by decide) (by decide) (by decide)
    · -- keyStoreLocation
      by_cases hc : p.keyStoreLocation ≠ []
      · have hmem : ((str "keyStoreLocation" : Str), ([p.keyStoreLocation] : List Str)) ∈
            (if p.database ≠ [] then [(str "database", [p.database])] else []) ++
            (if p.logFlags ≠ 0 then [(str "log", [natToStr p.logFlags])] else []) ++
            (if p.columnEncryption = true then [(str "columnEncryption", [str "true"])] else []) ++
            (if p.keyStoreAuthentication ≠ [] then
              [(str "keyStoreAuthentication", [p.keyStoreAuthentication])] else []) ++
            (if p.keyStoreLocation ≠ [] then
              [(str "keyStoreLocation", [p.keyStoreLocation])] else []) ++
            (if p.keyStoreSecret ≠ [] then
              [(str "keyStoreSecret", [p.keyStoreSecret])] else []) :=
          (List.mem_append.mpr (Or.inl (List.mem_append.mpr (Or.inr (mem_ite_singleton_of _ hc)))))
        have hmemvs := hperm.mem_iff.mpr hmem
        have hget := urlQueryLoop_mapGet hM hmemvs (huniq _ _ hmemvs)
        rw [show goToLower (str "keyStoreLocation") = str "keystorelocation" from by decide] at hget
        rw [if_neg (show ¬ p.keyStoreLocation = [] from hc)]
        exact hget
      · have hnone : ∀ kv ∈ (sortStrs
          ((((if p.database ≠ [] then [(str "database", [p.database])] else []) ++
          (if p.logFlags ≠ 0 then [(str "log", [natToStr p.logFlags])] else []) ++
          (if p.columnEncryption = true then [(str "columnEncryption", [str "true"])] else []) ++
          (if p.keyStoreAuthentication ≠ [] then
            [(str "keyStoreAuthentication", [p.keyStoreAuthentication])] else []) ++
          (if p.keyStoreLocation ≠ [] then
            [(str "keyStoreLocation", [p.keyStoreLocation])] else []) ++
          (if p.keyStoreSecret ≠ [] then
            [(str "keyStoreSecret", [p.keyStoreSecret])] else [])).map Prod.fst))).map
          (fun k => (k, valuesGet
            ((if p.database ≠ [] then [(str "database", [p.database])] else []) ++
            (if p.logFlags ≠ 0 then [(str "log", [natToStr p.logFlags])] else []) ++
            (if p.columnEncryption = true then [(str "columnEncryption", [str "true"])] else []) ++
            (if p.keyStoreAuthentication ≠ [] then
              [(str "keyStoreAuthentication", [p.keyStoreAuthentication])] else []) ++
            (if p.keyStoreLocation ≠ [] then
              [(str "keyStoreLocation", [p.keyStoreLocation])] else []) ++
            (if p.keyStoreSecret ≠ [] then
              [(str "keyStoreSecret", [p.keyStoreSecret])] else [])) k)),
          goToLower kv.1 ≠ str "keystorelocation" := by
          intro kv h he
          rcases hclassvs kv h with ⟨hk1, -, hcx⟩ | ⟨hk1, -, hcx⟩ | ⟨hk1, -, hcx⟩ |
            ⟨hk1, -, hcx⟩ | ⟨hk1, -, hcx⟩ | ⟨hk1, -, hcx⟩ <;> rw [hk1] at he
          · exact absurd he (by decide)
          · exact absurd he (by decide)
          · exact absurd he (by decide)
          · exact absurd he (by decide)
          · exact hc hcx
          · exact absurd he (by decide)
        rw [urlQueryLoop_preserves hM hnone]
        rw [if_pos (not_not.mp hc)]
        exact mapGet_three (by decide) (by decide) (by decide)
    · -- keyStoreSecret
      by_cases hc : p.keyStoreSecret ≠ []
      · have hmem : ((str "keyStoreSecret" : Str), ([p.keyStoreSecret] : List Str)) ∈
            (if p.database ≠ [] then [(str "database", [p.database])] else []) ++
            (if p.logFlags ≠ 0 then [(str "log", [natToStr p.logFlags])] else []) ++
            (if p.columnEncryption = true then [(str "columnEncryption", [str "true"])] else []) ++
            (if p.keyStoreAuthentication ≠ [] then
              [(str "keyStoreAuthentication", [p.keyStoreAuthentication])] else []) ++
            (if p.keyStoreLocation ≠ [] then
              [(str "keyStoreLocation", [p.keyStoreLocation])] else []) ++
            (if p.keyStoreSecret ≠ [] then
              [(str "keyStoreSecret", [p.keyStoreSecret])] else []) :=
          (List.mem_append.mpr (Or.inr (mem_ite_singleton_of _ hc)))
        have hmemvs := hperm.mem_iff.mpr hmem
        have hget := urlQueryLoop_mapGet hM hmemvs (huniq _ _ hmemvs)
        rw [show goToLower (str "keyStoreSecret") = str "keystoresecret" from by decide] at hget
        rw [if_neg (show ¬ p.keyStoreSecret = [] from hc)]
        exact hget
      · have hnone : ∀ kv ∈ (sortStrs
          ((((if p.database ≠ [] then [(str "database", [p.database])] else []) ++
          (if p.logFlags ≠ 0 then [(str "log", [natToStr p.logFlags])] else []) ++
          (if p.columnEncryption = true then [(str "columnEncryption", [str "true"])] else []) ++
          (if p.keyStoreAuthentication ≠ [] then
            [(str "keyStoreAuthentication", [p.keyStoreAuthentication])] else []) ++
          (if p.keyStoreLocation ≠ [] then
            [(str "keyStoreLocation", [p.keyStoreLocation])] else []) ++
          (if p.keyStoreSecret ≠ [] then
            [(str "keyStoreSecret", [p.keyStoreSecret])] else [])).map Prod.fst))).map
          (fun k => (k, valuesGet
            ((if p.database ≠ [] then [(str "database", [p.database])] else []) ++
            (if p.logFlags ≠ 0 then [(str "log", [natToStr p.logFlags])] else []) ++
            (if p.columnEncryption = true then [(str "columnEncryption", [str "true"])] else []) ++
            (if p.keyStoreAuthentication ≠ [] then
              [(str "keyStoreAuthentication", [p.keyStoreAuthentication])] else []) ++
            (if p.keyStoreLocation ≠ [] then
              [(str "keyStoreLocation", [p.keyStoreLocation])] else []) ++
            (if p.keyStoreSecret ≠ [] then
              [(str "keyStoreSecret", [p.keyStoreSecret])] else [])) k)),
          goToLower kv.1 ≠ str "keystoresecret" := by
          intro kv h he
          rcases hclassvs kv h with ⟨hk1, -, hcx⟩ | ⟨hk1, -, hcx⟩ | ⟨hk1, -, hcx⟩ |
            ⟨hk1, -, hcx⟩ | ⟨hk1, -, hcx⟩ | ⟨hk1, -, hcx⟩ <;> rw [hk1] at he
          · exact absurd he (by decide)
          · exact absurd he (by decide)
          · exact absurd he (by decide)
          · exact absurd he (by decide)
          · exact absurd he (by decide)
          · exact hc hcx
        rw [urlQueryLoop_preserves hM hnone]
        rw [if_pos (not_not.mp hc)]
        exact mapGet_three (by decide) (by decide) (by decide)
    · intro k0 hk0
      simp only [List.mem_cons, List.not_mem_nil, or_false] at hk0
      have hnone : ∀ kv ∈ (sortStrs
          ((((if p.database ≠ [] then [(str "database", [p.database])] else []) ++
          (if p.logFlags ≠ 0 then [(str "log", [natToStr p.logFlags])] else []) ++
          (if p.columnEncryption = true then [(str "columnEncryption", [str "true"])] else []) ++
          (if p.keyStoreAuthentication ≠ [] then
            [(str "keyStoreAuthentication", [p.keyStoreAuthentication])] else []) ++
          (if p.keyStoreLocation ≠ [] then
            [(str "keyStoreLocation", [p.keyStoreLocation])] else []) ++
          (if p.keyStoreSecret ≠ [] then
            [(str "keyStoreSecret", [p.keyStoreSecret])] else [])).map Prod.fst))).map
          (fun k => (k, valuesGet
            ((if p.database ≠ [] then [(str "database", [p.database])] else []) ++
            (if p.logFlags ≠ 0 then [(str "log", [natToStr p.logFlags])] else []) ++
            (if p.columnEncryption = true then [(str "columnEncryption", [str "true"])] else []) ++
            (if p.keyStoreAuthentication ≠ [] then
              [(str "keyStoreAuthentication", [p.keyStoreAuthentication])] else []) ++
            (if p.keyStoreLocation ≠ [] then
              [(str "keyStoreLocation", [p.keyStoreLocation])] else []) ++
            (if p.keyStoreSecret ≠ [] then
              [(str "keyStoreSecret", [p.keyStoreSecret])] else [])) k)),
          goToLower kv.1 ≠ k0 := by
        intro kv h he
        rcases hclassvs kv h with ⟨hk1, -, -⟩ | ⟨hk1, -, -⟩ | ⟨hk1, -, -⟩ | ⟨hk1, -, -⟩ |
          ⟨hk1, -, -⟩ | ⟨hk1, -, -⟩ <;> rw [hk1] at he <;>
          (rcases hk0 with rfl | rfl | rfl | rfl | rfl | rfl | rfl | rfl | rfl | rfl | rfl | rfl | rfl | rfl <;> exact absurd he (by decide))
      rw [urlQueryLoop_preserves hM hnone]
      rcases hk0 with rfl | rfl | rfl | rfl | rfl | rfl | rfl | rfl | rfl | rfl | rfl | rfl | rfl | rfl <;>
        exact mapGet_three (by decide) (by decide) (by decide)

end ConnStr
namespace ConnStr

/-- The tail of the resolver past `trustservercertificate` never modifies
the six query-carried fields. -/
lemma pureTail_fields (hn : Option Str) (M : RawParams) (x : connectParams) :
    (stepFailoverPartner M (stepAppName M (stepWorkstation hn M (stepServerSPN M
      (stepHostInCertificate M (stepCertificate M x)))))).database = x.database ∧
    (stepFailoverPartner M (stepAppName M (stepWorkstation hn M (stepServerSPN M
      (stepHostInCertificate M (stepCertificate M x)))))).logFlags = x.logFlags ∧
    (stepFailoverPartner M (stepAppName M (stepWorkstation hn M (stepServerSPN M
      (stepHostInCertificate M (stepCertificate M x)))))).columnEncryption =
      x.columnEncryption ∧
    (stepFailoverPartner M (stepAppName M (stepWorkstation hn M (stepServerSPN M
      (stepHostInCertificate M (stepCertificate M x)))))).keyStoreAuthentication =
      x.keyStoreAuthentication ∧
    (stepFailoverPartner M (stepAppName M (stepWorkstation hn M (stepServerSPN M
      (stepHostInCertificate M (stepCertificate M x)))))).keyStoreLocation =
      x.keyStoreLocation ∧
    (stepFailoverPartner M (stepAppName M (stepWorkstation hn M (stepServerSPN M
      (stepHostInCertificate M (stepCertificate M x)))))).keyStoreSecret =
      x.keyStoreSecret := by
  obtain ⟨-, -, d1, -, -, -, -, -, -, -, -, l1, -, c1, a1, kl1, ks1⟩ :=
    stepCertificate_frame M x
  obtain ⟨-, -, d2, -, -, -, -, -, -, l2, -, c2, a2, kl2, ks2⟩ :=
    stepHostInCertificate_frame M (stepCertificate M x)
  obtain ⟨-, -, d3, -, -, -, -, -, -, -, -, l3, -, c3, a3, kl3, ks3⟩ :=
    stepServerSPN_frame M (stepHostInCertificate M (stepCertificate M x))
  obtain ⟨-, -, d4, -, -, -, -, -, -, -, -, l4, -, c4, a4, kl4, ks4⟩ :=
    stepWorkstation_frame hn M (stepServerSPN M (stepHostInCertificate M (stepCertificate M x)))
  obtain ⟨-, -, d5, -, -, -, -, -, -, -, -, l5, -, c5, a5, kl5, ks5⟩ :=
    stepAppName_frame M (stepWorkstation hn M (stepServerSPN M (stepHostInCertificate M
      (stepCertificate M x))))
  obtain ⟨-, -, d6, -, -, -, -, -, -, -, -, l6, -, c6, a6, kl6, ks6⟩ :=
    stepFailoverPartner_frame M (stepAppName M (stepWorkstation hn M (stepServerSPN M
      (stepHostInCertificate M (stepCertificate M x)))))
  exact ⟨by rw [d6, d5, d4, d3, d2, d1], by rw [l6, l5, l4, l3, l2, l1],
    by rw [c6, c5, c4, c3, c2, c1], by rw [a6, a5, a4, a3, a2, a1],
    by rw [kl6, kl5, kl4, kl3, kl2, kl1], by rw [ks6, ks5, ks4, ks3, ks2, ks1]⟩

set_option maxHeartbeats 20000000 in
/-- Re-resolving a raw map carrying exactly the six serialized query
parameters reproduces those six fields. -/
lemma resolveParams_roundtrip {fe : Str → Bool} {hn : Option Str} {p : connectParams}
    {M : RawParams}
    (h1 : mapGet M (str "database") = (if p.database = [] then none else some p.database))
    (h2 : mapGet M (str "log") = (if p.logFlags = 0 then none else some (natToStr p.logFlags)))
    (h3 : mapGet M (str "columnencryption") =
      (if p.columnEncryption = true then some (str "true") else none))
    (h4 : mapGet M (str "keystoreauthentication") =
      (if p.keyStoreAuthentication = [] then none else some p.keyStoreAuthentication))
    (h5 : mapGet M (str "keystorelocation") =
      (if p.keyStoreLocation = [] then none else some p.keyStoreLocation))
    (h6 : mapGet M (str "keystoresecret") =
      (if p.keyStoreSecret = [] then none else some p.keyStoreSecret))
    (hnone : ∀ k0 ∈ [str "port", str "packet size", str "connection timeout",
      str "dial timeout", str "keepalive", str "encrypt", str "trustservercertificate",
      str "hostnameincertificate", str "serverspn", str "workstation id", str "app name",
      str "applicationintent", str "failoverpartner", str "failoverport"],
      mapGet M k0 = none)
    (hlog : p.logFlags ≤ maxUint64)
    (hksa : p.keyStoreAuthentication = [] ∨ p.keyStoreAuthentication = str "pfx")
    (hklfe : p.keyStoreLocation ≠ [] → fe p.keyStoreLocation = true) :
    ∃ p', resolveParams fe hn M = .ok p' ∧
      p'.database = p.database ∧ p'.logFlags = p.logFlags ∧
      p'.columnEncryption = p.columnEncryption ∧
      p'.keyStoreAuthentication = p.keyStoreAuthentication ∧
      p'.keyStoreLocation = p.keyStoreLocation ∧ p'.keyStoreSecret = p.keyStoreSecret := by
  have hdbD : mapGetD M (str "database") = p.database := by
    rw [mapGetD, h1]
    by_cases hd : p.database = []
    · rw [if_pos hd, hd]
      rfl
    · rw [if_neg hd]
      rfl
  have hksaC3 : (stepDatabaseUserPassword M (stepServer M ({ initParams with logFlags := p.logFlags }))).keyStoreAuthentication = ([] : Str) := by
    obtain ⟨-, -, -, -, -, -, -, -, -, -, -, ksA, -, -⟩ :=
      stepDatabaseUserPassword_frame M (stepServer M ({ initParams with logFlags := p.logFlags }))
    obtain ⟨-, -, -, -, -, -, -, -, -, -, -, -, ksB, -, -⟩ :=
      stepServer_frame M ({ initParams with logFlags := p.logFlags })
    exact ksA.trans (ksB.trans rfl)
  have hkslC3 : (stepDatabaseUserPassword M (stepServer M ({ initParams with logFlags := p.logFlags }))).keyStoreLocation = ([] : Str) := by
    obtain ⟨-, -, -, -, -, -, -, -, -, -, -, -, klA, -⟩ :=
      stepDatabaseUserPassword_frame M (stepServer M ({ initParams with logFlags := p.logFlags }))
    obtain ⟨-, -, -, -, -, -, -, -, -, -, -, -, -, klB, -⟩ :=
      stepServer_frame M ({ initParams with logFlags := p.logFlags })
    exact klA.trans (klB.trans rfl)
  have hkssC3 : (stepDatabaseUserPassword M (stepServer M ({ initParams with logFlags := p.logFlags }))).keyStoreSecret = ([] : Str) := by
    obtain ⟨-, -, -, -, -, -, -, -, -, -, -, -, -, ssA⟩ :=
      stepDatabaseUserPassword_frame M (stepServer M ({ initParams with logFlags := p.logFlags }))
    obtain ⟨-, -, -, -, -, -, -, -, -, -, -, -, -, -, ssB⟩ :=
      stepServer_frame M ({ initParams with logFlags := p.logFlags })
    exact ssA.trans (ssB.trans rfl)
  have hksstep : stepKeyStoreSecret M ({ { { { { { { { stepDatabaseUserPassword M (stepServer M ({ initParams with logFlags := p.logFlags })) with port := 0 } with packetSize := defaultPacketSize } with dial_timeout := 15 * nsPerSecond } with keepAlive := 30 * nsPerSecond } with trustServerCertificate := true } with columnEncryption := p.columnEncryption } with keyStoreAuthentication := p.keyStoreAuthentication } with keyStoreLocation := p.keyStoreLocation }) = ({ { { { { { { { { stepDatabaseUserPassword M (stepServer M ({ initParams with logFlags := p.logFlags })) with port := 0 } with packetSize := defaultPacketSize } with dial_timeout := 15 * nsPerSecond } with keepAlive := 30 * nsPerSecond } with trustServerCertificate := true } with columnEncryption := p.columnEncryption } with keyStoreAuthentication := p.keyStoreAuthentication } with keyStoreLocation := p.keyStoreLocation } with keyStoreSecret := p.keyStoreSecret }) := by
    unfold stepKeyStoreSecret
    rw [h6]
    by_cases hks : p.keyStoreSecret = []
    · rw [if_pos hks]
      exact congrArg (fun z => { ({ { { { { { { { stepDatabaseUserPassword M (stepServer M ({ initParams with logFlags := p.logFlags })) with port := 0 } with packetSize := defaultPacketSize } with dial_timeout := 15 * nsPerSecond } with keepAlive := 30 * nsPerSecond } with trustServerCertificate := true } with columnEncryption := p.columnEncryption } with keyStoreAuthentication := p.keyStoreAuthentication } with keyStoreLocation := p.keyStoreLocation }) with keyStoreSecret := z }) (hkssC3.trans hks.symm)
    · rw [if_neg hks]
  have s1 : stepLog M initParams = .ok ({ initParams with logFlags := p.logFlags }) := by
    by_cases hlf : p.logFlags = 0
    · refine stepLog_ok.mpr (Or.inl ⟨by rw [h2, if_pos hlf], ?_⟩)
      rw [hlf]
      rfl
    · exact stepLog_ok.mpr (Or.inr ⟨natToStr p.logFlags, p.logFlags,
        by rw [h2, if_neg hlf], parseUint_natToStr hlog, rfl⟩)
  have s8 : stepColumnEncryption M ({ { { { { stepDatabaseUserPassword M (stepServer M ({ initParams with logFlags := p.logFlags })) with port := 0 } with packetSize := defaultPacketSize } with dial_timeout := 15 * nsPerSecond } with keepAlive := 30 * nsPerSecond } with trustServerCertificate := true }) = .ok ({ { { { { { stepDatabaseUserPassword M (stepServer M ({ initParams with logFlags := p.logFlags })) with port := 0 } with packetSize := defaultPacketSize } with dial_timeout := 15 * nsPerSecond } with keepAlive := 30 * nsPerSecond } with trustServerCertificate := true } with columnEncryption := p.columnEncryption }) := by
    by_cases hce : p.columnEncryption = true
    · exact stepColumnEncryption_ok.mpr (Or.inr (Or.inl ⟨str "true",
        by rw [h3, if_pos hce], by decide, by rw [hce]⟩))
    · have hce' : p.columnEncryption = false := by
        revert hce
        cases p.columnEncryption <;> simp
      refine stepColumnEncryption_ok.mpr (Or.inl ⟨?_, by rw [hce']⟩)
      rw [h3, hce']
      rfl
  have s9 : stepKeyStoreAuth M ({ { { { { { stepDatabaseUserPassword M (stepServer M ({ initParams with logFlags := p.logFlags })) with port := 0 } with packetSize := defaultPacketSize } with dial_timeout := 15 * nsPerSecond } with keepAlive := 30 * nsPerSecond } with trustServerCertificate := true } with columnEncryption := p.columnEncryption }) = .ok ({ { { { { { { stepDatabaseUserPassword M (stepServer M ({ initParams with logFlags := p.logFlags })) with port := 0 } with packetSize := defaultPacketSize } with dial_timeout := 15 * nsPerSecond } with keepAlive := 30 * nsPerSecond } with trustServerCertificate := true } with columnEncryption := p.columnEncryption } with keyStoreAuthentication := p.keyStoreAuthentication }) := by
    by_cases hka : p.keyStoreAuthentication = []
    · refine stepKeyStoreAuth_ok.mpr (Or.inl ⟨by rw [h4, if_pos hka], ?_⟩)
      exact congrArg (fun z => { ({ { { { { { stepDatabaseUserPassword M (stepServer M ({ initParams with logFlags := p.logFlags })) with port := 0 } with packetSize := defaultPacketSize } with dial_timeout := 15 * nsPerSecond } with keepAlive := 30 * nsPerSecond } with trustServerCertificate := true } with columnEncryption := p.columnEncryption }) with keyStoreAuthentication := z })
        (hksaC3.trans hka.symm)
    · rcases hksa with hx | hpfx
      · exact absurd hx hka
      · exact stepKeyStoreAuth_ok.mpr (Or.inr ⟨p.keyStoreAuthentication,
          by rw [h4, if_neg hka], by rw [hpfx]; decide, by rw [hpfx]⟩)
  have s10 : stepKeyStoreLocation fe M ({ { { { { { { stepDatabaseUserPassword M (stepServer M ({ initParams with logFlags := p.logFlags })) with port := 0 } with packetSize := defaultPacketSize } with dial_timeout := 15 * nsPerSecond } with keepAlive := 30 * nsPerSecond } with trustServerCertificate := true } with columnEncryption := p.columnEncryption } with keyStoreAuthentication := p.keyStoreAuthentication }) = .ok ({ { { { { { { { stepDatabaseUserPassword M (stepServer M ({ initParams with logFlags := p.logFlags })) with port := 0 } with packetSize := defaultPacketSize } with dial_timeout := 15 * nsPerSecond } with keepAlive := 30 * nsPerSecond } with trustServerCertificate := true } with columnEncryption := p.columnEncryption } with keyStoreAuthentication := p.keyStoreAuthentication } with keyStoreLocation := p.keyStoreLocation }) := by
    by_cases hkl : p.keyStoreLocation = []
    · refine stepKeyStoreLocation_ok.mpr (Or.inl ⟨by rw [h5, if_pos hkl], ?_⟩)
      exact congrArg (fun z => { ({ { { { { { { stepDatabaseUserPassword M (stepServer M ({ initParams with logFlags := p.logFlags })) with port := 0 } with packetSize := defaultPacketSize } with dial_timeout := 15 * nsPerSecond } with keepAlive := 30 * nsPerSecond } with trustServerCertificate := true } with columnEncryption := p.columnEncryption } with keyStoreAuthentication := p.keyStoreAuthentication }) with keyStoreLocation := z })
        (hkslC3.trans hkl.symm)
    · exact stepKeyStoreLocation_ok.mpr (Or.inr ⟨p.keyStoreLocation,
        by rw [h5, if_neg hkl], hkl, hklfe hkl, rfl⟩)
  refine ⟨stepFailoverPartner M (stepAppName M (stepWorkstation hn M (stepServerSPN M (stepHostInCertificate M (stepCertificate M ({ { { { { { { { { stepDatabaseUserPassword M (stepServer M ({ initParams with logFlags := p.logFlags })) with port := 0 } with packetSize := defaultPacketSize } with dial_timeout := 15 * nsPerSecond } with keepAlive := 30 * nsPerSecond } with trustServerCertificate := true } with columnEncryption := p.columnEncryption } with keyStoreAuthentication := p.keyStoreAuthentication } with keyStoreLocation := p.keyStoreLocation } with keyStoreSecret := p.keyStoreSecret })))))), ?_, ?_, ?_, ?_, ?_, ?_, ?_⟩
  · refine resolveParams_ok.mpr ⟨{ initParams with logFlags := p.logFlags }, { stepDatabaseUserPassword M (stepServer M ({ initParams with logFlags := p.logFlags })) with port := 0 }, { { stepDatabaseUserPassword M (stepServer M ({ initParams with logFlags := p.logFlags })) with port := 0 } with packetSize := defaultPacketSize }, { { stepDatabaseUserPassword M (stepServer M ({ initParams with logFlags := p.logFlags })) with port := 0 } with packetSize := defaultPacketSize }, { { { stepDatabaseUserPassword M (stepServer M ({ initParams with logFlags := p.logFlags })) with port := 0 } with packetSize := defaultPacketSize } with dial_timeout := 15 * nsPerSecond }, { { { { stepDatabaseUserPassword M (stepServer M ({ initParams with logFlags := p.logFlags })) with port := 0 } with packetSize := defaultPacketSize } with dial_timeout := 15 * nsPerSecond } with keepAlive := 30 * nsPerSecond }, { { { { { stepDatabaseUserPassword M (stepServer M ({ initParams with logFlags := p.logFlags })) with port := 0 } with packetSize := defaultPacketSize } with dial_timeout := 15 * nsPerSecond } with keepAlive := 30 * nsPerSecond } with trustServerCertificate := true }, { { { { { { stepDatabaseUserPassword M (stepServer M ({ initParams with logFlags := p.logFlags })) with port := 0 } with packetSize := defaultPacketSize } with dial_timeout := 15 * nsPerSecond } with keepAlive := 30 * nsPerSecond } with trustServerCertificate := true } with columnEncryption := p.columnEncryption }, { { { { { { { stepDatabaseUserPassword M (stepServer M ({ initParams with logFlags := p.logFlags })) with port := 0 } with packetSize := defaultPacketSize } with dial_timeout := 15 * nsPerSecond } with keepAlive := 30 * nsPerSecond } with trustServerCertificate := true } with columnEncryption := p.columnEncryption } with keyStoreAuthentication := p.keyStoreAuthentication },
      { { { { { { { { stepDatabaseUserPassword M (stepServer M ({ initParams with logFlags := p.logFlags })) with port := 0 } with packetSize := defaultPacketSize } with dial_timeout := 15 * nsPerSecond } with keepAlive := 30 * nsPerSecond } with trustServerCertificate := true } with columnEncryption := p.columnEncryption } with keyStoreAuthentication := p.keyStoreAuthentication } with keyStoreLocation := p.keyStoreLocation }, { { { { { { { { { stepDatabaseUserPassword M (stepServer M ({ initParams with logFlags := p.logFlags })) with port := 0 } with packetSize := defaultPacketSize } with dial_timeout := 15 * nsPerSecond } with keepAlive := 30 * nsPerSecond } with trustServerCertificate := true } with columnEncryption := p.columnEncryption } with keyStoreAuthentication := p.keyStoreAuthentication } with keyStoreLocation := p.keyStoreLocation } with keyStoreSecret := p.keyStoreSecret }, stepAppName M (stepWorkstation hn M (stepServerSPN M (stepHostInCertificate M (stepCertificate M ({ { { { { { { { { stepDatabaseUserPassword M (stepServer M ({ initParams with logFlags := p.logFlags })) with port := 0 } with packetSize := defaultPacketSize } with dial_timeout := 15 * nsPerSecond } with keepAlive := 30 * nsPerSecond } with trustServerCertificate := true } with columnEncryption := p.columnEncryption } with keyStoreAuthentication := p.keyStoreAuthentication } with keyStoreLocation := p.keyStoreLocation } with keyStoreSecret := p.keyStoreSecret }))))), s1, ?_, ?_, ?_, ?_, ?_, ?_, s8, s9, s10, ?_, ?_, ?_⟩
    · exact stepPort_ok.mpr (Or.inl ⟨hnone (str "port") (by decide), rfl⟩)
    · exact stepPacketSize_ok.mpr (Or.inl ⟨hnone (str "packet size") (by decide), rfl⟩)
    · exact stepConnTimeout_ok.mpr (Or.inl ⟨hnone (str "connection timeout") (by decide), rfl⟩)
    · exact stepDialTimeout_ok.mpr (Or.inl ⟨hnone (str "dial timeout") (by decide), rfl⟩)
    · exact stepKeepAlive_ok.mpr (Or.inl ⟨hnone (str "keepalive") (by decide), rfl⟩)
    · exact stepEncrypt_ok.mpr (Or.inl ⟨hnone (str "encrypt") (by decide), rfl⟩)
    · rw [hksstep]
      exact stepTrust_ok.mpr (Or.inl ⟨hnone (str "trustservercertificate") (by decide), rfl⟩)
    · exact stepAppIntent_ok.mpr (Or.inl ⟨hnone (str "applicationintent") (by decide), rfl⟩)
    · exact stepFailoverPort_ok.mpr (Or.inl ⟨hnone (str "failoverport") (by decide), rfl⟩)
  · exact ((pureTail_fields hn M ({ { { { { { { { { stepDatabaseUserPassword M (stepServer M ({ initParams with logFlags := p.logFlags })) with port := 0 } with packetSize := defaultPacketSize } with dial_timeout := 15 * nsPerSecond } with keepAlive := 30 * nsPerSecond } with trustServerCertificate := true } with columnEncryption := p.columnEncryption } with keyStoreAuthentication := p.keyStoreAuthentication } with keyStoreLocation := p.keyStoreLocation } with keyStoreSecret := p.keyStoreSecret })).1).trans hdbD
  · refine ((pureTail_fields hn M ({ { { { { { { { { stepDatabaseUserPassword M (stepServer M ({ initParams with logFlags := p.logFlags })) with port := 0 } with packetSize := defaultPacketSize } with dial_timeout := 15 * nsPerSecond } with keepAlive := 30 * nsPerSecond } with trustServerCertificate := true } with columnEncryption := p.columnEncryption } with keyStoreAuthentication := p.keyStoreAuthentication } with keyStoreLocation := p.keyStoreLocation } with keyStoreSecret := p.keyStoreSecret })).2.1).trans ?_
    show (stepDatabaseUserPassword M (stepServer M ({ initParams with logFlags := p.logFlags }))).logFlags = p.logFlags
    obtain ⟨-, -, -, -, -, -, -, -, lfA, -, -, -, -, -⟩ :=
      stepDatabaseUserPassword_frame M (stepServer M ({ initParams with logFlags := p.logFlags }))
    obtain ⟨-, -, -, -, -, -, -, -, -, lfB, -, -, -, -, -⟩ :=
      stepServer_frame M ({ initParams with logFlags := p.logFlags })
    exact lfA.trans (lfB.trans rfl)
  · exact (pureTail_fields hn M ({ { { { { { { { { stepDatabaseUserPassword M (stepServer M ({ initParams with logFlags := p.logFlags })) with port := 0 } with packetSize := defaultPacketSize } with dial_timeout := 15 * nsPerSecond } with keepAlive := 30 * nsPerSecond } with trustServerCertificate := true } with columnEncryption := p.columnEncryption } with keyStoreAuthentication := p.keyStoreAuthentication } with keyStoreLocation := p.keyStoreLocation } with keyStoreSecret := p.keyStoreSecret })).2.2.1
  · exact (pureTail_fields hn M ({ { { { { { { { { stepDatabaseUserPassword M (stepServer M ({ initParams with logFlags := p.logFlags })) with port := 0 } with packetSize := defaultPacketSize } with dial_timeout := 15 * nsPerSecond } with keepAlive := 30 * nsPerSecond } with trustServerCertificate := true } with columnEncryption := p.columnEncryption } with keyStoreAuthentication := p.keyStoreAuthentication } with keyStoreLocation := p.keyStoreLocation } with keyStoreSecret := p.keyStoreSecret })).2.2.2.1
  · exact (pureTail_fields hn M ({ { { { { { { { { stepDatabaseUserPassword M (stepServer M ({ initParams with logFlags := p.logFlags })) with port := 0 } with packetSize := defaultPacketSize } with dial_timeout := 15 * nsPerSecond } with keepAlive := 30 * nsPerSecond } with trustServerCertificate := true } with columnEncryption := p.columnEncryption } with keyStoreAuthentication := p.keyStoreAuthentication } with keyStoreLocation := p.keyStoreLocation } with keyStoreSecret := p.keyStoreSecret })).2.2.2.2.1
  · exact (pureTail_fields hn M ({ { { { { { { { { stepDatabaseUserPassword M (stepServer M ({ initParams with logFlags := p.logFlags })) with port := 0 } with packetSize := defaultPacketSize } with dial_timeout := 15 * nsPerSecond } with keepAlive := 30 * nsPerSecond } with trustServerCertificate := true } with columnEncryption := p.columnEncryption } with keyStoreAuthentication := p.keyStoreAuthentication } with keyStoreLocation := p.keyStoreLocation } with keyStoreSecret := p.keyStoreSecret })).2.2.2.2.2

end ConnStr
namespace ConnStr

/-! ### The byte-level view of Go strings

A Go `string` is a byte slice. A `Str` in the byte-level view holds one
byte per element (each entry's code point is at most 255, a non-ASCII Go
string being given by its UTF-8 bytes); `isBytes` states that
well-formedness. In this view the percent-escaping layer of `net/url` is
modelled exactly: `escape` and `unescape` transform one element — one
byte — precisely as Go transforms one byte. -/

/-- Every element of the string is one byte (code point ≤ 255): the
well-formedness invariant of the byte-level view of a Go string. Every Go
string satisfies it through its UTF-8 bytes. -/
def isBytes (s : Str) : Prop := ∀ c ∈ s, c.toNat ≤ 255

instance (s : Str) : Decidable (isBytes s) := List.decidableBAll _ s

lemma isBytes_mono {s t : Str} (hsub : ∀ c ∈ t, c ∈ s) (h : isBytes s) : isBytes t :=
  fun c hc => h c (hsub c hc)

lemma isBytes_sub {s t : Str} (hsub : t ⊆ s) (h : isBytes s) : isBytes t :=
  fun c hc => h c (hsub hc)

lemma isBytes_nil : isBytes [] := fun c hc => absurd hc (List.not_mem_nil c)

lemma isBytes_append {s t : Str} (hs : isBytes s) (ht : isBytes t) : isBytes (s ++ t) := by
  intro c hc
  rcases List.mem_append.mp hc with h | h
  · exact hs c h
  · exact ht c h

lemma isBytes_cons {c : Char} {s : Str} (hc : c.toNat ≤ 255) (hs : isBytes s) :
    isBytes (c :: s) := by
  intro x hx
  rcases List.mem_cons.mp hx with rfl | h
  · exact hc
  · exact hs x h

lemma isBytes_reverse {s : Str} (h : isBytes s) : isBytes s.reverse :=
  isBytes_mono (fun c hc => List.mem_reverse.mp hc) h

/-! ### Substring lemmas for the splitting helpers -/

lemma splitAtFirst_subset {c : Char} {s a b : Str} (h : splitAtFirst c s = some (a, b)) :
    (∀ x ∈ a, x ∈ s) ∧ (∀ x ∈ b, x ∈ s) := by
  induction s generalizing a b with
  | nil => cases h
  | cons d t ih =>
    rw [splitAtFirst] at h
    by_cases hd : d = c
    · rw [if_pos hd] at h
      cases h
      exact ⟨fun x hx => absurd hx (List.not_mem_nil x),
        fun x hx => List.mem_cons_of_mem d hx⟩
    · rw [if_neg hd] at h
      cases hsp : splitAtFirst c t with
      | none => rw [hsp] at h; cases h
      | some p =>
        obtain ⟨p1, p2⟩ := p
        rw [hsp] at h
        cases h
        obtain ⟨h1, h2⟩ := ih hsp
        refine ⟨fun x hx => ?_, fun x hx => List.mem_cons_of_mem d (h2 x hx)⟩
        rcases List.mem_cons.mp hx with rfl | hx2
        · exact List.mem_cons_self x t
        · exact List.mem_cons_of_mem d (h1 x hx2)

lemma splitAtLast_subset {c : Char} {s a b : Str} (h : splitAtLast c s = some (a, b)) :
    (∀ x ∈ a, x ∈ s) ∧ (∀ x ∈ b, x ∈ s) := by
  unfold splitAtLast at h
  cases hsp : splitAtFirst c s.reverse with
  | none => rw [hsp] at h; cases h
  | some p =>
    obtain ⟨p1, p2⟩ := p
    rw [hsp] at h
    cases h
    obtain ⟨h1, h2⟩ := splitAtFirst_subset hsp
    constructor
    · intro x hx
      exact List.mem_reverse.mp (h2 x (List.mem_reverse.mp hx))
    · intro x hx
      exact List.mem_reverse.mp (h1 x (List.mem_reverse.mp hx))

lemma goSplitN2_snd_subset {c : Char} {s v : Str} (h : (goSplitN2 c s).2 = some v) :
    ∀ x ∈ v, x ∈ s := by
  unfold goSplitN2 at h
  cases hsp : splitAtFirst c s with
  | none => rw [hsp] at h; cases h
  | some p =>
    obtain ⟨p1, p2⟩ := p
    rw [hsp] at h
    cases h
    exact (splitAtFirst_subset hsp).2

lemma goSplitAux_subset {c : Char} {part : Str} :
    ∀ {s acc : Str}, part ∈ goSplitAux c s acc → ∀ x ∈ part, x ∈ s ∨ x ∈ acc := by
  intro s
  induction s with
  | nil =>
    intro acc hp x hx
    rw [goSplitAux] at hp
    rcases List.mem_singleton.mp hp with rfl
    exact Or.inr (List.mem_reverse.mp hx)
  | cons d t ih =>
    intro acc hp x hx
    rw [goSplitAux] at hp
    by_cases hd : d = c
    · rw [if_pos hd] at hp
      rcases List.mem_cons.mp hp with rfl | hp2
      · exact Or.inr (List.mem_reverse.mp hx)
      · rcases ih hp2 x hx with h | h
        · exact Or.inl (List.mem_cons_of_mem d h)
        · cases List.not_mem_nil x h
    · rw [if_neg hd] at hp
      rcases ih hp x hx with h | h
      · exact Or.inl (List.mem_cons_of_mem d h)
      · rcases List.mem_cons.mp h with rfl | h2
        · exact Or.inl (List.mem_cons_self x t)
        · exact Or.inr h2

lemma goSplit_subset {c : Char} {s part : Str} (hp : part ∈ goSplit c s) :
    ∀ x ∈ part, x ∈ s := by
  intro x hx
  rcases goSplitAux_subset hp x hx with h | h
  · exact h
  · cases List.not_mem_nil x h

lemma goTrimRight_subset (f : Char → Bool) (s : Str) : ∀ x ∈ goTrimRight f s, x ∈ s := by
  intro x hx
  unfold goTrimRight at hx
  exact List.mem_reverse.mp ((List.dropWhile_sublist f).subset (List.mem_reverse.mp hx))

lemma goTrimSpace_subset (s : Str) : ∀ x ∈ goTrimSpace s, x ∈ s := by
  intro x hx
  unfold goTrimSpace at hx
  have h1 : x ∈ (s.dropWhile goIsSpace).reverse.dropWhile goIsSpace := List.mem_reverse.mp hx
  have h2 : x ∈ (s.dropWhile goIsSpace).reverse := (List.dropWhile_sublist goIsSpace).subset h1
  exact (List.dropWhile_sublist goIsSpace).subset (List.mem_reverse.mp h2)

/-! ### Byte-boundedness of the raw maps produced by the tokenizers -/

/-- Every value of the raw map is a byte string. -/
def mapBytes (m : RawParams) : Prop := ∀ kv ∈ m, isBytes kv.2

lemma mapBytes_nil : mapBytes [] := fun kv hkv => absurd hkv (List.not_mem_nil kv)

lemma mapSet_mem {m : RawParams} {k v : Str} {kv : Str × Str} (h : kv ∈ mapSet m k v) :
    kv ∈ m ∨ kv = (k, v) := by
  induction m with
  | nil =>
    rw [mapSet] at h
    exact Or.inr (List.mem_singleton.mp h)
  | cons e t ih =>
    obtain ⟨k', v'⟩ := e
    rw [mapSet] at h
    by_cases hk : k' = k
    · rw [if_pos hk] at h
      rcases List.mem_cons.mp h with rfl | h2
      · exact Or.inr rfl
      · exact Or.inl (List.mem_cons_of_mem _ h2)
    · rw [if_neg hk] at h
      rcases List.mem_cons.mp h with rfl | h2
      · exact Or.inl (List.mem_cons_self _ _)
      · rcases ih h2 with h3 | h3
        · exact Or.inl (List.mem_cons_of_mem _ h3)
        · exact Or.inr h3

lemma mapBytes_mapSet {m : RawParams} {k v : Str} (hm : mapBytes m) (hv : isBytes v) :
    mapBytes (mapSet m k v) := by
  intro kv hkv
  rcases mapSet_mem hkv with h | rfl
  · exact hm kv h
  · exact hv

lemma mapGet_mem {m : RawParams} {k v : Str} (h : mapGet m k = some v) : (k, v) ∈ m := by
  induction m with
  | nil => cases h
  | cons e t ih =>
    obtain ⟨k', v'⟩ := e
    rw [mapGet] at h
    by_cases hk : k' = k
    · rw [if_pos hk] at h
      cases h
      subst hk
      exact List.mem_cons_self _ _
    · rw [if_neg hk] at h
      exact List.mem_cons_of_mem _ (ih h)

lemma mapGet_isBytes {m : RawParams} {k v : Str} (hm : mapBytes m) (h : mapGet m k = some v) :
    isBytes v :=
  hm (k, v) (mapGet_mem h)

/-! #### The semicolon tokenizer -/

lemma splitConnectionStringPart_bytes {res : RawParams} {part : Str}
    (hres : mapBytes res) (hpart : isBytes part) :
    mapBytes (splitConnectionStringPart res part) := by
  unfold splitConnectionStringPart
  by_cases h1 : part = []
  · rw [if_pos h1]
    exact hres
  · rw [if_neg h1]
    dsimp only
    by_cases h2 : goTrimSpace (goToLower (goSplitN2 '=' part).1) = []
    · rw [if_pos h2]
      exact hres
    · rw [if_neg h2]
      apply mapBytes_mapSet hres
      cases hsp : (goSplitN2 '=' part).2 with
      | none => exact isBytes_nil
      | some v =>
        exact isBytes_mono (fun x hx => goSplitN2_snd_subset hsp x (goTrimSpace_subset v x hx))
          hpart

lemma splitConnectionString_fold_bytes {parts : List Str} :
    ∀ {res : RawParams}, mapBytes res → (∀ part ∈ parts, isBytes part) →
      mapBytes (parts.foldl splitConnectionStringPart res) := by
  induction parts with
  | nil => intro res hres _; exact hres
  | cons a t ih =>
    intro res hres hp
    rw [List.foldl_cons]
    exact ih (splitConnectionStringPart_bytes hres (hp a (List.mem_cons_self a t)))
      (fun q hq => hp q (List.mem_cons_of_mem a hq))

lemma splitConnectionString_bytes {dsn : Str} (h : isBytes dsn) :
    mapBytes (splitConnectionString dsn) := by
  unfold splitConnectionString
  exact splitConnectionString_fold_bytes mapBytes_nil
    (fun part hp => isBytes_mono (goSplit_subset hp) h)

/-! #### The ODBC tokenizer -/

lemma odbcStep_bytes {i : Nat} {c : Char} {a b : OdbcAcc} (hc : c.toNat ≤ 255)
    (hres : mapBytes a.res) (hval : isBytes a.value)
    (h : odbcStep i c a = .ok b) : mapBytes b.res ∧ isBytes b.value := by
  obtain ⟨res, key, value, state⟩ := a
  dsimp only at hres hval
  cases state <;> rw [odbcStep] at h <;> dsimp only at h
  case beforeKey =>
    split at h
    · cases h
    · split at h
      · cases h
        exact ⟨hres, hval⟩
      · cases h
        exact ⟨hres, hval⟩
  case key =>
    split at h
    · cases h
      exact ⟨hres, hval⟩
    · split at h
      · cases h
        exact ⟨mapBytes_mapSet hres hval, isBytes_nil⟩
      · cases h
        exact ⟨hres, hval⟩
  case beginValue =>
    split at h
    · cases h
      exact ⟨hres, hval⟩
    · split at h
      · cases h
        exact ⟨mapBytes_mapSet hres hval, hval⟩
      · split at h
        · cases h
          exact ⟨hres, hval⟩
        · cases h
          exact ⟨hres, isBytes_append hval (isBytes_cons hc isBytes_nil)⟩
  case bareValue =>
    split at h
    · cases h
      exact ⟨mapBytes_mapSet hres (isBytes_mono (goTrimRight_subset goIsSpace value) hval),
        isBytes_nil⟩
    · cases h
      exact ⟨hres, isBytes_append hval (isBytes_cons hc isBytes_nil)⟩
  case bracedValue =>
    split at h
    · cases h
      exact ⟨hres, hval⟩
    · cases h
      exact ⟨hres, isBytes_append hval (isBytes_cons hc isBytes_nil)⟩
  case bracedValueClosingBrace =>
    split at h
    · cases h
      exact ⟨hres, isBytes_append hval (isBytes_cons hc isBytes_nil)⟩
    · split at h
      · cases h
        exact ⟨mapBytes_mapSet hres hval, isBytes_nil⟩
      · split at h
        · cases h
          exact ⟨mapBytes_mapSet hres hval, isBytes_nil⟩
        · cases h
  case endValue =>
    split at h
    · cases h
      exact ⟨hres, hval⟩
    · split at h
      · cases h
        exact ⟨hres, hval⟩
      · cases h

lemma odbcLoop_bytes {s : Str} :
    ∀ {i : Nat} {a b : OdbcAcc}, isBytes s → mapBytes a.res → isBytes a.value →
      odbcLoop i a s = .ok b → mapBytes b.res ∧ isBytes b.value := by
  induction s with
  | nil =>
    intro i a b _ hres hval h
    rw [odbcLoop] at h
    cases h
    exact ⟨hres, hval⟩
  | cons c t ih =>
    intro i a b hs hres hval h
    rw [odbcLoop] at h
    obtain ⟨a2, h1, h2⟩ := (except_bind_ok _ _ _).mp h
    obtain ⟨hres2, hval2⟩ := odbcStep_bytes (hs c (List.mem_cons_self c t)) hres hval h1
    exact ih (fun x hx => hs x (List.mem_cons_of_mem c hx)) hres2 hval2 h2

lemma odbcFinish_bytes {n : Nat} {a : OdbcAcc} {m : RawParams}
    (hres : mapBytes a.res) (hval : isBytes a.value)
    (h : odbcFinish n a = .ok m) : mapBytes m := by
  obtain ⟨res, key, value, state⟩ := a
  dsimp only at hres hval
  cases state <;> rw [odbcFinish] at h <;> dsimp only at h
  case beforeKey =>
    cases h
    exact hres
  case key =>
    cases h
    exact mapBytes_mapSet hres hval
  case beginValue =>
    cases h
    exact mapBytes_mapSet hres hval
  case bareValue =>
    cases h
    exact mapBytes_mapSet hres (isBytes_mono (goTrimRight_subset goIsSpace value) hval)
  case bracedValue => cases h
  case bracedValueClosingBrace =>
    cases h
    exact mapBytes_mapSet hres hval
  case endValue =>
    cases h
    exact hres

lemma splitConnectionStringOdbc_bytes {dsn : Str} {m : RawParams} (hdsn : isBytes dsn)
    (h : splitConnectionStringOdbc dsn = .ok m) : mapBytes m := by
  unfold splitConnectionStringOdbc at h
  obtain ⟨a, h1, h2⟩ := (except_bind_ok _ _ _).mp h
  obtain ⟨hres, hval⟩ := odbcLoop_bytes hdsn mapBytes_nil isBytes_nil h1
  exact odbcFinish_bytes hres hval h2



/-! #### Byte-boundedness through `unescape` -/

lemma unhex_le (c : Char) : unhex c ≤ 15 := by
  unfold unhex
  split
  · rename_i h
    have h1 : 48 ≤ c.toNat := h.1
    have h2 : c.toNat ≤ 57 := h.2
    have h3 : Char.toNat '0' = 48 := rfl
    omega
  · split
    · rename_i h
      have h1 : 97 ≤ c.toNat := h.1
      have h2 : c.toNat ≤ 102 := h.2
      have h3 : Char.toNat 'a' = 97 := rfl
      omega
    · split
      · rename_i h
        have h1 : 65 ≤ c.toNat := h.1
        have h2 : c.toNat ≤ 70 := h.2
        have h3 : Char.toNat 'A' = 65 := rfl
        omega
      · omega

lemma toNat_ofNat_byte {v : Nat} (h : v ≤ 255) : (Char.ofNat v).toNat = v := by
  unfold Char.ofNat
  rw [dif_pos (by left; omega : Nat.isValidChar v)]
  unfold Char.ofNatAux Char.toNat
  simp [UInt32.toNat]

lemma unescape_bytesAux {mode : encoding} :
    ∀ (n : Nat) (s : Str), s.length ≤ n → isBytes s →
      ∀ {r : Str}, unescape mode s = .ok r → isBytes r := by
  intro n
  induction n with
  | zero =>
    intro s hlen hs r h
    have hnil : s = [] := List.eq_nil_of_length_eq_zero (Nat.le_zero.mp hlen)
    subst hnil
    cases h
    exact isBytes_nil
  | succ n ih =>
    intro s hlen hs r h
    cases s with
    | nil =>
      cases h
      exact isBytes_nil
    | cons a t =>
      by_cases ha : a = '%'
      · subst ha
        cases t with
        | nil =>
          have he : unescape mode ['%'] = .error (str "invalid URL escape") := rfl
          rw [he] at h
          cases h
        | cons b t2 =>
          cases t2 with
          | nil =>
            have he : unescape mode ['%', b] = .error (str "invalid URL escape") := rfl
            rw [he] at h
            cases h
          | cons c2 t3 =>
            rw [unescape_cons_percent] at h
            split at h
            · cases h
            · split at h
              · cases h
              · split at h
                · cases h
                · obtain ⟨r0, h1, h2⟩ := (except_bind_ok _ _ _).mp h
                  cases h2
                  have hv : unhex b * 16 + unhex c2 ≤ 255 := by
                    have hb := unhex_le b
                    have hc2 := unhex_le c2
                    omega
                  refine isBytes_cons (by rw [toNat_ofNat_byte hv]; exact hv) ?_
                  refine ih t3 ?_ ?_ h1
                  · simp only [List.length_cons] at hlen
                    omega
                  · exact fun x hx => hs x (List.mem_cons_of_mem _
                      (List.mem_cons_of_mem _ (List.mem_cons_of_mem _ hx)))
      · by_cases hb : a = '+'
        · subst hb
          rw [unescape_cons_plus] at h
          obtain ⟨r0, h1, h2⟩ := (except_bind_ok _ _ _).mp h
          cases h2
          refine isBytes_cons ?_ ?_
          · by_cases hmq : mode = .encodeQueryComponent
            · rw [if_pos hmq]
              decide
            · rw [if_neg hmq]
              decide
          · refine ih t ?_ (fun x hx => hs x (List.mem_cons_of_mem _ hx)) h1
            simp only [List.length_cons] at hlen
            omega
        · rw [unescape_cons_other t ha hb] at h
          split at h
          · cases h
          · obtain ⟨r0, h1, h2⟩ := (except_bind_ok _ _ _).mp h
            cases h2
            refine isBytes_cons (hs a (List.mem_cons_self a t)) ?_
            refine ih t ?_ (fun x hx => hs x (List.mem_cons_of_mem _ hx)) h1
            simp only [List.length_cons] at hlen
            omega

lemma unescape_bytes {mode : encoding} {s r : Str} (hs : isBytes s)
    (h : unescape mode s = .ok r) : isBytes r :=
  unescape_bytesAux s.length s le_rfl hs h

/-! #### Byte-boundedness through the URL parser -/

lemma getSchemeAux_rest {orig : Str} :
    ∀ {s acc sch rest : Str}, getSchemeAux orig acc s = .ok (sch, rest) →
      rest = orig ∨ (∀ x ∈ rest, x ∈ s) := by
  intro s
  induction s with
  | nil =>
    intro acc sch rest h
    rw [getSchemeAux] at h
    cases h
    exact Or.inl rfl
  | cons c t ih =>
    intro acc sch rest h
    rw [getSchemeAux] at h
    split at h
    · rcases ih h with h1 | h1
      · exact Or.inl h1
      · exact Or.inr (fun x hx => List.mem_cons_of_mem c (h1 x hx))
    · split at h
      · split at h
        · cases h
          exact Or.inl rfl
        · rcases ih h with h1 | h1
          · exact Or.inl h1
          · exact Or.inr (fun x hx => List.mem_cons_of_mem c (h1 x hx))
      · split at h
        · split at h
          · cases h
          · cases h
            exact Or.inr (fun x hx => List.mem_cons_of_mem c hx)
        · cases h
          exact Or.inl rfl

lemma getScheme_rest {s sch rest : Str} (h : getScheme s = .ok (sch, rest)) :
    ∀ x ∈ rest, x ∈ s := by
  rcases getSchemeAux_rest h with h1 | h1
  · subst h1
    exact fun x hx => hx
  · exact h1

lemma parseHost_bytes {host r : Str} (hh : isBytes host) (h : parseHost host = .ok r) :
    isBytes r := by
  unfold parseHost at h
  split at h
  · split at h
    · cases h
    · rename_i beforeClose colonPort heq
      have hbc : isBytes beforeClose := isBytes_mono (splitAtLast_subset heq).1 hh
      have hcp : isBytes colonPort := isBytes_mono (splitAtLast_subset heq).2 hh
      split at h
      · cases h
      · split at h
        · rename_i zone hz
          obtain ⟨h1v, hh1, h2⟩ := (except_bind_ok _ _ _).mp h
          obtain ⟨h2v, hh2, h3⟩ := (except_bind_ok _ _ _).mp h2
          obtain ⟨h3v, hh3, h4⟩ := (except_bind_ok _ _ _).mp h3
          cases h4
          exact isBytes_append (isBytes_append
            (unescape_bytes (isBytes_sub (List.take_subset zone beforeClose) hbc) hh1)
            (unescape_bytes (isBytes_sub (List.drop_subset zone beforeClose) hbc) hh2))
            (unescape_bytes (isBytes_append (by decide) hcp) hh3)
        · exact unescape_bytes (isBytes_append (isBytes_append hbc (by decide)) hcp) h
  · split at h
    · rename_i bf af heq
      split at h
      · cases h
      · exact unescape_bytes hh h
    · exact unescape_bytes hh h

/-- Byte-boundedness of an optional string. -/
def optBytes : Option Str → Prop
  | none => True
  | some s => isBytes s

/-- Byte-boundedness of a parsed userinfo component. -/
def userBytes : Option (Str × Option Str) → Prop
  | none => True
  | some (u, pw) => isBytes u ∧ optBytes pw

lemma parseAuthority_bytes {auth : Str} {user : Option (Str × Option Str)} {host : Str}
    (ha : isBytes auth) (h : parseAuthority auth = .ok (user, host)) :
    userBytes user ∧ isBytes host := by
  unfold parseAuthority at h
  cases hsp : splitAtLast '@' auth with
  | none =>
    rw [hsp] at h
    obtain ⟨hv, h1, h2⟩ := (except_bind_ok _ _ _).mp h
    cases h2
    exact ⟨trivial, parseHost_bytes ha h1⟩
  | some p =>
    obtain ⟨userinfo, hostPart⟩ := p
    rw [hsp] at h
    have hui : isBytes userinfo := isBytes_mono (splitAtLast_subset hsp).1 ha
    have hhp : isBytes hostPart := isBytes_mono (splitAtLast_subset hsp).2 ha
    obtain ⟨hv, h1, h2⟩ := (except_bind_ok _ _ _).mp h
    have hhb : isBytes hv := parseHost_bytes hhp h1
    split at h2
    · cases h2
    · cases hsp2 : splitAtFirst ':' userinfo with
      | none =>
        rw [hsp2] at h2
        obtain ⟨uv, h3, h4⟩ := (except_bind_ok _ _ _).mp h2
        cases h4
        exact ⟨⟨unescape_bytes hui h3, trivial⟩, hhb⟩
      | some q =>
        obtain ⟨u0, pw0⟩ := q
        rw [hsp2] at h2
        obtain ⟨uv, h3, h4⟩ := (except_bind_ok _ _ _).mp h2
        obtain ⟨pv, h5, h6⟩ := (except_bind_ok _ _ _).mp h4
        cases h6
        exact ⟨⟨unescape_bytes (isBytes_mono (splitAtFirst_subset hsp2).1 hui) h3,
          unescape_bytes (isBytes_mono (splitAtFirst_subset hsp2).2 hui) h5⟩, hhb⟩

lemma urlParseInner_bytes {rawURL : Str} {u : GoURL} (hr : isBytes rawURL)
    (h : urlParseInner rawURL = .ok u) :
    isBytes u.host ∧ isBytes u.path ∧ isBytes u.rawQuery ∧ userBytes u.user := by
  unfold urlParseInner at h
  split at h
  · cases h
  · split at h
    · cases h
      exact ⟨isBytes_nil, by decide, isBytes_nil, trivial⟩
    · obtain ⟨⟨scheme0, rest0⟩, h1, h2⟩ := (except_bind_ok _ _ _).mp h
      have hrest0 : isBytes rest0 := isBytes_mono (getScheme_rest h1) hr
      dsimp only at h2
      have key : ∀ (rest rawQuery : Str) (forceQuery : Bool),
          isBytes rest → isBytes rawQuery →
          (if ¬ goHasPrefix (str "/") rest = true then
            if goToLower scheme0 ≠ [] then
              Except.ok { emptyURL with scheme := goToLower scheme0, opaque_ := rest,
                                        rawQuery := rawQuery, forceQuery := forceQuery }
            else if containsChar ':' (goSplitN2 '/' rest).1 = true then
              Except.error (str "first path segment in URL cannot contain colon")
            else do
              let path ← unescape .encodePath rest
              Except.ok { emptyURL with scheme := goToLower scheme0, path := path,
                                        rawQuery := rawQuery, forceQuery := forceQuery }
          else if (goToLower scheme0 ≠ [] ∨ ¬ goHasPrefix (str "///") rest = true) ∧
              goHasPrefix (str "//") rest = true then do
            let (authority, rest') :=
              match splitAtFirst '/' (rest.drop 2) with
              | some (a, b) => (a, '/' :: b)
              | none => (rest.drop 2, [])
            let (user, host) ← parseAuthority authority
            let path ← unescape .encodePath rest'
            Except.ok { emptyURL with scheme := goToLower scheme0, user := user, host := host,
                                      path := path, rawQuery := rawQuery,
                                      forceQuery := forceQuery }
          else do
            let path ← unescape .encodePath rest
            Except.ok { emptyURL with scheme := goToLower scheme0, path := path,
                                      rawQuery := rawQuery, forceQuery := forceQuery }) =
            Except.ok u →
          isBytes u.host ∧ isBytes u.path ∧ isBytes u.rawQuery ∧ userBytes u.user := by
        intro rest rawQuery forceQuery hrest hrq hb
        split at hb
        · split at hb
          · cases hb
            exact ⟨isBytes_nil, isBytes_nil, hrq, trivial⟩
          · split at hb
            · cases hb
            · obtain ⟨pathv, h3, h4⟩ := (except_bind_ok _ _ _).mp hb
              cases h4
              exact ⟨isBytes_nil, unescape_bytes hrest h3, hrq, trivial⟩
        · split at hb
          case isTrue =>
            cases hsp2 : splitAtFirst '/' (List.drop 2 rest) with
            | some p =>
              obtain ⟨a2, b2⟩ := p
              rw [hsp2] at hb
              obtain ⟨⟨userv, hostv⟩, h3, h4⟩ := (except_bind_ok _ _ _).mp hb
              dsimp only at h4
              obtain ⟨pathv, h5, h6⟩ := (except_bind_ok _ _ _).mp h4
              cases h6
              obtain ⟨huser, hhost⟩ := parseAuthority_bytes
                (isBytes_mono (fun x hx =>
                  List.drop_subset 2 rest ((splitAtFirst_subset hsp2).1 x hx)) hrest) h3
              refine ⟨hhost, unescape_bytes ?_ h5, hrq, huser⟩
              exact isBytes_cons (by decide) (isBytes_mono (fun x hx =>
                List.drop_subset 2 rest ((splitAtFirst_subset hsp2).2 x hx)) hrest)
            | none =>
              rw [hsp2] at hb
              obtain ⟨⟨userv, hostv⟩, h3, h4⟩ := (except_bind_ok _ _ _).mp hb
              dsimp only at h4
              obtain ⟨pathv, h5, h6⟩ := (except_bind_ok _ _ _).mp h4
              cases h6
              obtain ⟨huser, hhost⟩ := parseAuthority_bytes
                (isBytes_sub (List.drop_subset 2 rest) hrest) h3
              exact ⟨hhost, unescape_bytes isBytes_nil h5, hrq, huser⟩
          case isFalse =>
            obtain ⟨pathv, h3, h4⟩ := (except_bind_ok _ _ _).mp hb
            cases h4
            exact ⟨isBytes_nil, unescape_bytes hrest h3, hrq, trivial⟩
      split at h2
      · exact key _ _ _ (isBytes_sub (List.dropLast_subset rest0) hrest0) isBytes_nil h2
      · cases hsp : splitAtFirst '?' rest0 with
        | some p =>
          obtain ⟨a, b⟩ := p
          rw [hsp] at h2
          exact key _ _ _ (isBytes_mono (splitAtFirst_subset hsp).1 hrest0)
            (isBytes_mono (splitAtFirst_subset hsp).2 hrest0) h2
        | none =>
          rw [hsp] at h2
          exact key _ _ _ hrest0 isBytes_nil h2

lemma urlParse_bytes {rawURL : Str} {u : GoURL} (hr : isBytes rawURL)
    (h : urlParse rawURL = .ok u) :
    isBytes u.host ∧ isBytes u.path ∧ isBytes u.rawQuery ∧ userBytes u.user := by
  unfold urlParse at h
  split at h
  rename_i u0 frag heq
  obtain ⟨u1, h1, h2⟩ := (except_bind_ok _ _ _).mp h
  have hu0 : isBytes u0 := by
    split at heq
    · rename_i a b hsp
      cases heq
      exact isBytes_mono (splitAtFirst_subset hsp).1 hr
    · cases heq
      exact hr
  have hf := urlParseInner_bytes hu0 h1
  cases frag with
  | none =>
    cases h2
    exact hf
  | some f =>
    obtain ⟨fv, h3, h4⟩ := (except_bind_ok _ _ _).mp h2
    cases h4
    exact hf

/-! #### Byte-boundedness through the query parser and the URL tokenizer -/

/-- Every stored query value is a byte string. -/
def valuesBytes (vs : Values) : Prop := ∀ kv ∈ vs, ∀ v ∈ kv.2, isBytes v

lemma valuesBytes_nil : valuesBytes [] := fun kv hkv => absurd hkv (List.not_mem_nil kv)

lemma valuesAppend_bytes {vs : Values} {k v : Str} (hvs : valuesBytes vs) (hv : isBytes v) :
    valuesBytes (valuesAppend vs k v) := by
  induction vs with
  | nil =>
    intro kv hkv w hw
    rw [valuesAppend] at hkv
    rcases List.mem_singleton.mp hkv with rfl
    rcases List.mem_singleton.mp hw with rfl
    exact hv
  | cons e t ih =>
    obtain ⟨k', vs'⟩ := e
    intro kv hkv w hw
    rw [valuesAppend] at hkv
    by_cases hk : k' = k
    · rw [if_pos hk] at hkv
      rcases List.mem_cons.mp hkv with rfl | h2
      · rcases List.mem_append.mp hw with h3 | h3
        · exact hvs (k', vs') (List.mem_cons_self _ _) w h3
        · rcases List.mem_singleton.mp h3 with rfl
          exact hv
      · exact hvs kv (List.mem_cons_of_mem _ h2) w hw
    · rw [if_neg hk] at hkv
      rcases List.mem_cons.mp hkv with rfl | h2
      · exact hvs (k', vs') (List.mem_cons_self _ _) w hw
      · exact ih (fun q hq => hvs q (List.mem_cons_of_mem _ hq)) kv h2 w hw

lemma parseQuerySegment_bytes {m : Values} {segment : Str} (hm : valuesBytes m)
    (hseg : isBytes segment) : valuesBytes (parseQuerySegment m segment) := by
  unfold parseQuerySegment
  split
  · exact hm
  · split
    · exact hm
    · cases hsp : splitAtFirst '=' segment with
      | some p =>
        obtain ⟨a, b⟩ := p
        split
        rename_i k v heqkv
        cases heqkv
        split
        · rename_i key value hqk hqv
          exact valuesAppend_bytes hm (unescape_bytes
            (isBytes_mono (splitAtFirst_subset hsp).2 hseg) hqv)
        all_goals exact hm
      | none =>
        split
        rename_i k v heqkv
        cases heqkv
        split
        · rename_i key value hqk hqv
          exact valuesAppend_bytes hm (unescape_bytes isBytes_nil hqv)
        all_goals exact hm

lemma parseQuery_fold_bytes {segs : List Str} :
    ∀ {m : Values}, valuesBytes m → (∀ s0 ∈ segs, isBytes s0) →
      valuesBytes (segs.foldl parseQuerySegment m) := by
  induction segs with
  | nil =>
    intro m hm _
    exact hm
  | cons a t ih =>
    intro m hm hs
    rw [List.foldl_cons]
    exact ih (parseQuerySegment_bytes hm (hs a (List.mem_cons_self a t)))
      (fun q hq => hs q (List.mem_cons_of_mem a hq))

lemma parseQueryValues_bytes {q : Str} (hq : isBytes q) : valuesBytes (parseQueryValues q) := by
  unfold parseQueryValues
  split
  · exact valuesBytes_nil
  · exact parseQuery_fold_bytes valuesBytes_nil
      (fun s0 hs0 => isBytes_mono (goSplit_subset hs0) hq)

lemma urlQueryLoop_bytes {vs : Values} :
    ∀ {res m : RawParams}, valuesBytes vs → mapBytes res → urlQueryLoop vs res = .ok m →
      mapBytes m := by
  induction vs with
  | nil =>
    intro res m _ hres h
    rw [urlQueryLoop] at h
    cases h
    exact hres
  | cons kv t ih =>
    obtain ⟨k, v⟩ := kv
    intro res m hvs hres h
    rw [urlQueryLoop] at h
    split at h
    · cases h
    · refine ih (fun q hq w hw => hvs q (List.mem_cons_of_mem _ hq) w hw) ?_ h
      refine mapBytes_mapSet hres ?_
      cases v with
      | nil => exact isBytes_nil
      | cons w t2 => exact hvs (k, w :: t2) (List.mem_cons_self _ _) w (List.mem_cons_self _ _)

lemma mapBytes_ite {c : Prop} [Decidable c] {a b : RawParams} (ha : mapBytes a)
    (hb : mapBytes b) : mapBytes (if c then a else b) := by
  split
  · exact ha
  · exact hb

lemma splitHostPort_bytes {hp h pt : Str} (hb : isBytes hp)
    (hres : splitHostPort hp = .ok (h, pt)) : isBytes h ∧ isBytes pt := by
  unfold splitHostPort at hres
  split at hres
  · cases hres
  · rename_i before after heq
    split at hres
    · split at hres
      · cases hres
      · rename_i beforeClose afterClose heq2
        split at hres
        · cases hres
        · split at hres
          · split at hres
            · cases hres
            · split at hres
              · cases hres
              · cases hres
                exact ⟨isBytes_sub (List.drop_subset 1 beforeClose)
                    (isBytes_mono (splitAtFirst_subset heq2).1 hb),
                  isBytes_mono (splitAtLast_subset heq).2 hb⟩
          · split at hres
            · cases hres
            · cases hres
    · split at hres
      · cases hres
      · split at hres
        · cases hres
        · cases hres
          exact ⟨isBytes_mono (splitAtLast_subset heq).1 hb,
            isBytes_mono (splitAtLast_subset heq).2 hb⟩

/-- The user-info part of the raw map built by `splitConnectionStringURL`. -/
lemma userRes_bytes {user : Option (Str × Option Str)} :
    userBytes user →
    mapBytes (match user with
      | none => ([] : RawParams)
      | some (name, pw) =>
        match pw with
        | some pass => mapSet (mapSet ([] : RawParams) (str "user id") name)
            (str "password") pass
        | none => mapSet ([] : RawParams) (str "user id") name) := by
  intro hu
  cases user with
  | none => exact mapBytes_nil
  | some q =>
    obtain ⟨name, pw⟩ := q
    obtain ⟨hn, hpw⟩ := hu
    cases pw with
    | none => exact mapBytes_mapSet mapBytes_nil hn
    | some pass => exact mapBytes_mapSet (mapBytes_mapSet mapBytes_nil hn) hpw

lemma splitConnectionStringURL_bytes {dsn : Str} {m : RawParams} (hdsn : isBytes dsn)
    (h : splitConnectionStringURL dsn = .ok m) : mapBytes m := by
  unfold splitConnectionStringURL at h
  obtain ⟨u, h1, h2⟩ := (except_bind_ok _ _ _).mp h
  obtain ⟨hhost, hpath, hquery, huser⟩ := urlParse_bytes hdsn h1
  split at h2
  · cases h2
  · refine urlQueryLoop_bytes (parseQueryValues_bytes hquery) ?_ h2
    cases hhp : splitHostPort u.host with
    | ok p =>
      obtain ⟨hostv, portv⟩ := p
      obtain ⟨hhb, hpb⟩ := splitHostPort_bytes hhost hhp
      refine mapBytes_ite (mapBytes_mapSet (mapBytes_ite
          (mapBytes_mapSet (userRes_bytes huser) ?_)
          (mapBytes_mapSet (userRes_bytes huser) hhb)) hpb)
        (mapBytes_ite (mapBytes_mapSet (userRes_bytes huser) ?_)
          (mapBytes_mapSet (userRes_bytes huser) hhb))
      all_goals exact isBytes_append hhb (isBytes_cons (by decide)
        (isBytes_sub (List.drop_subset 1 u.path) hpath))
    | error e =>
      refine mapBytes_ite (mapBytes_mapSet (mapBytes_ite
          (mapBytes_mapSet (userRes_bytes huser) ?_)
          (mapBytes_mapSet (userRes_bytes huser) hhost)) isBytes_nil)
        (mapBytes_ite (mapBytes_mapSet (userRes_bytes huser) ?_)
          (mapBytes_mapSet (userRes_bytes huser) hhost))
      all_goals exact isBytes_append hhost (isBytes_cons (by decide)
        (isBytes_sub (List.drop_subset 1 u.path) hpath))

/-- A successful parse of a byte-string DSN factors through a successful
resolution of a raw map all of whose values are byte strings. -/
lemma parseConnectParams_bytes {fe : Str → Bool} {hn : Option Str} {dsn : Str}
    {p : connectParams} (hdsn : isBytes dsn) (h : parseConnectParams fe hn dsn = .ok p) :
    ∃ m, resolveParams fe hn m = .ok p ∧ mapBytes m := by
  unfold parseConnectParams at h
  dsimp only at h
  split at h
  · obtain ⟨m, h1, h2⟩ := (except_bind_ok _ _ _).mp h
    exact ⟨m, h2, splitConnectionStringOdbc_bytes
      (isBytes_sub (List.drop_subset 5 dsn) hdsn) h1⟩
  · split at h
    · obtain ⟨m, h1, h2⟩ := (except_bind_ok _ _ _).mp h
      exact ⟨m, h2, splitConnectionStringURL_bytes hdsn h1⟩
    · obtain ⟨m, h1, h2⟩ := (except_bind_ok _ _ _).mp h
      cases h1
      exact ⟨_, h2, splitConnectionString_bytes hdsn⟩

/-- On a successful resolution of a byte-valued raw map, the three
string fields carried into the URL query are byte strings. -/
lemma resolveParams_fieldBytes {fe : Str → Bool} {hn : Option Str} {m : RawParams}
    {p : connectParams} (hm : mapBytes m) (h : resolveParams fe hn m = .ok p) :
    isBytes p.database ∧ isBytes p.keyStoreLocation ∧ isBytes p.keyStoreSecret := by
  have hf := resolveParams_fields h
  refine ⟨?_, ?_, ?_⟩
  · rw [hf.2.2.1]
    unfold mapGetD
    cases hg : mapGet m (str "database") with
    | none => exact isBytes_nil
    | some v => exact mapGet_isBytes hm hg
  · have hspec := hf.2.2.2.2.2.2.2.2.2.2.2.1
    revert hspec
    unfold ksLocSpec
    cases hg : mapGet m (str "keystorelocation") with
    | none =>
      intro hv
      rw [hv]
      exact isBytes_nil
    | some s =>
      intro hv
      rw [hv.2.2]
      exact mapGet_isBytes hm hg
  · have hspec := hf.2.2.2.2.2.2.2.2.2.2.2.2.1
    revert hspec
    unfold ksSecretSpec
    cases hg : mapGet m (str "keystoresecret") with
    | none =>
      intro hv
      rw [hv]
      exact isBytes_nil
    | some s =>
      intro hv
      rw [hv]
      exact mapGet_isBytes hm hg

end ConnStr
namespace ConnStr

/-- **C9 (amended)** — For a configuration `p` successfully resolved from
a DSN (taken in the byte-level view of Go strings, `isBytes dsn`, which
every Go string satisfies through its UTF-8 bytes and under which the
percent-encoding layer is exact and lossless), if every character of the
resolved host is URL-host safe (kept verbatim by the host encoder and
none of `:`, `[`, `]`), then re-resolving the canonical URL
serialization of `p` succeeds and yields a configuration whose
database, logFlags, columnEncryption, keyStoreAuthentication,
keyStoreLocation and keyStoreSecret fields equal those of `p`. Without
the host restriction the round trip can fail outright, because the
serializer leaves `:` in the host unescaped. -/
theorem toUrl_roundtrip_preserves_fields {fe : Str → Bool} {hn : Option Str}
    {dsn : Str} {p : connectParams}
    (hdsn : isBytes dsn)
    (h : parseConnectParams fe hn dsn = .ok p)
    (hhost : ∀ c ∈ p.host, shouldEscape c .encodeHost = false ∧ c ≠ ':' ∧ c ≠ '[' ∧ c ≠ ']') :
    ∃ p', parseConnectParams fe hn (urlString (toUrl p)) = .ok p' ∧
      p'.database = p.database ∧ p'.logFlags = p.logFlags ∧
      p'.columnEncryption = p.columnEncryption ∧
      p'.keyStoreAuthentication = p.keyStoreAuthentication ∧
      p'.keyStoreLocation = p.keyStoreLocation ∧
      p'.keyStoreSecret = p.keyStoreSecret := by
  obtain ⟨m, hm, hmb⟩ := parseConnectParams_bytes hdsn h
  obtain ⟨hdb, hloc, hsec⟩ := resolveParams_fieldBytes hmb hm
  have hfields := resolveParams_fields hm
  have hne : p.host ≠ [] := by
    rw [hfields.1]
    exact hostSpec_ne_nil m
  have hlog : p.logFlags ≤ maxUint64 := by
    have hspec := hfields.2.2.2.2.2.1
    revert hspec
    unfold logSpec
    cases mapGet m (str "log") with
    | none => intro hv; rw [hv]; exact Nat.zero_le _
    | some s => intro hv; exact parseUint_le hv
  have hksa : p.keyStoreAuthentication = [] ∨ p.keyStoreAuthentication = str "pfx" := by
    have hspec := hfields.2.2.2.2.2.2.2.2.2.2.1
    revert hspec
    unfold ksAuthSpec
    cases mapGet m (str "keystoreauthentication") with
    | none => intro hv; exact Or.inl hv
    | some s => intro hv; exact Or.inr hv.2
  have hklfe : p.keyStoreLocation ≠ [] → fe p.keyStoreLocation = true := by
    have hspec := hfields.2.2.2.2.2.2.2.2.2.2.2.1
    revert hspec
    unfold ksLocSpec
    cases mapGet m (str "keystorelocation") with
    | none => intro hv hne2; exact absurd hv hne2
    | some s => intro hv hne2; rw [hv.2.2]; exact hv.2.1
  obtain ⟨M2, hM2, hq1, hq2, hq3, hq4, hq5, hq6, hqnone⟩ :=
    splitURL_toUrl hhost hne hdb hksa hloc hsec
  obtain ⟨p', hp', f1, f2, f3, f4, f5, f6⟩ :=
    @resolveParams_roundtrip fe hn p M2 hq1 hq2 hq3 hq4 hq5 hq6 hqnone hlog hksa hklfe
  refine ⟨p', ?_, f1, f2, f3, f4, f5, f6⟩
  have hodbc : ¬ (goHasPrefix (str "odbc:") (urlString (toUrl p)) = true) := by
    rw [urlString_toUrl p, hasPrefix_odbc]
    exact Bool.noConfusion
  have hsql : goHasPrefix (str "sqlserver://") (urlString (toUrl p)) = true := by
    rw [urlString_toUrl p]
    exact hasPrefix_sqlserver _
  unfold parseConnectParams
  rw [if_neg hodbc, if_pos hsql, hM2, ok_bind]
  exact hp'

/-- Counterexample for C9 as stated: the DSN `server=foo:bar;database=x`
resolves successfully to a configuration with host `foo:bar`, but
re-parsing its canonical URL serialization is a hard error — the
serializer keeps the `:` of the host verbatim, and the re-parse then
rejects `bar` as an invalid port. -/
theorem toUrl_roundtrip_fails_on_colon_host :
    ∃ p, parseConnectParams feNone none (str "server=foo:bar;database=x") = .ok p ∧
      isErr (parseConnectParams feNone none (urlString (toUrl p))) = true := by
  refine ⟨getOk (parseConnectParams feNone none (str "server=foo:bar;database=x")), rfl, ?_⟩
  decide

/-- Witness for C9 (amended) at the concrete DSN
`server=h;database=d;log=5;columnencryption=true;keystoresecret=s`. -/
theorem toUrl_roundtrip_preserves_fields_witness :
    ∃ p', parseConnectParams feNone none (urlString (toUrl (getOk (parseConnectParams feNone
        none (str "server=h;database=d;log=5;columnencryption=true;keystoresecret=s"))))) =
        .ok p' ∧
      p'.database = (getOk (parseConnectParams feNone none
        (str "server=h;database=d;log=5;columnencryption=true;keystoresecret=s"))).database ∧
      p'.logFlags = (getOk (parseConnectParams feNone none
        (str "server=h;database=d;log=5;columnencryption=true;keystoresecret=s"))).logFlags ∧
      p'.columnEncryption = (getOk (parseConnectParams feNone none
        (str "server=h;database=d;log=5;columnencryption=true;keystoresecret=s"))).columnEncryption ∧
      p'.keyStoreAuthentication = (getOk (parseConnectParams feNone none
        (str "server=h;database=d;log=5;columnencryption=true;keystoresecret=s"))).keyStoreAuthentication ∧
      p'.keyStoreLocation = (getOk (parseConnectParams feNone none
        (str "server=h;database=d;log=5;columnencryption=true;keystoresecret=s"))).keyStoreLocation ∧
      p'.keyStoreSecret = (getOk (parseConnectParams feNone none
        (str "server=h;database=d;log=5;columnencryption=true;keystoresecret=s"))).keyStoreSecret :=
  toUrl_roundtrip_preserves_fields
    (by decide)
    (show parseConnectParams feNone none
      (str "server=h;database=d;log=5;columnencryption=true;keystoresecret=s") =
      .ok (getOk (parseConnectParams feNone none
        (str "server=h;database=d;log=5;columnencryption=true;keystoresecret=s"))) from rfl)
    (by decide)

end ConnStr
